import Mathlib

/-!
# SimpleSmoothMouseMovement: the smoothing engine, the echo filter and the event loop

A shallow embedding of `SimpleSmoothMouseMovement.c`.

* `double` values are modelled by `Dbl`, the IEEE-754 binary64 format: the special values
  (`+inf`, `-inf`, `NaN`) are explicit constructors with the IEEE rules for them; a finite
  value is a rational number, and every arithmetic operation on finite values rounds its exact
  result to the nearest double, ties to even (`Dbl.round64`), overflowing to an infinity and
  with gradual underflow. Each operation of the source is one such operation, in the order of
  the source (no extended precision, no fused multiply-add). The two zeros are identified,
  `0` standing for `+0`.
* `LONG` / `int` values are integers; the conversion `(int)d` is `Dbl.toInt32`, and the
  32-bit subtraction in the call of `MouseMove` wraps (`wrapInt32`).
* the `static` locals of `CalcMouseTrace` are the explicit `EngineState`; the global
  `mouVelocity` is passed to and returned by `EventHandler`.
* the main loop of `WinMain` is a step function on the loop variables (`step`, iterated by
  `WinMain`), against an environment (`World`) that supplies the retrieved messages, the
  outcome of each poll and the counter readings. `GetMessage` is taken to succeed (its error
  return `-1` is not modelled) and every dispatched message reaches `EventHandler`.
-/

namespace SSMM

/-! ## Floating point values -/

/-- A `double`: a finite value, one of the two infinities, or NaN. -/
inductive Dbl where
  | fin (q : ℚ)
  | pinf
  | ninf
  | nan
  deriving DecidableEq

namespace Dbl

/-- Round to the nearest integer, ties to the even one. -/
def roundEven (x : ℚ) : Int :=
  if x - ⌊x⌋ < 1 / 2 then ⌊x⌋
  else if 1 / 2 < x - ⌊x⌋ then ⌊x⌋ + 1
  else if ⌊x⌋ % 2 = 0 then ⌊x⌋ else ⌊x⌋ + 1

/-- The exponent of the binade `q` is rounded in: `e` with `2 ^ e ≤ |q| < 2 ^ (e + 1)`, and
`-1022` for the subnormal range. (For `q = 0` the value is immaterial: every multiple of a
unit rounds `0` to `0`.) -/
def binade (q : ℚ) : Int := max (Int.log 2 |q|) (-1022)

/-- The unit in the last place of the binade of `q`: the spacing of the doubles there
(52 fraction bits). -/
def ulp (q : ℚ) : ℚ := (2 : ℚ) ^ (binade q - 52)

/-- The multiple of `ulp q` nearest to `q`, ties to the even multiple. -/
def rnd (q : ℚ) : ℚ := (roundEven (q / ulp q) : ℚ) * ulp q

/-- Rounding of an exact result to binary64: the nearest double, an infinity when the
rounded magnitude reaches `2 ^ 1024`. -/
def round64 (q : ℚ) : Dbl :=
  if (2 : ℚ) ^ (1024 : ℕ) ≤ rnd q then pinf
  else if rnd q ≤ -(2 : ℚ) ^ (1024 : ℕ) then ninf
  else fin (rnd q)

/-- A value on the grid of the doubles, overflow apart: an integer of magnitude below `2 ^ 53`
times a power of two not below `2 ^ (-1074)`. -/
def Grid (q : ℚ) : Prop :=
  ∃ m k : ℤ, |m| < 2 ^ 53 ∧ -1074 ≤ k ∧ q = (m : ℚ) * (2 : ℚ) ^ k

/-- The rational `q` is a finite double. -/
def IsDouble (q : ℚ) : Prop := Grid q ∧ |q| < (2 : ℚ) ^ (1024 : ℕ)

/-- Conversion of an integer (`LONG`, `__int64`) to `double`. -/
def ofInt (i : Int) : Dbl := round64 (i : ℚ)

/-- Unary minus. -/
def neg : Dbl → Dbl
  | fin q => fin (-q)
  | pinf => ninf
  | ninf => pinf
  | nan => nan

/-- Addition: the rounded sum of finite values; `inf + -inf` is NaN, NaN is absorbing. -/
def add : Dbl → Dbl → Dbl
  | fin a, fin b => round64 (a + b)
  | fin _, pinf => pinf
  | fin _, ninf => ninf
  | fin _, nan => nan
  | pinf, fin _ => pinf
  | pinf, pinf => pinf
  | pinf, ninf => nan
  | pinf, nan => nan
  | ninf, fin _ => ninf
  | ninf, pinf => nan
  | ninf, ninf => ninf
  | ninf, nan => nan
  | nan, _ => nan

/-- Subtraction, `x - y = x + (-y)`. -/
def sub (x y : Dbl) : Dbl := add x (neg y)

/-- The infinity with the sign of `q` times the sign of `pos`; NaN when `q = 0`. -/
def infTimes (pos : Bool) (q : ℚ) : Dbl :=
  if q = 0 then nan else if (0 < q) = pos then pinf else ninf

/-- Multiplication: the rounded product of finite values; `inf * 0` is NaN, NaN is
absorbing. -/
def mul : Dbl → Dbl → Dbl
  | fin a, fin b => round64 (a * b)
  | fin a, pinf => infTimes true a
  | fin a, ninf => infTimes false a
  | fin _, nan => nan
  | pinf, fin b => infTimes true b
  | pinf, pinf => pinf
  | pinf, ninf => ninf
  | pinf, nan => nan
  | ninf, fin b => infTimes false b
  | ninf, pinf => ninf
  | ninf, ninf => pinf
  | ninf, nan => nan
  | nan, _ => nan

/-- Division: the rounded quotient of finite values; `0 / 0` and `inf / inf` are NaN, a
non-zero finite value over zero is an infinity, a finite value over an infinity is zero. -/
def div : Dbl → Dbl → Dbl
  | fin a, fin b =>
      if b = 0 then (if a = 0 then nan else if 0 < a then pinf else ninf)
      else round64 (a / b)
  | fin _, pinf => fin 0
  | fin _, ninf => fin 0
  | fin _, nan => nan
  | pinf, fin b => if 0 ≤ b then pinf else ninf
  | pinf, pinf => nan
  | pinf, ninf => nan
  | pinf, nan => nan
  | ninf, fin b => if 0 ≤ b then ninf else pinf
  | ninf, pinf => nan
  | ninf, ninf => nan
  | ninf, nan => nan
  | nan, _ => nan

/-- The velocity of one axis after a tick with accumulated input `0`, from the velocity `v`
(lines 209-213 with `mvx = 0`, where `ax = -(vx * damper)`): `v - (v * d) * h` with each of
the three operations rounded, `d` the damper and `h` the time step. -/
def decay (d h v : ℚ) : ℚ := rnd (v - rnd (rnd (v * d) * h))

/-- The comparison `x < y`; false whenever an operand is NaN. -/
def lt : Dbl → Dbl → Bool
  | fin a, fin b => decide (a < b)
  | fin _, pinf => true
  | ninf, fin _ => true
  | ninf, pinf => true
  | _, _ => false

/-- The comparison `x != y`; true whenever an operand is NaN. -/
def ne : Dbl → Dbl → Bool
  | nan, _ => true
  | _, nan => true
  | x, y => decide (x ≠ y)

/-- Truncation of a rational toward zero. -/
def truncQ (q : ℚ) : Int := if 0 ≤ q then ⌊q⌋ else ⌈q⌉

/-- The least `int` value. -/
def INT_MIN : Int := -2147483648

/-- The greatest `int` value. -/
def INT_MAX : Int := 2147483647

/-- The conversion `(int)d`: truncation toward zero when the truncated value is an `int`.
For NaN, the infinities and values out of range the conversion is undefined in C; the model
returns `INT_MIN`, the "integer indefinite" value the x86 conversion instruction yields. -/
def toInt32 : Dbl → Int
  | fin q => if INT_MIN ≤ truncQ q ∧ truncQ q ≤ INT_MAX then truncQ q else INT_MIN
  | _ => INT_MIN

instance : Neg Dbl := ⟨neg⟩
instance : Add Dbl := ⟨add⟩
instance : Sub Dbl := ⟨sub⟩
instance : Mul Dbl := ⟨mul⟩
instance : Div Dbl := ⟨div⟩

end Dbl

open Dbl

/-- `#define NoNaN(f) (((f) != (f)) ? 0.f : (f))`. -/
def NoNaN (f : Dbl) : Dbl := if Dbl.ne f f then fin 0 else f

/-- `#define fabs(f) (((f) < 0) ? -(f) : (f))`. -/
def fabs (f : Dbl) : Dbl := if Dbl.lt f (fin 0) then -f else f

/-! ## Data -/

/-- The Win32 `POINT`: two `LONG` fields. -/
structure POINT where
  x : Int
  y : Int
  deriving DecidableEq

/-- `struct Config`. -/
structure Config where
  damper : Dbl
  accelerator : Dbl
  vel_threshold : Dbl

/-- The initial value of the global `config`, `{ 5, 5, 0.5 }`. -/
def config : Config := ⟨fin 5, fin 5, fin (1 / 2)⟩

/-- The double nearest to `0.1`. -/
def tenth : ℚ := 3602879701896397 / 36028797018963968

/-- The `static` locals of `CalcMouseTrace`: velocity `vx, vy` and residual `dx, dy`. -/
structure EngineState where
  vx : Dbl
  vy : Dbl
  dx : Dbl
  dy : Dbl
  deriving DecidableEq

/-- The initial engine state (all statics are `0`), also the state a settled tick leaves. -/
def EngineState.rest : EngineState := ⟨fin 0, fin 0, fin 0, fin 0⟩

/-! ## The smoothing engine -/

/-- The instantaneous velocity of one axis, `NoNaN(in.x / dt)` (lines 206-207). -/
def instVelocity (i : Int) (dt : Dbl) : Dbl := NoNaN (Dbl.ofInt i / dt)

/-- The Euler integration of `CalcMouseTrace` (lines 206-216): the statics after
`dx += vx * dt; dy += vy * dt`, before the conversion to integers. -/
def integrate (c : Config) (s : EngineState) (inp : POINT) (dt : Dbl) : EngineState :=
  let mvx := instVelocity inp.x dt
  let mvy := instVelocity inp.y dt
  let ax := mvx * c.accelerator - s.vx * c.damper
  let ay := mvy * c.accelerator - s.vy * c.damper
  let vx := s.vx + ax * dt
  let vy := s.vy + ay * dt
  let dx := s.dx + vx * dt
  let dy := s.dy + vy * dt
  ⟨vx, vy, dx, dy⟩

/-- `BOOL CalcMouseTrace(POINT* out, POINT in, double dt)`: the new statics, `*out` and the
returned flag. -/
def CalcMouseTrace (c : Config) (s : EngineState) (inp : POINT) (dt : Dbl) :
    EngineState × POINT × Bool :=
  let i := integrate c s inp dt
  let out : POINT := ⟨Dbl.toInt32 i.dx, Dbl.toInt32 i.dy⟩
  let dx := i.dx - Dbl.ofInt out.x
  let dy := i.dy - Dbl.ofInt out.y
  if Dbl.lt (fabs i.vx) c.vel_threshold && Dbl.lt (fabs i.vy) c.vel_threshold then
    (⟨fin 0, fin 0, fin 0, fin 0⟩, out, true)
  else
    (⟨i.vx, i.vy, dx, dy⟩, out, false)

/-- The engine state after the ticks of `l` (accumulated input and `dt` of each tick). -/
def runTicks (c : Config) (s : EngineState) (l : List (POINT × Dbl)) : EngineState :=
  l.foldl (fun st t => (CalcMouseTrace c st t.1 t.2).1) s

/-- The engine state after `n` ticks with accumulated input `(0, 0)` and the same `dt`. -/
def zeroTicks (c : Config) (dt : Dbl) (s : EngineState) : Nat → EngineState
  | 0 => s
  | n + 1 => (CalcMouseTrace c (zeroTicks c dt s n) ⟨0, 0⟩ dt).1

/-- What one tick contributes to the running sums: the emitted integer delta, the position
delta `vx * dt`, `vy * dt` (as computed, a double) added to the residual in that tick, and the
flag. -/
structure TickLog where
  out : POINT
  posx : Dbl
  posy : Dbl
  done : Bool

/-- The per-tick records of the ticks of `l`, started in state `s`. -/
def ticksLog (c : Config) : EngineState → List (POINT × Dbl) → List TickLog
  | _, [] => []
  | s, t :: l =>
      let i := integrate c s t.1 t.2
      let r := CalcMouseTrace c s t.1 t.2
      ⟨r.2.1, i.vx * t.2, i.vy * t.2, r.2.2⟩ :: ticksLog c r.1 l

/-- Running sum of the emitted integer deltas, x axis. -/
def sumOutX (l : List TickLog) : Int := (l.map fun t => t.out.x).sum

/-- Running sum of the emitted integer deltas, y axis. -/
def sumOutY (l : List TickLog) : Int := (l.map fun t => t.out.y).sum

/-- The value of a finite double; `0` for the special values. -/
def Dbl.val : Dbl → ℚ
  | fin q => q
  | _ => 0

/-- Running sum (exact, not rounded) of the position deltas `vx * dt` the ticks computed. -/
def sumPosX (l : List TickLog) : ℚ := (l.map fun t => t.posx.val).sum

/-- Running sum (exact, not rounded) of the position deltas `vy * dt` the ticks computed. -/
def sumPosY (l : List TickLog) : ℚ := (l.map fun t => t.posy.val).sum

/-- The value `d` converts to an `int` without leaving the range: it is finite and its
truncation lies in `[INT_MIN, INT_MAX]`. -/
def Representable : Dbl → Prop
  | fin q => INT_MIN ≤ truncQ q ∧ truncQ q ≤ INT_MAX
  | _ => False

/-- A sequence of ticks on which every step of the engine is defined arithmetic: each `dt` is
finite, a zero `dt` comes only with a zero input (so `in / dt` is never an infinity), and each
integrated residual converts to an `int` within range. -/
def Regular (c : Config) : EngineState → List (POINT × Dbl) → Prop
  | _, [] => True
  | s, t :: l =>
      (∃ h : ℚ, t.2 = fin h ∧ (h ≠ 0 ∨ t.1 = ⟨0, 0⟩)) ∧
      Representable (integrate c s t.1 t.2).dx ∧
      Representable (integrate c s t.1 t.2).dy ∧
      Regular c (CalcMouseTrace c s t.1 t.2).1 l

/-! ## The echo filter and the synthetic input sink -/

/-- `#define IT_IS_SENT_BY_ME 3584750163`. -/
def IT_IS_SENT_BY_ME : Nat := 3584750163

/-- Window message `WM_DESTROY`. -/
def WM_DESTROY : Nat := 0x0002

/-- Window message `WM_QUIT`. -/
def WM_QUIT : Nat := 0x0012

/-- Window message `WM_INPUT`. -/
def WM_INPUT : Nat := 0x00FF

/-- Raw input device type `RIM_TYPEMOUSE`. -/
def RIM_TYPEMOUSE : Nat := 0

/-- Mouse event flag `MOUSEEVENTF_MOVE`. -/
def MOUSEEVENTF_MOVE : Nat := 0x0001

/-- The fields of `RAWINPUT` the handler reads: `header.dwType` and, of `data.mouse`,
`ulExtraInformation`, `lLastX`, `lLastY`. -/
structure RAWINPUT where
  dwType : Nat
  ulExtraInformation : Nat
  lLastX : Int
  lLastY : Int
  deriving DecidableEq

/-- `EventHandler`, as its effect on the global `mouVelocity`: `event` is the message code and
`raw` the content of the static buffer after `GetRawInputData`. `PostQuitMessage` and
`DefWindowProc` do not touch `mouVelocity`. -/
def EventHandler (mouVelocity : POINT) (event : Nat) (raw : RAWINPUT) : POINT :=
  if event = WM_DESTROY then mouVelocity
  else if event = WM_INPUT then
    if raw.dwType = RIM_TYPEMOUSE then
      if raw.ulExtraInformation = IT_IS_SENT_BY_ME then ⟨0, 0⟩
      else ⟨raw.lLastX, raw.lLastY⟩
    else mouVelocity
  else mouVelocity

/-- The fields of the `INPUT` record handed to `SendInput`. -/
structure INPUT where
  dx : Int
  dy : Int
  dwFlags : Nat
  dwExtraInfo : Nat
  deriving DecidableEq

/-- `MouseMove`: the `SendInput` call it makes, `none` when it returns before the call. -/
def MouseMove (dx dy : Int) : Option INPUT :=
  if dx = 0 ∧ dy = 0 then none
  else some ⟨dx, dy, MOUSEEVENTF_MOVE, IT_IS_SENT_BY_ME⟩

/-- Two's-complement wrap of an integer to the `int` range, the result of 32-bit
subtraction. -/
def wrapInt32 (i : Int) : Int := (i + 2147483648) % 4294967296 - 2147483648

/-! ## The event/tick loop of `WinMain` -/

/-- A retrieved `MSG`: the message code and the raw input data its `lParam` stands for. -/
structure MSG where
  message : Nat
  raw : RAWINPUT
  deriving DecidableEq

/-- The environment of the loop: `msgs k` is the `k`-th message the thread retrieves (by
`GetMessage`, which waits for it, or by `PeekMessage`), `pending k` tells whether the `k`-th
`PeekMessage` finds a message, `counter k` is the `k`-th value read by
`QueryPerformanceCounter`, `freq` the value of `QueryPerformanceFrequency`. -/
structure World where
  msgs : Nat → MSG
  pending : Nat → Bool
  counter : Nat → Int
  freq : Int

/-- Control points of the main loop: `waiting` is the test of the outer `while` (the blocking
`GetMessage`), `draining` the test of the inner `while`, `quit` the code after the loop. -/
inductive Pc where
  | waiting
  | draining
  | quit
  deriving DecidableEq

/-- One pass through the body of the inner loop after the `WM_QUIT` test: the message
dispatched (if one was received), the engine state before the tick, the arguments and results
of `CalcMouseTrace`, the arguments of `MouseMove` and the `SendInput` call it made, and the
result of `PeekMessage`. -/
structure Iteration where
  dispatched : Option MSG
  before : EngineState
  inp : POINT
  dt : Dbl
  out : POINT
  done : Bool
  moveDx : Int
  moveDy : Int
  sent : Option INPUT
  peeked : Option MSG

/-- What the loop did, in order. -/
inductive LogEntry where
  | getMessage (m : MSG)
  | iteration (it : Iteration)

/-- The variables of the main loop, the globals, and the position in the environment. -/
structure Loop where
  pc : Pc
  event : MSG
  quit : Bool
  done : Bool
  received : Bool
  t1 : Int
  mouVelocity : POINT
  engine : EngineState
  nMsg : Nat
  nPeek : Nat
  nClock : Nat
  log : List LogEntry

/-- The state on entry to the main loop. -/
def Loop.init : Loop :=
  { pc := Pc.waiting, event := ⟨0, ⟨0, 0, 0, 0⟩⟩, quit := false, done := false,
    received := false, t1 := 0, mouVelocity := ⟨0, 0⟩, engine := EngineState.rest,
    nMsg := 0, nPeek := 0, nClock := 0, log := [] }

/-- One pass from a control point to the next (lines 99-131). -/
def step (c : Config) (w : World) (l : Loop) : Loop :=
  match l.pc with
  | Pc.quit => l
  | Pc.waiting =>
      -- while (GetMessage(&event, NULL, WM_QUIT, WM_INPUT) && !quit)
      let m := w.msgs l.nMsg
      let l1 := { l with event := m, nMsg := l.nMsg + 1, log := l.log ++ [LogEntry.getMessage m] }
      if m.message ≠ WM_QUIT ∧ l1.quit = false then
        { l1 with t1 := w.counter l1.nClock, nClock := l1.nClock + 1, received := true,
                  pc := Pc.draining }
      else
        { l1 with pc := Pc.quit }
  | Pc.draining =>
      -- while (!done || received)
      if l.done = false ∨ l.received = true then
        if l.received = true ∧ l.event.message = WM_QUIT then
          -- quit = TRUE; break;   then   done = FALSE;
          { l with quit := true, done := false, pc := Pc.waiting }
        else
          let mouVelocity :=
            if l.received = true then EventHandler l.mouVelocity l.event.message l.event.raw
            else l.mouVelocity
          let t2 := w.counter l.nClock
          let dt := Dbl.ofInt (t2 - l.t1) / Dbl.ofInt w.freq
          let r := CalcMouseTrace c l.engine mouVelocity dt
          let idS := r.2.1
          let mdx := wrapInt32 (idS.x - mouVelocity.x)
          let mdy := wrapInt32 (idS.y - mouVelocity.y)
          let sent := MouseMove mdx mdy
          let received := w.pending l.nPeek
          let it : Iteration :=
            { dispatched := if l.received = true then some l.event else none,
              before := l.engine, inp := mouVelocity, dt := dt, out := idS, done := r.2.2,
              moveDx := mdx, moveDy := mdy, sent := sent,
              peeked := if received = true then some (w.msgs l.nMsg) else none }
          { l with
            event := if received = true then w.msgs l.nMsg else l.event,
            nMsg := if received = true then l.nMsg + 1 else l.nMsg,
            nPeek := l.nPeek + 1, nClock := l.nClock + 1,
            t1 := t2, done := r.2.2, engine := r.1, mouVelocity := ⟨0, 0⟩,
            received := received, log := l.log ++ [LogEntry.iteration it] }
      else
        -- done = FALSE;
        { l with done := false, pc := Pc.waiting }

/-- The main loop of `WinMain` after `n` passes. -/
def WinMain (c : Config) (w : World) : Nat → Loop
  | 0 => Loop.init
  | n + 1 => step c w (WinMain c w n)

/-- A sample environment: every retrieved message is a genuine mouse movement `(100, 0)`,
no poll finds a message pending, the counter advances by one per reading at 10 counts per
second. -/
def World.steady : World :=
  { msgs := fun _ => ⟨WM_INPUT, ⟨RIM_TYPEMOUSE, 0, 100, 0⟩⟩,
    pending := fun _ => false,
    counter := fun k => (k : Int),
    freq := 10 }

/-- A sample environment in which the quit message is found by a poll: the first message is a
genuine mouse movement `(1, 0)`, the second is `WM_QUIT`, later ones are mouse movements
again; every poll finds a message pending. -/
def World.quitWhileDraining : World :=
  { msgs := fun k =>
      if k = 1 then ⟨WM_QUIT, ⟨0, 0, 0, 0⟩⟩ else ⟨WM_INPUT, ⟨RIM_TYPEMOUSE, 0, 1, 0⟩⟩,
    pending := fun _ => true,
    counter := fun k => (k : Int),
    freq := 10 }

/-- None of the operations that integrate one axis (lines 206-216) rounds: with velocity `v`,
residual `r`, input `i`, `dt = h` and configuration `damper = d`, `accelerator = a`, the exact
result of the conversion of `i` and of each of the eight operations is a double. -/
def ExactAxis (d a v r : ℚ) (i : Int) (h : ℚ) : Prop :=
  Dbl.IsDouble (i : ℚ) ∧
  Dbl.IsDouble ((i : ℚ) / h) ∧
  Dbl.IsDouble ((i : ℚ) / h * a) ∧
  Dbl.IsDouble (v * d) ∧
  Dbl.IsDouble ((i : ℚ) / h * a - v * d) ∧
  Dbl.IsDouble (((i : ℚ) / h * a - v * d) * h) ∧
  Dbl.IsDouble (v + ((i : ℚ) / h * a - v * d) * h) ∧
  Dbl.IsDouble ((v + ((i : ℚ) / h * a - v * d) * h) * h) ∧
  Dbl.IsDouble (r + (v + ((i : ℚ) / h * a - v * d) * h) * h)

/-! # Theorems -/

/-! ## Rounding to the nearest integer -/

theorem roundEven_intCast (n : Int) : roundEven (n : ℚ) = n := by
  unfold roundEven
  simp

theorem abs_roundEven_sub_le (x : ℚ) : |(roundEven x : ℚ) - x| ≤ 1 / 2 := by
  have h1 := Int.floor_le x
  have h2 := Int.lt_floor_add_one x
  unfold roundEven
  split_ifs with a b c
  · rw [abs_le]; constructor <;> linarith
  · rw [abs_le]; push_cast; constructor <;> linarith
  · rw [abs_le]; constructor <;> linarith
  · rw [abs_le]; push_cast; constructor <;> linarith

theorem roundEven_le_of_le (x : ℚ) (j : Int) (h : x ≤ j) : roundEven x ≤ j := by
  have h1 := Int.floor_le x
  have hf : ⌊x⌋ ≤ j := by exact_mod_cast (Int.floor_le x).trans h
  by_cases hx : (⌊x⌋ : ℚ) = x
  · have : roundEven x = ⌊x⌋ := by
      unfold roundEven
      rw [if_pos (by rw [hx]; norm_num)]
    rw [this]; exact hf
  · have hlt : (⌊x⌋ : ℚ) < j := lt_of_lt_of_le (lt_of_le_of_ne h1 hx) h
    have hlt2 : ⌊x⌋ < j := by exact_mod_cast hlt
    unfold roundEven
    split_ifs <;> omega

theorem le_roundEven_of_le (x : ℚ) (j : Int) (h : (j : ℚ) ≤ x) : j ≤ roundEven x := by
  have hf : j ≤ ⌊x⌋ := Int.le_floor.mpr h
  unfold roundEven
  split_ifs <;> omega

theorem roundEven_eq_of_abs_lt (x : ℚ) (n : Int) (h : |x - n| < 1 / 2) : roundEven x = n := by
  have h0 := abs_roundEven_sub_le x
  rw [abs_lt] at h
  rw [abs_le] at h0
  have h1 : ((roundEven x - n : Int) : ℚ) < 1 := by push_cast; linarith
  have h2 : (-1 : ℚ) < ((roundEven x - n : Int) : ℚ) := by push_cast; linarith
  have h3 : roundEven x - n < 1 := by exact_mod_cast h1
  have h4 : -1 < roundEven x - n := by exact_mod_cast h2
  omega

theorem roundEven_neg (x : ℚ) : roundEven (-x) = -roundEven x := by
  by_cases hx : (⌊x⌋ : ℚ) = x
  · rw [← hx, ← Int.cast_neg, roundEven_intCast, roundEven_intCast]
  · have h1 := Int.floor_le x
    have h2 := Int.lt_floor_add_one x
    have hlt : (⌊x⌋ : ℚ) < x := lt_of_le_of_ne h1 hx
    have hfl : ⌊-x⌋ = -⌊x⌋ - 1 := by
      rw [Int.floor_eq_iff]
      push_cast
      constructor <;> linarith
    unfold roundEven
    rw [hfl]
    push_cast
    split_ifs <;> first | omega | (exfalso; linarith)

/-! ## Binades and the unit in the last place -/

theorem binade_ge (q : ℚ) : -1022 ≤ binade q := le_max_right _ _

theorem log_le_binade (q : ℚ) : Int.log 2 |q| ≤ binade q := le_max_left _ _

theorem binade_neg (q : ℚ) : binade (-q) = binade q := by
  unfold binade
  rw [abs_neg]

theorem ulp_neg (q : ℚ) : ulp (-q) = ulp q := by
  unfold ulp
  rw [binade_neg]

theorem ulp_pos (q : ℚ) : 0 < ulp q := by
  unfold ulp
  positivity

theorem two_zpow_le (m n : ℤ) (h : m ≤ n) : (2 : ℚ) ^ m ≤ (2 : ℚ) ^ n :=
  zpow_le_zpow_right₀ (by norm_num) h

theorem two_zpow_lt (m n : ℤ) (h : m < n) : (2 : ℚ) ^ m < (2 : ℚ) ^ n :=
  (zpow_lt_zpow_iff_right₀ (by norm_num)).mpr h

theorem lt_of_two_zpow_lt (m n : ℤ) (h : (2 : ℚ) ^ m < (2 : ℚ) ^ n) : m < n :=
  (zpow_lt_zpow_iff_right₀ (by norm_num)).mp h

theorem zpow_log_le_abs (q : ℚ) (hq : q ≠ 0) : (2 : ℚ) ^ Int.log 2 |q| ≤ |q| := by
  have h := Int.zpow_log_le_self (b := 2) (r := |q|) (by norm_num) (abs_pos.mpr hq)
  exact_mod_cast h

theorem abs_lt_zpow_log_succ (q : ℚ) : |q| < (2 : ℚ) ^ (Int.log 2 |q| + 1) := by
  have h := Int.lt_zpow_succ_log_self (b := 2) (by norm_num) (|q|)
  exact_mod_cast h

theorem abs_lt_zpow_binade_succ (q : ℚ) : |q| < (2 : ℚ) ^ (binade q + 1) :=
  lt_of_lt_of_le (abs_lt_zpow_log_succ q)
    (two_zpow_le _ _ (by have := log_le_binade q; omega))

theorem binade_eq (q : ℚ) (e : ℤ) (h1 : (2 : ℚ) ^ e ≤ |q|) (h2 : |q| < (2 : ℚ) ^ (e + 1))
    (he : -1022 ≤ e) : binade q = e := by
  have hpos : 0 < |q| := lt_of_lt_of_le (by positivity) h1
  have hlog : Int.log 2 |q| = e := by
    apply le_antisymm
    · have := (Int.lt_zpow_iff_log_lt (b := 2) (by norm_num) hpos (x := e + 1)).mp
        (by exact_mod_cast h2)
      omega
    · exact (Int.zpow_le_iff_le_log (b := 2) (by norm_num) hpos).mp (by exact_mod_cast h1)
  unfold binade
  rw [hlog]
  exact max_eq_left he

/-- A non-negative integer power of two is an integer. -/
theorem two_zpow_nonneg_eq (j : ℤ) (hj : 0 ≤ j) :
    (2 : ℚ) ^ j = (((2 : ℤ) ^ j.toNat : ℤ) : ℚ) := by
  have h : j = (j.toNat : ℤ) := (Int.toNat_of_nonneg hj).symm
  conv_lhs => rw [h]
  rw [zpow_natCast]
  push_cast
  rfl

/-! ## Rounding to the nearest double -/

theorem rnd_zero : rnd 0 = 0 := by
  unfold rnd
  simp [roundEven_intCast, show roundEven 0 = 0 from by simpa using roundEven_intCast 0]

theorem rnd_neg (q : ℚ) : rnd (-q) = -rnd q := by
  unfold rnd
  rw [ulp_neg, neg_div, roundEven_neg]
  push_cast
  ring

theorem abs_rnd_sub_le (q : ℚ) : |rnd q - q| ≤ ulp q / 2 := by
  have hu := ulp_pos q
  have h := abs_roundEven_sub_le (q / ulp q)
  have e : rnd q - q = ((roundEven (q / ulp q) : ℚ) - q / ulp q) * ulp q := by
    unfold rnd
    field_simp
  rw [e, abs_mul, abs_of_pos hu]
  nlinarith

/-- A grid value over its own unit in the last place is an integer. -/
theorem grid_div_ulp (m k : ℤ) (hm : |m| < 2 ^ 53) (hk : -1074 ≤ k) (hm0 : m ≠ 0) :
    0 ≤ k - (binade ((m : ℚ) * (2 : ℚ) ^ k) - 52) ∧
    (m : ℚ) * (2 : ℚ) ^ k / ulp ((m : ℚ) * (2 : ℚ) ^ k) =
      ((m * (2 : ℤ) ^ (k - (binade ((m : ℚ) * (2 : ℚ) ^ k) - 52)).toNat : ℤ) : ℚ) := by
  set q : ℚ := (m : ℚ) * (2 : ℚ) ^ k with hq
  have h2k : (0 : ℚ) < (2 : ℚ) ^ k := by positivity
  have hq0 : q ≠ 0 := mul_ne_zero (by exact_mod_cast hm0) (ne_of_gt h2k)
  have habs : |q| = (|m| : ℚ) * (2 : ℚ) ^ k := by
    rw [hq, abs_mul, abs_of_pos h2k]
  have hmq : |(m : ℚ)| < (2 : ℚ) ^ (53 : ℤ) := by
    have h1 : ((|m| : ℤ) : ℚ) < (((2 : ℤ) ^ 53 : ℤ) : ℚ) := Int.cast_lt.mpr hm
    rw [Int.cast_abs] at h1
    norm_num at h1 ⊢
    exact h1
  have hlt : |q| < (2 : ℚ) ^ (53 + k) := by
    rw [habs, zpow_add₀ (by norm_num)]
    exact mul_lt_mul_of_pos_right hmq h2k
  have hlog : Int.log 2 |q| < 53 + k :=
    lt_of_two_zpow_lt _ _ (lt_of_le_of_lt (zpow_log_le_abs q hq0) hlt)
  have hb : binade q - 52 ≤ k := by
    unfold binade
    rcases max_cases (Int.log 2 |q|) (-1022) with ⟨h, -⟩ | ⟨h, -⟩ <;> rw [h] <;> omega
  have hj : 0 ≤ k - (binade q - 52) := by omega
  refine ⟨hj, ?_⟩
  have hsplit : (2 : ℚ) ^ k = (2 : ℚ) ^ (k - (binade q - 52)) * (2 : ℚ) ^ (binade q - 52) := by
    rw [← zpow_add₀ (by norm_num)]
    congr 1; ring
  have hu : ulp q = (2 : ℚ) ^ (binade q - 52) := rfl
  have hupos : (0 : ℚ) < (2 : ℚ) ^ (binade q - 52) := by positivity
  rw [hu, div_eq_iff hupos.ne']
  push_cast
  have h2j := two_zpow_nonneg_eq _ hj
  push_cast at h2j
  rw [← h2j, mul_assoc, ← hsplit]

theorem rnd_of_grid (q : ℚ) (h : Grid q) : rnd q = q := by
  obtain ⟨m, k, hm, hk, rfl⟩ := h
  by_cases hm0 : m = 0
  · subst hm0; simp [rnd_zero]
  · obtain ⟨-, e⟩ := grid_div_ulp m k hm hk hm0
    have hu := ulp_pos ((m : ℚ) * (2 : ℚ) ^ k)
    unfold rnd
    rw [e, roundEven_intCast, ← e]
    field_simp

theorem abs_div_ulp_lt (q : ℚ) : |q / ulp q| < (2 : ℚ) ^ (53 : ℤ) := by
  have hu := ulp_pos q
  rw [abs_div, abs_of_pos hu, div_lt_iff₀ hu]
  have h := abs_lt_zpow_binade_succ q
  have e : (2 : ℚ) ^ (53 : ℤ) * ulp q = (2 : ℚ) ^ (binade q + 1) := by
    unfold ulp
    rw [← zpow_add₀ (by norm_num)]
    congr 1; ring
  rw [e]; exact h

theorem abs_roundEven_div_ulp_le (q : ℚ) : |roundEven (q / ulp q)| ≤ 2 ^ 53 := by
  have h := abs_div_ulp_lt q
  rw [abs_lt] at h
  rw [abs_le]
  constructor
  · apply le_roundEven_of_le
    have : (((-2 ^ 53 : ℤ)) : ℚ) = -(2 : ℚ) ^ (53 : ℤ) := by norm_num
    rw [this]; exact h.1.le
  · apply roundEven_le_of_le
    have : (((2 ^ 53 : ℤ)) : ℚ) = (2 : ℚ) ^ (53 : ℤ) := by norm_num
    rw [this]; exact h.2.le

/-- The rounded value is on the grid. -/
theorem grid_rnd (q : ℚ) : Grid (rnd q) := by
  have hn := abs_roundEven_div_ulp_le q
  have hb := binade_ge q
  by_cases hlt : |roundEven (q / ulp q)| < 2 ^ 53
  · exact ⟨roundEven (q / ulp q), binade q - 52, hlt, by omega, rfl⟩
  · have heq : |roundEven (q / ulp q)| = 2 ^ 53 := le_antisymm hn (not_lt.mp hlt)
    have hsplit : (2 : ℚ) ^ (binade q - 52) = (2 : ℚ) ^ (binade q - 51) / 2 := by
      rw [show binade q - 52 = (binade q - 51) + (-1) by ring, zpow_add₀ (by norm_num)]
      norm_num
      ring
    rcases abs_eq (by norm_num : (0 : ℤ) ≤ 2 ^ 53) |>.mp heq with h | h
    · refine ⟨2 ^ 52, binade q - 51, by norm_num, by omega, ?_⟩
      have hu : ulp q = (2 : ℚ) ^ (binade q - 52) := rfl
      unfold rnd
      rw [h, hu, hsplit]
      push_cast
      ring
    · refine ⟨-2 ^ 52, binade q - 51, by norm_num, by omega, ?_⟩
      have hu : ulp q = (2 : ℚ) ^ (binade q - 52) := rfl
      unfold rnd
      rw [h, hu, hsplit]
      push_cast
      ring

theorem round64_of_abs_lt (q : ℚ) (h : |rnd q| < (2 : ℚ) ^ (1024 : ℕ)) :
    round64 q = fin (rnd q) := by
  rw [abs_lt] at h
  unfold round64
  rw [if_neg (not_le.mpr h.2), if_neg (not_le.mpr h.1)]

theorem round64_eq_fin (q r : ℚ) (h : round64 q = fin r) :
    r = rnd q ∧ |rnd q| < (2 : ℚ) ^ (1024 : ℕ) := by
  unfold round64 at h
  split_ifs at h with h1 h2
  injection h with h
  exact ⟨h.symm, abs_lt.mpr ⟨not_le.mp h2, not_le.mp h1⟩⟩

theorem round64_zero : round64 0 = fin 0 := by
  rw [round64_of_abs_lt 0 (by rw [rnd_zero]; norm_num), rnd_zero]

theorem round64_of_grid (q : ℚ) (h : Grid q) (hq : |q| < (2 : ℚ) ^ (1024 : ℕ)) :
    round64 q = fin q := by
  have e := rnd_of_grid q h
  rw [round64_of_abs_lt q (by rw [e]; exact hq), e]

/-- The result of a rounding, when finite, is a double: on the grid and below `2 ^ 1024`. -/
theorem grid_of_round64 (q r : ℚ) (h : round64 q = fin r) :
    Grid r ∧ |r| < (2 : ℚ) ^ (1024 : ℕ) := by
  obtain ⟨e, hb⟩ := round64_eq_fin q r h
  rw [e]
  exact ⟨grid_rnd q, hb⟩

theorem grid_intCast (n : ℤ) (hn : |n| < 2 ^ 53) : Grid (n : ℚ) :=
  ⟨n, 0, hn, by norm_num, by simp⟩

theorem round64_intCast (n : ℤ) (hn : |n| < 2 ^ 53) : round64 (n : ℚ) = fin (n : ℚ) := by
  apply round64_of_grid _ (grid_intCast n hn)
  have h1 : ((|n| : ℤ) : ℚ) < (((2 : ℤ) ^ 53 : ℤ) : ℚ) := Int.cast_lt.mpr hn
  rw [Int.cast_abs] at h1
  refine lt_trans h1 ?_
  norm_num

theorem grid_dyadic (m : ℤ) (k : ℕ) (hm : |m| < 2 ^ 53) (hk : k ≤ 1074) :
    Grid ((m : ℚ) / (2 : ℚ) ^ k) :=
  ⟨m, -(k : ℤ), hm, by omega, by rw [zpow_neg, zpow_natCast]; ring⟩

theorem round64_dyadic (m : ℤ) (k : ℕ) (hm : |m| < 2 ^ 53) (hk : k ≤ 1074) :
    round64 ((m : ℚ) / (2 : ℚ) ^ k) = fin ((m : ℚ) / (2 : ℚ) ^ k) := by
  apply round64_of_grid _ (grid_dyadic m k hm hk)
  have h1 : ((|m| : ℤ) : ℚ) < (((2 : ℤ) ^ 53 : ℤ) : ℚ) := Int.cast_lt.mpr hm
  rw [Int.cast_abs] at h1
  have h2 : (1 : ℚ) ≤ (2 : ℚ) ^ k := one_le_pow₀ (by norm_num)
  rw [abs_div, abs_of_pos (by positivity : (0 : ℚ) < (2 : ℚ) ^ k)]
  calc |(m : ℚ)| / (2 : ℚ) ^ k ≤ |(m : ℚ)| := div_le_self (abs_nonneg _) h2
    _ < (((2 : ℤ) ^ 53 : ℤ) : ℚ) := h1
    _ < (2 : ℚ) ^ (1024 : ℕ) := by norm_num

/-- Evaluation of a rounding in the normal range: `e` is the binade of `q` and `n` the
integer nearest to `q / 2 ^ (e - 52)`. -/
theorem round64_eq (q : ℚ) (e n : ℤ) (h1 : (2 : ℚ) ^ e ≤ |q|) (h2 : |q| < (2 : ℚ) ^ (e + 1))
    (he : -1022 ≤ e) (hn : |q / (2 : ℚ) ^ (e - 52) - n| < 1 / 2)
    (hfin : |(n : ℚ) * (2 : ℚ) ^ (e - 52)| < (2 : ℚ) ^ (1024 : ℕ)) :
    round64 q = fin ((n : ℚ) * (2 : ℚ) ^ (e - 52)) := by
  have hb := binade_eq q e h1 h2 he
  have hr : rnd q = (n : ℚ) * (2 : ℚ) ^ (e - 52) := by
    unfold rnd ulp
    rw [hb, roundEven_eq_of_abs_lt _ n hn]
  rw [round64_of_abs_lt q (by rw [hr]; exact hfin), hr]

/-! ## Rounding against grid values -/

theorem grid_neg (q : ℚ) (h : Grid q) : Grid (-q) := by
  obtain ⟨m, k, hm, hk, rfl⟩ := h
  exact ⟨-m, k, by rwa [abs_neg], hk, by push_cast; ring⟩

theorem grid_zero : Grid 0 := ⟨0, 0, by norm_num, by norm_num, by simp⟩

theorem grid_two_zpow (k : ℤ) (hk : -1074 ≤ k) : Grid ((2 : ℚ) ^ k) :=
  ⟨1, k, by norm_num, hk, by simp⟩

/-- A grid value in the binade `e` or above it, or any grid value when `e = -1022`, is a
multiple of the unit `2 ^ (e - 52)` of that binade. -/
theorem grid_multiple (y : ℚ) (e : ℤ) (g : Grid y)
    (h : (2 : ℚ) ^ e ≤ |y| ∨ e = -1022) : ∃ j : ℤ, y = (j : ℚ) * (2 : ℚ) ^ (e - 52) := by
  obtain ⟨m, k, hm, hk, rfl⟩ := g
  have h2k : (0 : ℚ) < (2 : ℚ) ^ k := by positivity
  have hke : e - 52 ≤ k := by
    rcases h with h | h
    · have hmq : |(m : ℚ)| < (2 : ℚ) ^ (53 : ℤ) := by
        have h1 : ((|m| : ℤ) : ℚ) < (((2 : ℤ) ^ 53 : ℤ) : ℚ) := Int.cast_lt.mpr hm
        rw [Int.cast_abs] at h1
        norm_num at h1 ⊢
        exact h1
      have hlt : |(m : ℚ) * (2 : ℚ) ^ k| < (2 : ℚ) ^ (53 + k) := by
        rw [abs_mul, abs_of_pos h2k, zpow_add₀ (by norm_num)]
        exact mul_lt_mul_of_pos_right hmq h2k
      have := lt_of_two_zpow_lt _ _ (lt_of_le_of_lt h hlt)
      omega
    · omega
  have hj : 0 ≤ k - (e - 52) := by omega
  refine ⟨m * (2 : ℤ) ^ (k - (e - 52)).toNat, ?_⟩
  have hsplit : (2 : ℚ) ^ k = (2 : ℚ) ^ (k - (e - 52)) * (2 : ℚ) ^ (e - 52) := by
    rw [← zpow_add₀ (by norm_num)]
    congr 1; ring
  have h2j := two_zpow_nonneg_eq _ hj
  push_cast at h2j ⊢
  rw [← h2j, mul_assoc, ← hsplit]

theorem two_zpow_binade_succ (q : ℚ) :
    (2 : ℚ) ^ (binade q + 1) = (2 : ℚ) ^ (53 : ℤ) * ulp q := by
  unfold ulp
  rw [← zpow_add₀ (by norm_num)]
  congr 1; ring

theorem two_zpow_binade (q : ℚ) :
    (2 : ℚ) ^ (binade q) = (2 : ℚ) ^ (52 : ℤ) * ulp q := by
  unfold ulp
  rw [← zpow_add₀ (by norm_num)]
  congr 1; ring

/-- In the normal range the binade is that of the logarithm. -/
theorem two_zpow_binade_le (q : ℚ) (hq : q ≠ 0) (hb : binade q ≠ -1022) :
    (2 : ℚ) ^ (binade q) ≤ |q| := by
  have h := zpow_log_le_abs q hq
  have e : binade q = Int.log 2 |q| := by
    unfold binade at hb ⊢
    rcases max_cases (Int.log 2 |q|) (-1022) with ⟨h1, -⟩ | ⟨h1, -⟩
    · exact h1
    · exact absurd h1 hb
  rw [e]; exact h

/-- Rounding never passes a grid value: if `x ≤ y` and `y` is on the grid, the rounded `x`
is at most `y`. -/
theorem rnd_le_of_le_grid (x y : ℚ) (h : x ≤ y) (g : Grid y) : rnd x ≤ y := by
  by_cases hx0 : x = 0
  · subst hx0; rw [rnd_zero]; exact h
  have hu := ulp_pos x
  have hb := binade_ge x
  have hx2 := abs_lt_zpow_binade_succ x
  have hr : rnd x = (roundEven (x / ulp x) : ℚ) * ulp x := rfl
  -- a multiple of the unit above `x` bounds the rounded value
  have key : ∀ j : ℤ, x ≤ (j : ℚ) * ulp x → rnd x ≤ (j : ℚ) * ulp x := by
    intro j hj
    have h1 : x / ulp x ≤ (j : ℚ) := by rwa [div_le_iff₀ hu]
    have h2 := roundEven_le_of_le _ j h1
    rw [hr]
    exact mul_le_mul_of_nonneg_right (by exact_mod_cast h2) hu.le
  by_cases hy1 : (2 : ℚ) ^ (binade x + 1) ≤ y
  · have h1 : x ≤ ((2 ^ 53 : ℤ) : ℚ) * ulp x := by
      have := (abs_lt.mp hx2).2
      rw [two_zpow_binade_succ] at this
      push_cast
      norm_num at this ⊢
      linarith
    have h2 := key _ h1
    rw [two_zpow_binade_succ] at hy1
    push_cast at h2
    norm_num at h2 hy1
    linarith
  · by_cases hc : (2 : ℚ) ^ (binade x) ≤ |y| ∨ binade x = -1022
    · obtain ⟨j, hj⟩ := grid_multiple y (binade x) g hc
      have hu2 : ulp x = (2 : ℚ) ^ (binade x - 52) := rfl
      rw [← hu2] at hj
      rw [hj] at h ⊢
      exact key j h
    · push_neg at hc
      obtain ⟨hc1, hc2⟩ := hc
      have hx1 := two_zpow_binade_le x hx0 hc2
      have hy := abs_lt.mp hc1
      rcases le_or_lt 0 x with hpos | hneg
      · rw [abs_of_nonneg hpos] at hx1
        linarith
      · rw [abs_of_neg hneg] at hx1
        have h1 : x ≤ ((-(2 ^ 52) : ℤ) : ℚ) * ulp x := by
          rw [two_zpow_binade] at hx1
          push_cast
          norm_num at hx1 ⊢
          linarith
        have h2 := key _ h1
        rw [two_zpow_binade] at hy
        push_cast at h2
        norm_num at h2 hy
        linarith

/-- Rounding never passes a grid value, from below. -/
theorem le_rnd_of_grid_le (x y : ℚ) (h : y ≤ x) (g : Grid y) : y ≤ rnd x := by
  have := rnd_le_of_le_grid (-x) (-y) (by linarith) (grid_neg y g)
  rw [rnd_neg] at this
  linarith

theorem abs_rnd_le_of_abs_le_grid (x y : ℚ) (h : |x| ≤ y) (g : Grid y) : |rnd x| ≤ y := by
  rw [abs_le] at h ⊢
  exact ⟨le_rnd_of_grid_le x (-y) h.1 (grid_neg y g), rnd_le_of_le_grid x y h.2 g⟩

theorem rnd_nonneg (x : ℚ) (h : 0 ≤ x) : 0 ≤ rnd x := le_rnd_of_grid_le x 0 h grid_zero

theorem rnd_nonpos (x : ℚ) (h : x ≤ 0) : rnd x ≤ 0 := rnd_le_of_le_grid x 0 h grid_zero

theorem roundEven_le_two_mul (s : ℚ) (h : 0 ≤ s) : (roundEven s : ℚ) ≤ 2 * s := by
  have h1 := Int.floor_le s
  have h2 := Int.lt_floor_add_one s
  have h0 : 0 ≤ ⌊s⌋ := Int.floor_nonneg.mpr h
  have h0q : (0 : ℚ) ≤ (⌊s⌋ : ℚ) := by exact_mod_cast h0
  unfold roundEven
  split_ifs with a b c
  · linarith
  · push_cast; linarith
  · linarith
  · have : 1 ≤ ⌊s⌋ := by omega
    have : (1 : ℚ) ≤ (⌊s⌋ : ℚ) := by exact_mod_cast this
    push_cast; linarith

/-- Rounding at most doubles a non-negative value. -/
theorem rnd_le_two_mul (z : ℚ) (h : 0 ≤ z) : rnd z ≤ 2 * z := by
  have hu := ulp_pos z
  have h1 := roundEven_le_two_mul (z / ulp z) (div_nonneg h hu.le)
  have hr : rnd z = (roundEven (z / ulp z) : ℚ) * ulp z := rfl
  rw [hr]
  calc (roundEven (z / ulp z) : ℚ) * ulp z ≤ 2 * (z / ulp z) * ulp z :=
        mul_le_mul_of_nonneg_right h1 hu.le
    _ = 2 * z := by field_simp

/-- In the normal range the unit in the last place is at most `2 ^ (-52)` of the value. -/
theorem ulp_le_of_normal (q : ℚ) (h : (2 : ℚ) ^ (-1022 : ℤ) ≤ |q|) :
    ulp q ≤ (2 : ℚ) ^ (-52 : ℤ) * |q| := by
  have hq : q ≠ 0 := by
    intro h0; subst h0
    rw [abs_zero] at h
    have : (0 : ℚ) < (2 : ℚ) ^ (-1022 : ℤ) := by positivity
    linarith
  have hpos : 0 < |q| := abs_pos.mpr hq
  have hlog : -1022 ≤ Int.log 2 |q| :=
    (Int.zpow_le_iff_le_log (b := 2) (by norm_num) hpos).mp (by exact_mod_cast h)
  have hb : binade q = Int.log 2 |q| := max_eq_left hlog
  have h1 := zpow_log_le_abs q hq
  unfold ulp
  rw [hb, sub_eq_add_neg, zpow_add₀ (by norm_num), mul_comm]
  exact mul_le_mul_of_nonneg_left h1 (by positivity)

/-- The relative rounding error in the normal range is at most `2 ^ (-53)`. -/
theorem abs_rnd_sub_le_rel (q : ℚ) (h : (2 : ℚ) ^ (-1022 : ℤ) ≤ |q|) :
    |rnd q - q| ≤ (2 : ℚ) ^ (-53 : ℤ) * |q| := by
  have h1 := abs_rnd_sub_le q
  have h2 := ulp_le_of_normal q h
  have e : (2 : ℚ) ^ (-53 : ℤ) = (2 : ℚ) ^ (-52 : ℤ) / 2 := by norm_num
  calc |rnd q - q| ≤ ulp q / 2 := h1
    _ ≤ (2 : ℚ) ^ (-52 : ℤ) * |q| / 2 :=
        (div_le_div_iff_of_pos_right (by norm_num : (0 : ℚ) < 2)).mpr h2
    _ = (2 : ℚ) ^ (-53 : ℤ) * |q| := by rw [e]; ring

/-- The unit in the last place of a value below `2 ^ (k + 1)`. -/
theorem ulp_le_of_abs_lt (q : ℚ) (k : ℤ) (hk : 0 ≤ k) (h : |q| < (2 : ℚ) ^ (k + 1)) :
    ulp q ≤ (2 : ℚ) ^ (k - 52) := by
  unfold ulp
  apply two_zpow_le
  have hb : binade q ≤ k := by
    unfold binade
    apply max_le _ (by omega)
    by_cases hq : q = 0
    · subst hq; simp [Int.log_of_right_le_zero]; exact hk
    · have hpos : 0 < |q| := abs_pos.mpr hq
      have := (Int.lt_zpow_iff_log_lt (b := 2) (by norm_num) hpos (x := k + 1)).mp
        (by exact_mod_cast h)
      omega
  omega

/-! ## Ties -/

theorem roundEven_eq_of_tie (x : ℚ) (n : Int) (h : |x - n| = 1 / 2) (he : n % 2 = 0) :
    roundEven x = n := by
  rcases abs_eq (by norm_num : (0 : ℚ) ≤ 1 / 2) |>.mp h with h | h
  · have hf : ⌊x⌋ = n := by
      rw [Int.floor_eq_iff]; constructor <;> linarith
    unfold roundEven
    rw [hf, if_neg (by linarith), if_neg (by linarith), if_pos he]
  · have hf : ⌊x⌋ = n - 1 := by
      rw [Int.floor_eq_iff]; push_cast; constructor <;> linarith
    unfold roundEven
    rw [hf, if_neg (by push_cast; linarith), if_neg (by push_cast; linarith),
      if_neg (by omega)]
    omega

/-- Evaluation of a rounding in the normal range at a tie: `q` lies midway between two
doubles and `n`, the even neighbour, is taken. -/
theorem round64_eq_tie (q : ℚ) (e n : ℤ) (h1 : (2 : ℚ) ^ e ≤ |q|)
    (h2 : |q| < (2 : ℚ) ^ (e + 1)) (he : -1022 ≤ e)
    (hn : |q / (2 : ℚ) ^ (e - 52) - n| = 1 / 2) (hev : n % 2 = 0)
    (hfin : |(n : ℚ) * (2 : ℚ) ^ (e - 52)| < (2 : ℚ) ^ (1024 : ℕ)) :
    round64 q = fin ((n : ℚ) * (2 : ℚ) ^ (e - 52)) := by
  have hb := binade_eq q e h1 h2 he
  have hr : rnd q = (n : ℚ) * (2 : ℚ) ^ (e - 52) := by
    unfold rnd ulp
    rw [hb, roundEven_eq_of_tie _ n hn hev]
  rw [round64_of_abs_lt q (by rw [hr]; exact hfin), hr]

/-- Evaluation of a rounding in the subnormal range: `n` is the integer nearest to
`q / 2 ^ (-1074)`. -/
theorem round64_eq_subnormal (q : ℚ) (n : ℤ) (h0 : q ≠ 0) (h2 : |q| < (2 : ℚ) ^ (-1022 : ℤ))
    (hn : |q / (2 : ℚ) ^ (-1074 : ℤ) - n| < 1 / 2)
    (hfin : |(n : ℚ) * (2 : ℚ) ^ (-1074 : ℤ)| < (2 : ℚ) ^ (1024 : ℕ)) :
    round64 q = fin ((n : ℚ) * (2 : ℚ) ^ (-1074 : ℤ)) := by
  have hpos : 0 < |q| := abs_pos.mpr h0
  have hlog : Int.log 2 |q| < -1022 :=
    (Int.lt_zpow_iff_log_lt (b := 2) (by norm_num) hpos (x := -1022)).mp (by exact_mod_cast h2)
  have hb : binade q = -1022 := max_eq_right (by omega)
  have hr : rnd q = (n : ℚ) * (2 : ℚ) ^ (-1074 : ℤ) := by
    unfold rnd ulp
    rw [hb]
    norm_num only
    rw [roundEven_eq_of_abs_lt _ n (by norm_num only at hn ⊢; exact hn)]
  rw [round64_of_abs_lt q (by rw [hr]; exact hfin), hr]

/-- Evaluation of a rounding in the subnormal range at a tie. -/
theorem round64_eq_subnormal_tie (q : ℚ) (n : ℤ) (h0 : q ≠ 0)
    (h2 : |q| < (2 : ℚ) ^ (-1022 : ℤ))
    (hn : |q / (2 : ℚ) ^ (-1074 : ℤ) - n| = 1 / 2) (hev : n % 2 = 0)
    (hfin : |(n : ℚ) * (2 : ℚ) ^ (-1074 : ℤ)| < (2 : ℚ) ^ (1024 : ℕ)) :
    round64 q = fin ((n : ℚ) * (2 : ℚ) ^ (-1074 : ℤ)) := by
  have hpos : 0 < |q| := abs_pos.mpr h0
  have hlog : Int.log 2 |q| < -1022 :=
    (Int.lt_zpow_iff_log_lt (b := 2) (by norm_num) hpos (x := -1022)).mp (by exact_mod_cast h2)
  have hb : binade q = -1022 := max_eq_right (by omega)
  have hr : rnd q = (n : ℚ) * (2 : ℚ) ^ (-1074 : ℤ) := by
    unfold rnd ulp
    rw [hb]
    norm_num only
    rw [roundEven_eq_of_tie _ n (by norm_num only at hn ⊢; exact hn) hev]
  rw [round64_of_abs_lt q (by rw [hr]; exact hfin), hr]

/-! ## Arithmetic on finite values -/

@[simp]
theorem fin_add_fin (a b : ℚ) : fin a + fin b = round64 (a + b) := rfl

@[simp]
theorem fin_sub_fin (a b : ℚ) : fin a - fin b = round64 (a - b) := by
  show Dbl.add (fin a) (Dbl.neg (fin b)) = round64 (a - b)
  simp [Dbl.add, Dbl.neg, sub_eq_add_neg]

@[simp]
theorem fin_mul_fin (a b : ℚ) : fin a * fin b = round64 (a * b) := rfl

@[simp]
theorem neg_fin (a : ℚ) : -(fin a) = fin (-a) := rfl

theorem fin_div_fin (a b : ℚ) (hb : b ≠ 0) : fin a / fin b = round64 (a / b) := by
  show Dbl.div (fin a) (fin b) = round64 (a / b)
  simp [Dbl.div, hb]

theorem div_fin_zero (a : ℚ) :
    fin a / fin 0 = if a = 0 then nan else if 0 < a then pinf else ninf := by
  show Dbl.div (fin a) (fin 0) = _
  simp [Dbl.div]

theorem ofInt_eq (i : Int) (hi : |i| < 2 ^ 53) : Dbl.ofInt i = fin (i : ℚ) :=
  round64_intCast i hi

@[simp]
theorem ofInt_zero : Dbl.ofInt 0 = fin 0 := by
  simpa using ofInt_eq 0 (by norm_num)

@[simp]
theorem lt_fin_fin (a b : ℚ) : Dbl.lt (fin a) (fin b) = decide (a < b) := rfl

@[simp]
theorem NoNaN_fin (a : ℚ) : NoNaN (fin a) = fin a := by
  simp [NoNaN, Dbl.ne]

theorem round64_ne_nan (q : ℚ) : round64 q ≠ nan := by
  unfold round64
  split_ifs <;> simp

theorem NoNaN_of_ne_nan (x : Dbl) (h : x ≠ nan) : NoNaN x = x := by
  cases x with
  | fin q => simp
  | pinf => rfl
  | ninf => rfl
  | nan => exact absurd rfl h

@[simp]
theorem NoNaN_round64 (q : ℚ) : NoNaN (round64 q) = round64 q :=
  NoNaN_of_ne_nan _ (round64_ne_nan q)

@[simp]
theorem fabs_fin (a : ℚ) : fabs (fin a) = fin |a| := by
  unfold fabs
  by_cases h : a < 0
  · simp [h, abs_of_neg h]
  · simp [h, abs_of_nonneg (not_lt.mp h)]

/-! ## Arithmetic on the special values -/

@[simp]
theorem nan_add (x : Dbl) : nan + x = nan := rfl

@[simp]
theorem add_nan (x : Dbl) : x + nan = nan := by cases x <;> rfl

@[simp]
theorem nan_sub (x : Dbl) : nan - x = nan := rfl

@[simp]
theorem sub_nan (x : Dbl) : x - nan = nan := by cases x <;> rfl

@[simp]
theorem nan_mul (x : Dbl) : nan * x = nan := rfl

@[simp]
theorem mul_nan (x : Dbl) : x * nan = nan := by cases x <;> rfl

@[simp]
theorem pinf_mul_fin (b : ℚ) : pinf * fin b = infTimes true b := rfl

@[simp]
theorem ninf_mul_fin (b : ℚ) : ninf * fin b = infTimes false b := rfl

@[simp]
theorem pinf_sub_fin (b : ℚ) : pinf - fin b = pinf := rfl

@[simp]
theorem ninf_sub_fin (b : ℚ) : ninf - fin b = ninf := rfl

@[simp]
theorem lt_nan_left (x : Dbl) : Dbl.lt nan x = false := rfl

@[simp]
theorem fabs_nan : fabs nan = nan := rfl

@[simp]
theorem NoNaN_nan : NoNaN nan = fin 0 := rfl

@[simp]
theorem NoNaN_pinf : NoNaN pinf = pinf := rfl

@[simp]
theorem NoNaN_ninf : NoNaN ninf = ninf := rfl

@[simp]
theorem toInt32_nan : Dbl.toInt32 nan = INT_MIN := rfl

/-- A finite sum is a double. -/
theorem grid_of_add_eq_fin (x y : Dbl) (q : ℚ) (h : x + y = fin q) :
    Grid q ∧ |q| < (2 : ℚ) ^ (1024 : ℕ) := by
  cases x <;> cases y <;> first | exact grid_of_round64 _ _ h | cases h

/-- A finite product is a double. -/
theorem grid_of_mul_eq_fin (x y : Dbl) (q : ℚ) (h : x * y = fin q) :
    Grid q ∧ |q| < (2 : ℚ) ^ (1024 : ℕ) := by
  cases x with
  | fin a =>
    cases y with
    | fin b => exact grid_of_round64 _ _ h
    | pinf =>
      have h1 : infTimes true a = fin q := h
      unfold infTimes at h1; split_ifs at h1
    | ninf =>
      have h1 : infTimes false a = fin q := h
      unfold infTimes at h1; split_ifs at h1
    | nan => cases h
  | pinf =>
    cases y with
    | fin b =>
      have h1 : infTimes true b = fin q := h
      unfold infTimes at h1; split_ifs at h1
    | pinf => cases h
    | ninf => cases h
    | nan => cases h
  | ninf =>
    cases y with
    | fin b =>
      have h1 : infTimes false b = fin q := h
      unfold infTimes at h1; split_ifs at h1
    | pinf => cases h
    | ninf => cases h
    | nan => cases h
  | nan => cases h

/-! ## Truncation and conversion to `int` -/

theorem truncQ_intCast (n : Int) : truncQ (n : ℚ) = n := by
  unfold truncQ
  split <;> simp

@[simp]
theorem truncQ_zero : truncQ 0 = 0 := by
  simpa using truncQ_intCast 0

@[simp]
theorem truncQ_one : truncQ 1 = 1 := by
  simpa using truncQ_intCast 1

@[simp]
theorem truncQ_ofNat (n : ℕ) [n.AtLeastTwo] :
    truncQ (no_index (OfNat.ofNat n)) = OfNat.ofNat n := by
  simpa using truncQ_intCast (OfNat.ofNat n)

@[simp]
theorem truncQ_neg_ofNat (n : ℕ) [n.AtLeastTwo] :
    truncQ (-(no_index (OfNat.ofNat n))) = -OfNat.ofNat n := by
  simpa using truncQ_intCast (-(OfNat.ofNat n))

theorem abs_sub_truncQ_lt (q : ℚ) : |q - (truncQ q : ℚ)| < 1 := by
  have h1 := Int.floor_le q
  have h2 := Int.lt_floor_add_one q
  have h3 := Int.le_ceil q
  have h4 := Int.ceil_lt_add_one q
  unfold truncQ
  split <;> rw [abs_lt] <;> constructor <;> linarith

theorem abs_sub_truncQ_le_abs (q : ℚ) : |q - (truncQ q : ℚ)| ≤ |q| := by
  have h1 := Int.floor_le q
  have h3 := Int.le_ceil q
  unfold truncQ
  split_ifs with h
  · have hf : (0 : ℚ) ≤ (⌊q⌋ : ℚ) := by exact_mod_cast Int.floor_nonneg.mpr h
    rw [abs_of_nonneg (by linarith), abs_of_nonneg h]
    linarith
  · have hq : q < 0 := not_le.mp h
    have hc : ((⌈q⌉ : ℤ) : ℚ) ≤ 0 := by exact_mod_cast Int.ceil_le.mpr (by exact_mod_cast hq.le)
    rw [abs_of_nonpos (by linarith), abs_of_neg hq]
    linarith

theorem truncQ_eq_of_nonneg (q : ℚ) (n : Int) (h0 : 0 ≤ q) (h1 : (n : ℚ) ≤ q)
    (h2 : q < n + 1) : truncQ q = n := by
  unfold truncQ
  rw [if_pos h0]
  exact Int.floor_eq_iff.mpr ⟨h1, h2⟩

theorem toInt32_fin (q : ℚ) (h : Representable (fin q)) : Dbl.toInt32 (fin q) = truncQ q := by
  have h1 : INT_MIN ≤ truncQ q ∧ truncQ q ≤ INT_MAX := h
  simp only [Dbl.toInt32, if_pos h1]

theorem toInt32_range (d : Dbl) : INT_MIN ≤ d.toInt32 ∧ d.toInt32 ≤ INT_MAX := by
  cases d with
  | fin q =>
    simp only [Dbl.toInt32]
    split
    · assumption
    · simp [INT_MIN, INT_MAX]
  | pinf => simp [Dbl.toInt32, INT_MIN, INT_MAX]
  | ninf => simp [Dbl.toInt32, INT_MIN, INT_MAX]
  | nan => simp [Dbl.toInt32, INT_MIN, INT_MAX]

theorem representable_of_bounds (q : ℚ) (n : Int) (h0 : 0 ≤ q) (h1 : (n : ℚ) ≤ q)
    (h2 : q < n + 1) (hn : INT_MIN ≤ n ∧ n ≤ INT_MAX) : Representable (fin q) := by
  show INT_MIN ≤ truncQ q ∧ truncQ q ≤ INT_MAX
  rw [truncQ_eq_of_nonneg q n h0 h1 h2]
  exact hn

theorem representable_zero : Representable (fin 0) := by
  simp [Representable, INT_MIN, INT_MAX]

/-- The fractional part of a grid value is on the grid. -/
theorem grid_sub_truncQ (q : ℚ) (h : Grid q) : Grid (q - (truncQ q : ℚ)) := by
  obtain ⟨m, k, hm, hk, rfl⟩ := h
  by_cases hk0 : 0 ≤ k
  · have e : (m : ℚ) * (2 : ℚ) ^ k = ((m * (2 : ℤ) ^ k.toNat : ℤ) : ℚ) := by
      rw [two_zpow_nonneg_eq k hk0]; push_cast; ring
    rw [e, truncQ_intCast, sub_self]
    exact ⟨0, 0, by norm_num, by norm_num, by simp⟩
  · have h2k : (0 : ℚ) < (2 : ℚ) ^ k := by positivity
    have h2nk : (0 : ℚ) < (2 : ℚ) ^ (-k) := by positivity
    have hinv : (2 : ℚ) ^ k * (2 : ℚ) ^ (-k) = 1 := by
      rw [← zpow_add₀ (by norm_num)]; simp
    have hnk : (2 : ℚ) ^ (-k) = (2 : ℚ) ^ (-k).toNat := by
      have h0 := two_zpow_nonneg_eq (-k) (by omega)
      push_cast at h0
      exact h0
    refine ⟨m - truncQ ((m : ℚ) * (2 : ℚ) ^ k) * (2 : ℤ) ^ (-k).toNat, k, ?_, hk, ?_⟩
    · have hle := abs_sub_truncQ_le_abs ((m : ℚ) * (2 : ℚ) ^ k)
      have e : ((m - truncQ ((m : ℚ) * (2 : ℚ) ^ k) * (2 : ℤ) ^ (-k).toNat : ℤ) : ℚ) =
          ((m : ℚ) * (2 : ℚ) ^ k - (truncQ ((m : ℚ) * (2 : ℚ) ^ k) : ℚ)) * (2 : ℚ) ^ (-k) := by
        push_cast
        rw [← hnk]
        have : (m : ℚ) * (2 : ℚ) ^ k * (2 : ℚ) ^ (-k) = m := by rw [mul_assoc, hinv, mul_one]
        linarith [this]
      have habs : |((m - truncQ ((m : ℚ) * (2 : ℚ) ^ k) * (2 : ℤ) ^ (-k).toNat : ℤ) : ℚ)| ≤
          |(m : ℚ)| := by
        rw [e, abs_mul, abs_of_pos h2nk]
        calc |(m : ℚ) * (2 : ℚ) ^ k - (truncQ ((m : ℚ) * (2 : ℚ) ^ k) : ℚ)| * (2 : ℚ) ^ (-k)
            ≤ |(m : ℚ) * (2 : ℚ) ^ k| * (2 : ℚ) ^ (-k) :=
              mul_le_mul_of_nonneg_right hle h2nk.le
          _ = |(m : ℚ)| := by
              rw [abs_mul, abs_of_pos h2k, mul_assoc, hinv, mul_one]
      have habs2 : |m - truncQ ((m : ℚ) * (2 : ℚ) ^ k) * (2 : ℤ) ^ (-k).toNat| ≤ |m| := by
        have := habs
        rw [← Int.cast_abs, ← Int.cast_abs] at this
        exact_mod_cast this
      exact lt_of_le_of_lt habs2 hm
    · push_cast
      rw [← hnk, sub_mul, mul_assoc, mul_comm ((2 : ℚ) ^ (-k)), hinv, mul_one]

/-! ## The echo filter (C2, C3) -/

/-- C2, as stated, fails: with `AccumulatedInput = (3, 4)` a mouse event tagged with the echo
sentinel leaves `(0, 0)`, not `(3, 4)`. -/
theorem echo_changes_accumulator :
    EventHandler ⟨3, 4⟩ WM_INPUT ⟨RIM_TYPEMOUSE, IT_IS_SENT_BY_ME, 7, 9⟩ ≠ ⟨3, 4⟩ := by
  decide

/-- C2 (amended): for every `AccumulatedInput` value and every `(dx, dy)`, the raw-input
handler called with a mouse delta tagged with the echo sentinel leaves `AccumulatedInput`
equal to `(0, 0)`; it is unchanged exactly when it was `(0, 0)` already. -/
theorem echo_resets_accumulator (mouVelocity : POINT) (dx dy : Int) :
    EventHandler mouVelocity WM_INPUT ⟨RIM_TYPEMOUSE, IT_IS_SENT_BY_ME, dx, dy⟩ = ⟨0, 0⟩ ∧
    (EventHandler mouVelocity WM_INPUT ⟨RIM_TYPEMOUSE, IT_IS_SENT_BY_ME, dx, dy⟩ = mouVelocity ↔
      mouVelocity = ⟨0, 0⟩) := by
  have h : EventHandler mouVelocity WM_INPUT ⟨RIM_TYPEMOUSE, IT_IS_SENT_BY_ME, dx, dy⟩ =
      ⟨0, 0⟩ := by
    simp [EventHandler, WM_INPUT, WM_DESTROY]
  rw [h]
  exact ⟨rfl, eq_comm⟩

/-- C3, as stated, fails: with `AccumulatedInput = (1, 1)` a genuine delta `(2, 3)` leaves
`(2, 3)`, not the sum `(3, 4)`. -/
theorem handler_overwrites_accumulator :
    EventHandler ⟨1, 1⟩ WM_INPUT ⟨RIM_TYPEMOUSE, 0, 2, 3⟩ = ⟨2, 3⟩ ∧
    EventHandler ⟨1, 1⟩ WM_INPUT ⟨RIM_TYPEMOUSE, 0, 2, 3⟩ ≠ ⟨1 + 2, 1 + 3⟩ := by
  decide

/-- C3 (amended): for every `AccumulatedInput` value `(ax, ay)` and every mouse delta
`(dx, dy)` whose tag is not the echo sentinel, the raw-input handler leaves `AccumulatedInput`
equal to `(dx, dy)`, the latest delta; this is the sum `(ax + dx, ay + dy)` exactly when
`(ax, ay) = (0, 0)`. -/
theorem handler_stores_latest_delta (ax ay dx dy : Int) (tag : Nat)
    (htag : tag ≠ IT_IS_SENT_BY_ME) :
    EventHandler ⟨ax, ay⟩ WM_INPUT ⟨RIM_TYPEMOUSE, tag, dx, dy⟩ = ⟨dx, dy⟩ ∧
    (EventHandler ⟨ax, ay⟩ WM_INPUT ⟨RIM_TYPEMOUSE, tag, dx, dy⟩ = ⟨ax + dx, ay + dy⟩ ↔
      ax = 0 ∧ ay = 0) := by
  have h : EventHandler ⟨ax, ay⟩ WM_INPUT ⟨RIM_TYPEMOUSE, tag, dx, dy⟩ = ⟨dx, dy⟩ := by
    simp [EventHandler, WM_INPUT, WM_DESTROY, htag]
  rw [h]
  refine ⟨rfl, ?_⟩
  simp [POINT.mk.injEq]

/-- Witness of C3 (amended): tag `0`, accumulator `(1, 1)`, delta `(2, 3)`. -/
theorem handler_stores_latest_delta_witness :
    (0 : Nat) ≠ IT_IS_SENT_BY_ME ∧
    EventHandler ⟨1, 1⟩ WM_INPUT ⟨RIM_TYPEMOUSE, 0, 2, 3⟩ = ⟨2, 3⟩ ∧
    (EventHandler ⟨1, 1⟩ WM_INPUT ⟨RIM_TYPEMOUSE, 0, 2, 3⟩ = ⟨1 + 2, 1 + 3⟩ ↔
      (1 : Int) = 0 ∧ (1 : Int) = 0) :=
  ⟨by decide, handler_stores_latest_delta 1 1 2 3 0 (by decide)⟩

/-! ## One tick -/

theorem integrate_vx (c : Config) (s : EngineState) (inp : POINT) (dt : Dbl) :
    (integrate c s inp dt).vx =
      s.vx + (instVelocity inp.x dt * c.accelerator - s.vx * c.damper) * dt := rfl

theorem integrate_vy (c : Config) (s : EngineState) (inp : POINT) (dt : Dbl) :
    (integrate c s inp dt).vy =
      s.vy + (instVelocity inp.y dt * c.accelerator - s.vy * c.damper) * dt := rfl

theorem integrate_dx (c : Config) (s : EngineState) (inp : POINT) (dt : Dbl) :
    (integrate c s inp dt).dx = s.dx + (integrate c s inp dt).vx * dt := rfl

theorem integrate_dy (c : Config) (s : EngineState) (inp : POINT) (dt : Dbl) :
    (integrate c s inp dt).dy = s.dy + (integrate c s inp dt).vy * dt := rfl

/-- The conversion of a double in the `int` range and the subtraction `dx -= out->x` are
exact: the new residual is the fractional part. -/
theorem sub_truncQ_eq (q : ℚ) (hg : Grid q) (hr : Representable (fin q)) :
    fin q - Dbl.ofInt (truncQ q) = fin (q - (truncQ q : ℚ)) := by
  have h1 : INT_MIN ≤ truncQ q ∧ truncQ q ≤ INT_MAX := hr
  have hn : |truncQ q| < 2 ^ 53 := by
    unfold INT_MIN INT_MAX at h1
    rw [abs_lt]; constructor <;> omega
  rw [ofInt_eq _ hn, fin_sub_fin]
  apply round64_of_grid _ (grid_sub_truncQ q hg)
  exact lt_trans (abs_sub_truncQ_lt q) (by norm_num)

/-- One tick whose integrated residual is finite and converts within the `int` range. -/
theorem CalcMouseTrace_of_representable (c : Config) (s : EngineState) (inp : POINT)
    (dt : Dbl) (px py : ℚ)
    (hx : (integrate c s inp dt).dx = fin px) (hy : (integrate c s inp dt).dy = fin py)
    (rx : Representable (fin px)) (ry : Representable (fin py)) :
    (CalcMouseTrace c s inp dt).2.1 = ⟨truncQ px, truncQ py⟩ ∧
    ((CalcMouseTrace c s inp dt).1 = EngineState.rest ∨
      (CalcMouseTrace c s inp dt).1 =
        ⟨(integrate c s inp dt).vx, (integrate c s inp dt).vy,
          fin (px - (truncQ px : ℚ)), fin (py - (truncQ py : ℚ))⟩) ∧
    ((CalcMouseTrace c s inp dt).2.2 = true → (CalcMouseTrace c s inp dt).1 = EngineState.rest) ∧
    ((CalcMouseTrace c s inp dt).2.2 = false →
      (CalcMouseTrace c s inp dt).1 =
        ⟨(integrate c s inp dt).vx, (integrate c s inp dt).vy,
          fin (px - (truncQ px : ℚ)), fin (py - (truncQ py : ℚ))⟩) := by
  have gx : Grid px := (grid_of_add_eq_fin _ _ _ (by rw [← integrate_dx]; exact hx)).1
  have gy : Grid py := (grid_of_add_eq_fin _ _ _ (by rw [← integrate_dy]; exact hy)).1
  unfold CalcMouseTrace
  simp only [hx, hy, toInt32_fin _ rx, toInt32_fin _ ry, sub_truncQ_eq _ gx rx,
    sub_truncQ_eq _ gy ry]
  split
  · exact ⟨rfl, Or.inl rfl, fun _ => rfl, fun h => Bool.noConfusion h⟩
  · exact ⟨rfl, Or.inr rfl, fun h => Bool.noConfusion h, fun _ => rfl⟩

/-- The flag of a tick: settled exactly when both integrated velocity components are below
the threshold in magnitude. -/
theorem CalcMouseTrace_flag (c : Config) (s : EngineState) (inp : POINT) (dt : Dbl) :
    (CalcMouseTrace c s inp dt).2.2 =
      (Dbl.lt (fabs (integrate c s inp dt).vx) c.vel_threshold &&
        Dbl.lt (fabs (integrate c s inp dt).vy) c.vel_threshold) := by
  unfold CalcMouseTrace
  simp only
  split <;> simp_all

/-! ## Sequences of ticks -/

theorem runTicks_cons (c : Config) (s : EngineState) (t : POINT × Dbl)
    (l : List (POINT × Dbl)) :
    runTicks c s (t :: l) = runTicks c (CalcMouseTrace c s t.1 t.2).1 l := rfl

theorem regular_append (c : Config) (l : List (POINT × Dbl)) (t : POINT × Dbl) :
    ∀ s : EngineState, Regular c s (l ++ [t]) →
      Regular c s l ∧ Regular c (runTicks c s l) [t] := by
  induction l with
  | nil => intro s h; exact ⟨trivial, h⟩
  | cons u l ih =>
    intro s h
    obtain ⟨h1, h2, h3, h4⟩ := h
    obtain ⟨k1, k2⟩ := ih _ h4
    exact ⟨⟨h1, h2, h3, k1⟩, by rw [runTicks_cons]; exact k2⟩

theorem representable_fin (x : Dbl) (h : Representable x) :
    ∃ q : ℚ, x = fin q ∧ Representable (fin q) := by
  cases x with
  | fin q => exact ⟨q, rfl, h⟩
  | pinf => cases h
  | ninf => cases h
  | nan => cases h

/-- One regular tick: the integrated residual is finite, the output is its truncation, and
the stored residual is finite and lies in `(-1, 1)`. -/
theorem regular_tick (c : Config) (s : EngineState) (p : POINT × Dbl)
    (l : List (POINT × Dbl)) (hreg : Regular c s (p :: l)) :
    ∃ px py fx fy : ℚ,
      (integrate c s p.1 p.2).dx = fin px ∧
      (integrate c s p.1 p.2).dy = fin py ∧
      (CalcMouseTrace c s p.1 p.2).2.1 = ⟨truncQ px, truncQ py⟩ ∧
      (CalcMouseTrace c s p.1 p.2).1.dx = fin fx ∧
      (CalcMouseTrace c s p.1 p.2).1.dy = fin fy ∧
      |fx| < 1 ∧ |fy| < 1 := by
  obtain ⟨-, hx, hy, -⟩ := hreg
  obtain ⟨px, ex, rx⟩ := representable_fin _ hx
  obtain ⟨py, ey, ry⟩ := representable_fin _ hy
  obtain ⟨ho, hs, -, -⟩ := CalcMouseTrace_of_representable c s p.1 p.2 px py ex ey rx ry
  rcases hs with hs | hs
  · refine ⟨px, py, 0, 0, ex, ey, ho, ?_, ?_, by simp, by simp⟩
    · rw [hs]; rfl
    · rw [hs]; rfl
  · refine ⟨px, py, px - truncQ px, py - truncQ py, ex, ey, ho, ?_, ?_,
      abs_sub_truncQ_lt _, abs_sub_truncQ_lt _⟩
    · rw [hs]
    · rw [hs]

/-! ## The residual invariant (C5) -/

/-- C5 (amended): starting from the initial state, with finite configuration values, along
every sequence of ticks in which each `dt` is finite, a zero `dt` comes only with input
`(0, 0)`, and each integrated residual truncates to a value representable as an `int`: after
every tick each component of the stored residual lies strictly between -1 and 1, and the
emitted output is the truncation toward zero of the pre-output residual. -/
theorem residual_invariant (d a t : ℚ) (l : List (POINT × Dbl)) (inp : POINT) (dt : Dbl)
    (hreg : Regular ⟨fin d, fin a, fin t⟩ EngineState.rest (l ++ [(inp, dt)])) :
    ∃ px py rx ry : ℚ,
      (integrate ⟨fin d, fin a, fin t⟩
        (runTicks ⟨fin d, fin a, fin t⟩ EngineState.rest l) inp dt).dx = fin px ∧
      (integrate ⟨fin d, fin a, fin t⟩
        (runTicks ⟨fin d, fin a, fin t⟩ EngineState.rest l) inp dt).dy = fin py ∧
      (CalcMouseTrace ⟨fin d, fin a, fin t⟩
        (runTicks ⟨fin d, fin a, fin t⟩ EngineState.rest l) inp dt).2.1 =
          ⟨truncQ px, truncQ py⟩ ∧
      (CalcMouseTrace ⟨fin d, fin a, fin t⟩
        (runTicks ⟨fin d, fin a, fin t⟩ EngineState.rest l) inp dt).1.dx = fin rx ∧
      (CalcMouseTrace ⟨fin d, fin a, fin t⟩
        (runTicks ⟨fin d, fin a, fin t⟩ EngineState.rest l) inp dt).1.dy = fin ry ∧
      |rx| < 1 ∧ |ry| < 1 := by
  obtain ⟨-, h2⟩ := regular_append _ l (inp, dt) _ hreg
  exact regular_tick _ _ (inp, dt) [] h2

/-! ## Evaluation of one tick on finite values -/

/-- The integration of one axis, operation by operation (`dt ≠ 0`). -/
theorem axis_eval (a d h v r q m p1 p2 ax p3 w p4 D : ℚ) (i : Int) (hh : h ≠ 0)
    (hi : Dbl.ofInt i = fin q)
    (e1 : round64 (q / h) = fin m) (e2 : round64 (m * a) = fin p1)
    (e3 : round64 (v * d) = fin p2) (e4 : round64 (p1 - p2) = fin ax)
    (e5 : round64 (ax * h) = fin p3) (e6 : round64 (v + p3) = fin w)
    (e7 : round64 (w * h) = fin p4) (e8 : round64 (r + p4) = fin D) :
    fin v + (instVelocity i (fin h) * fin a - fin v * fin d) * fin h = fin w ∧
    fin r + fin w * fin h = fin D := by
  have hv : fin v + (instVelocity i (fin h) * fin a - fin v * fin d) * fin h = fin w := by
    unfold instVelocity
    rw [hi, fin_div_fin _ _ hh, e1, NoNaN_fin, fin_mul_fin, e2, fin_mul_fin, e3, fin_sub_fin,
      e4, fin_mul_fin, e5, fin_add_fin, e6]
  refine ⟨hv, ?_⟩
  rw [fin_mul_fin, e7, fin_add_fin, e8]

theorem integrate_eval (c : Config) (d a vx vy rx ry h wx wy Dx Dy : ℚ) (inp : POINT)
    (hd : c.damper = fin d) (ha : c.accelerator = fin a)
    (hx : fin vx + (instVelocity inp.x (fin h) * fin a - fin vx * fin d) * fin h = fin wx ∧
      fin rx + fin wx * fin h = fin Dx)
    (hy : fin vy + (instVelocity inp.y (fin h) * fin a - fin vy * fin d) * fin h = fin wy ∧
      fin ry + fin wy * fin h = fin Dy) :
    integrate c ⟨fin vx, fin vy, fin rx, fin ry⟩ inp (fin h) =
      ⟨fin wx, fin wy, fin Dx, fin Dy⟩ := by
  unfold integrate
  simp only [hd, ha, hx.1, hx.2, hy.1, hy.2]

theorem CalcMouseTrace_eval (c : Config) (s : EngineState) (inp : POINT) (dt : Dbl)
    (t wx wy Dx Dy : ℚ) (ht : c.vel_threshold = fin t)
    (hi : integrate c s inp dt = ⟨fin wx, fin wy, fin Dx, fin Dy⟩)
    (rx : Representable (fin Dx)) (ry : Representable (fin Dy)) :
    CalcMouseTrace c s inp dt =
      (if |wx| < t ∧ |wy| < t then EngineState.rest
       else ⟨fin wx, fin wy, fin (Dx - (truncQ Dx : ℚ)), fin (Dy - (truncQ Dy : ℚ))⟩,
       ⟨truncQ Dx, truncQ Dy⟩, decide (|wx| < t ∧ |wy| < t)) := by
  have gx : Grid Dx :=
    (grid_of_add_eq_fin _ _ _ (by rw [← integrate_dx, hi])).1
  have gy : Grid Dy :=
    (grid_of_add_eq_fin _ _ _ (by rw [← integrate_dy, hi])).1
  unfold CalcMouseTrace
  simp only [hi, ht, toInt32_fin _ rx, toInt32_fin _ ry, sub_truncQ_eq _ gx rx,
    sub_truncQ_eq _ gy ry, fabs_fin, lt_fin_fin]
  by_cases hc : |wx| < t ∧ |wy| < t
  · simp [hc, EngineState.rest]
  · rw [if_neg hc]
    have hb : (decide (|wx| < t) && decide (|wy| < t)) = false := by
      rw [← Bool.decide_and]; exact decide_eq_false hc
    simp [hb, hc]

theorem truncQ_eq_of_nonpos (q : ℚ) (n : Int) (h0 : q < 0) (h1 : (n : ℚ) - 1 < q)
    (h2 : q ≤ n) : truncQ q = n := by
  unfold truncQ
  rw [if_neg (not_le.mpr h0)]
  exact Int.ceil_eq_iff.mpr ⟨h1, h2⟩

/-- The statics after one tick. -/
theorem CalcMouseTrace_state (c : Config) (s : EngineState) (inp : POINT) (dt : Dbl) :
    (CalcMouseTrace c s inp dt).1 =
      if (CalcMouseTrace c s inp dt).2.2 = true then ⟨fin 0, fin 0, fin 0, fin 0⟩
      else ⟨(integrate c s inp dt).vx, (integrate c s inp dt).vy,
        (integrate c s inp dt).dx - Dbl.ofInt (Dbl.toInt32 (integrate c s inp dt).dx),
        (integrate c s inp dt).dy - Dbl.ofInt (Dbl.toInt32 (integrate c s inp dt).dy)⟩ := by
  unfold CalcMouseTrace
  simp only
  split <;> simp

/-! ## Degenerate timing (C8) -/

/-- C8: the code at the failing input. With `dt = 0` and input `(0, 0)` the guard works
(`mv = 0`), but with input `(1, 0)` from rest the instantaneous velocity is `+inf`, which
`NoNaN` lets through; `inf * 0` then makes the velocity and the residual NaN, the tick is not
settled, and the next tick (here with input `(0, 0)` and `dt` the double nearest `0.1`) keeps
them NaN. -/
theorem zero_dt_poisons_state :
    instVelocity 0 (fin 0) = fin 0 ∧
    instVelocity 1 (fin 0) = pinf ∧
    CalcMouseTrace config EngineState.rest ⟨1, 0⟩ (fin 0) =
      (⟨nan, fin 0, nan, fin 0⟩, ⟨INT_MIN, 0⟩, false) ∧
    CalcMouseTrace config ⟨nan, fin 0, nan, fin 0⟩ ⟨0, 0⟩ (fin tenth) =
      (⟨nan, fin 0, nan, fin 0⟩, ⟨INT_MIN, 0⟩, false) := by
  have o1 : Dbl.ofInt 1 = fin 1 := by simpa using ofInt_eq 1 (by norm_num)
  have z1 : instVelocity 0 (fin 0) = fin 0 := by
    simp [instVelocity, div_fin_zero]
  have z2 : instVelocity 1 (fin 0) = pinf := by
    simp [instVelocity, o1, div_fin_zero]
  have z3 : instVelocity 0 (fin tenth) = fin 0 := by
    unfold instVelocity
    rw [ofInt_zero, fin_div_fin _ _ (by norm_num [tenth]), zero_div, round64_zero, NoNaN_fin]
  have hi : integrate config EngineState.rest ⟨1, 0⟩ (fin 0) = ⟨nan, fin 0, nan, fin 0⟩ := by
    simp [integrate, z1, z2, infTimes, config, EngineState.rest, round64_zero]
  have hj : integrate config ⟨nan, fin 0, nan, fin 0⟩ ⟨0, 0⟩ (fin tenth) =
      ⟨nan, fin 0, nan, fin 0⟩ := by
    simp [integrate, z3, config, round64_zero]
  refine ⟨z1, z2, ?_, ?_⟩
  · unfold CalcMouseTrace
    rw [hi]
    simp [Dbl.toInt32, INT_MIN, INT_MAX, config, round64_zero]
  · unfold CalcMouseTrace
    rw [hj]
    simp [Dbl.toInt32, INT_MIN, INT_MAX, config, round64_zero]

/-! ## Settling is idempotent (C6) -/

theorem rest_tick (d a t h : ℚ) (ht : 0 < t) :
    CalcMouseTrace ⟨fin d, fin a, fin t⟩ EngineState.rest ⟨0, 0⟩ (fin h) =
      (EngineState.rest, ⟨0, 0⟩, true) := by
  have z : instVelocity 0 (fin h) = fin 0 := by
    unfold instVelocity
    by_cases h0 : h = 0
    · subst h0; simp [div_fin_zero]
    · rw [ofInt_zero, fin_div_fin _ _ h0, zero_div, round64_zero, NoNaN_fin]
  have hi : integrate ⟨fin d, fin a, fin t⟩ EngineState.rest ⟨0, 0⟩ (fin h) =
      ⟨fin 0, fin 0, fin 0, fin 0⟩ := by
    simp [integrate, z, EngineState.rest, round64_zero]
  rw [CalcMouseTrace_eval _ _ _ _ t 0 0 0 0 rfl hi representable_zero representable_zero]
  simp [ht]

/-- C6, as stated for every `dt`, fails at a non-finite `dt`: from rest with input `(0, 0)`
and `dt = +inf` the instantaneous velocity and the acceleration are `0`, and `0 * inf` makes
velocity and residual NaN; the tick is not settled. -/
theorem rest_left_at_infinite_dt :
    CalcMouseTrace config EngineState.rest ⟨0, 0⟩ pinf =
      (⟨nan, nan, nan, nan⟩, ⟨INT_MIN, INT_MIN⟩, false) := by
  have z : instVelocity 0 pinf = fin 0 := by
    unfold instVelocity
    rw [ofInt_zero]
    rfl
  have m : fin 0 * pinf = nan := by
    show infTimes true 0 = nan
    simp [infTimes]
  have hi : integrate config EngineState.rest ⟨0, 0⟩ pinf = ⟨nan, nan, nan, nan⟩ := by
    simp [integrate, z, config, EngineState.rest, round64_zero, m]
  unfold CalcMouseTrace
  rw [hi]
  simp [Dbl.toInt32, INT_MIN, INT_MAX, config]

/-- C6 (amended): for every `vel_threshold > 0` and every finite `dt` (zero and negative
included), with finite `damper` and `accelerator`, a tick from the rest state (velocity =
residual = 0) with accumulated input `(0, 0)` emits `(0, 0)`, leaves the rest state and
reports settled; hence after any number of zero-input ticks, with any finite `dt` values, the
state is still the rest state and every one of the ticks emitted `(0, 0)` and reported
settled. Every operation of such a tick is on zeros, so no rounding occurs. -/
theorem settling_idempotent (d a t : ℚ) (ht : 0 < t) :
    (∀ h : ℚ, CalcMouseTrace ⟨fin d, fin a, fin t⟩ EngineState.rest ⟨0, 0⟩ (fin h) =
      (EngineState.rest, ⟨0, 0⟩, true)) ∧
    (∀ hs : List ℚ,
      runTicks ⟨fin d, fin a, fin t⟩ EngineState.rest
        (hs.map fun h => ((⟨0, 0⟩ : POINT), fin h)) = EngineState.rest ∧
      ∀ e ∈ ticksLog ⟨fin d, fin a, fin t⟩ EngineState.rest
          (hs.map fun h => ((⟨0, 0⟩ : POINT), fin h)),
        e.out = ⟨0, 0⟩ ∧ e.done = true) := by
  refine ⟨fun h => rest_tick d a t h ht, fun hs => ?_⟩
  induction hs with
  | nil => exact ⟨rfl, by simp [ticksLog]⟩
  | cons h hs ih =>
    constructor
    · rw [List.map_cons, runTicks_cons]
      show runTicks _ (CalcMouseTrace _ EngineState.rest ⟨0, 0⟩ (fin h)).1 _ = _
      rw [rest_tick d a t h ht]
      exact ih.1
    · intro e he
      rw [List.map_cons] at he
      simp only [ticksLog, rest_tick d a t h ht, List.mem_cons] at he
      rcases he with he | he
      · rw [he]; exact ⟨rfl, rfl⟩
      · exact ih.2 e he

/-- Witness of C6 (amended): the default configuration, three zero-input ticks with `dt`
equal to the double nearest `0.1`, `0` and `-1`. -/
theorem settling_idempotent_witness :
    (0 : ℚ) < 1 / 2 ∧
    (∀ h : ℚ, CalcMouseTrace config EngineState.rest ⟨0, 0⟩ (fin h) =
      (EngineState.rest, ⟨0, 0⟩, true)) ∧
    runTicks config EngineState.rest
      [(⟨0, 0⟩, fin tenth), (⟨0, 0⟩, fin 0), (⟨0, 0⟩, fin (-1))] = EngineState.rest :=
  ⟨by norm_num, (settling_idempotent 5 5 (1 / 2) (by norm_num)).1,
    ((settling_idempotent 5 5 (1 / 2) (by norm_num)).2 [tenth, 0, -1]).1⟩

/-! ## Sample ticks, evaluated operation by operation -/

theorem steady_integrate :
    integrate config ⟨fin 0, fin 0, fin 0, fin 0⟩ ⟨100, 0⟩ (fin tenth) =
      ⟨fin 500, fin 0, fin 50, fin 0⟩ := by
  unfold tenth
  have xi : Dbl.ofInt (100) = fin 100 := by
    simpa using ofInt_eq (100) (by norm_num)
  have x1 : round64 ((100 : ℚ) / (3602879701896397 / 36028797018963968)) = fin 1000 := by
    have h := round64_eq ((100 : ℚ) / (3602879701896397 / 36028797018963968)) (9) (8796093022208000)
      (by rw [abs_of_nonneg (by norm_num)]; norm_num)
      (by rw [abs_of_nonneg (by norm_num)]; norm_num)
      (by norm_num)
      (by rw [abs_lt]; constructor <;> norm_num)
      (by rw [abs_of_nonneg (by norm_num)]; norm_num)
    rw [h]; norm_num
  have x2 : round64 ((1000 : ℚ) * 5) = fin 5000 := by
    have h := round64_eq ((1000 : ℚ) * 5) (12) (5497558138880000)
      (by rw [abs_of_nonneg (by norm_num)]; norm_num)
      (by rw [abs_of_nonneg (by norm_num)]; norm_num)
      (by norm_num)
      (by rw [abs_lt]; constructor <;> norm_num)
      (by rw [abs_of_nonneg (by norm_num)]; norm_num)
    rw [h]; norm_num
  have x3 : round64 ((0 : ℚ) * 5) = fin 0 := by
    rw [show ((0 : ℚ) * 5 : ℚ) = 0 from by norm_num]; exact round64_zero
  have x4 : round64 ((5000 : ℚ) - 0) = fin 5000 := by
    have h := round64_eq ((5000 : ℚ) - 0) (12) (5497558138880000)
      (by rw [abs_of_nonneg (by norm_num)]; norm_num)
      (by rw [abs_of_nonneg (by norm_num)]; norm_num)
      (by norm_num)
      (by rw [abs_lt]; constructor <;> norm_num)
      (by rw [abs_of_nonneg (by norm_num)]; norm_num)
    rw [h]; norm_num
  have x5 : round64 ((5000 : ℚ) * (3602879701896397 / 36028797018963968)) = fin 500 := by
    have h := round64_eq ((5000 : ℚ) * (3602879701896397 / 36028797018963968)) (8)
        (8796093022208000)
      (by rw [abs_of_nonneg (by norm_num)]; norm_num)
      (by rw [abs_of_nonneg (by norm_num)]; norm_num)
      (by norm_num)
      (by rw [abs_lt]; constructor <;> norm_num)
      (by rw [abs_of_nonneg (by norm_num)]; norm_num)
    rw [h]; norm_num
  have x6 : round64 ((0 : ℚ) + 500) = fin 500 := by
    have h := round64_eq ((0 : ℚ) + 500) (8) (8796093022208000)
      (by rw [abs_of_nonneg (by norm_num)]; norm_num)
      (by rw [abs_of_nonneg (by norm_num)]; norm_num)
      (by norm_num)
      (by rw [abs_lt]; constructor <;> norm_num)
      (by rw [abs_of_nonneg (by norm_num)]; norm_num)
    rw [h]; norm_num
  have x7 : round64 ((500 : ℚ) * (3602879701896397 / 36028797018963968)) = fin 50 := by
    have h := round64_eq ((500 : ℚ) * (3602879701896397 / 36028797018963968)) (5) (7036874417766400)
      (by rw [abs_of_nonneg (by norm_num)]; norm_num)
      (by rw [abs_of_nonneg (by norm_num)]; norm_num)
      (by norm_num)
      (by rw [abs_lt]; constructor <;> norm_num)
      (by rw [abs_of_nonneg (by norm_num)]; norm_num)
    rw [h]; norm_num
  have x8 : round64 ((0 : ℚ) + 50) = fin 50 := by
    have h := round64_eq ((0 : ℚ) + 50) (5) (7036874417766400)
      (by rw [abs_of_nonneg (by norm_num)]; norm_num)
      (by rw [abs_of_nonneg (by norm_num)]; norm_num)
      (by norm_num)
      (by rw [abs_lt]; constructor <;> norm_num)
      (by rw [abs_of_nonneg (by norm_num)]; norm_num)
    rw [h]; norm_num
  have xA := axis_eval 5 5 (3602879701896397 / 36028797018963968) 0 0 100 1000 5000 0 5000 500 500
      50 50 (100)
    (by norm_num) xi x1 x2 x3 x4 x5 x6 x7 x8
  have yi : Dbl.ofInt (0) = fin 0 := ofInt_zero
  have y1 : round64 ((0 : ℚ) / (3602879701896397 / 36028797018963968)) = fin 0 := by
    rw [show ((0 : ℚ) / (3602879701896397 / 36028797018963968) : ℚ) = 0 from by norm_num]; exact
        round64_zero
  have y2 : round64 ((0 : ℚ) * 5) = fin 0 := by
    rw [show ((0 : ℚ) * 5 : ℚ) = 0 from by norm_num]; exact round64_zero
  have y3 : round64 ((0 : ℚ) * 5) = fin 0 := by
    rw [show ((0 : ℚ) * 5 : ℚ) = 0 from by norm_num]; exact round64_zero
  have y4 : round64 ((0 : ℚ) - 0) = fin 0 := by
    rw [show ((0 : ℚ) - 0 : ℚ) = 0 from by norm_num]; exact round64_zero
  have y5 : round64 ((0 : ℚ) * (3602879701896397 / 36028797018963968)) = fin 0 := by
    rw [show ((0 : ℚ) * (3602879701896397 / 36028797018963968) : ℚ) = 0 from by norm_num]; exact
        round64_zero
  have y6 : round64 ((0 : ℚ) + 0) = fin 0 := by
    rw [show ((0 : ℚ) + 0 : ℚ) = 0 from by norm_num]; exact round64_zero
  have y7 : round64 ((0 : ℚ) * (3602879701896397 / 36028797018963968)) = fin 0 := by
    rw [show ((0 : ℚ) * (3602879701896397 / 36028797018963968) : ℚ) = 0 from by norm_num]; exact
        round64_zero
  have y8 : round64 ((0 : ℚ) + 0) = fin 0 := by
    rw [show ((0 : ℚ) + 0 : ℚ) = 0 from by norm_num]; exact round64_zero
  have yA := axis_eval 5 5 (3602879701896397 / 36028797018963968) 0 0 0 0 0 0 0 0 0 0 0 (0)
    (by norm_num) yi y1 y2 y3 y4 y5 y6 y7 y8
  exact integrate_eval config 5 5 0 0 0 0 (3602879701896397 / 36028797018963968) 500 0 50 0
    ⟨100, 0⟩ rfl rfl xA yA

/-- The scenario of the specification: from rest, input `(100, 0)`, `dt` the double nearest `0.1`.
    -/
theorem steady_tick :
    CalcMouseTrace config ⟨fin 0, fin 0, fin 0, fin 0⟩ ⟨100, 0⟩ (fin tenth) =
      (⟨fin 500, fin 0, fin 0, fin 0⟩, ⟨50, 0⟩, false) := by
  have tx : truncQ 50 = 50 :=
    truncQ_eq_of_nonneg _ (50) (by norm_num) (by norm_num) (by norm_num)
  have ty : truncQ 0 = 0 :=
    truncQ_eq_of_nonneg _ (0) (by norm_num) (by norm_num) (by norm_num)
  have rx : Representable (fin 50) := by
    show INT_MIN ≤ truncQ _ ∧ truncQ _ ≤ INT_MAX
    rw [tx]; decide
  have ry : Representable (fin 0) := by
    show INT_MIN ≤ truncQ _ ∧ truncQ _ ≤ INT_MAX
    rw [ty]; decide
  have h := CalcMouseTrace_eval config _ _ _ (1 / 2) 500 0 50 0 rfl
    steady_integrate rx ry
  rw [h, tx, ty]
  norm_num [abs_of_nonneg, abs_of_nonpos, EngineState.rest]

theorem quit_integrate :
    integrate config ⟨fin 0, fin 0, fin 0, fin 0⟩ ⟨1, 0⟩ (fin tenth) =
      ⟨fin 5, fin 0, fin (1 / 2), fin 0⟩ := by
  unfold tenth
  have xi : Dbl.ofInt (1) = fin 1 := by
    simpa using ofInt_eq (1) (by norm_num)
  have x1 : round64 ((1 : ℚ) / (3602879701896397 / 36028797018963968)) = fin 10 := by
    have h := round64_eq ((1 : ℚ) / (3602879701896397 / 36028797018963968)) (3) (5629499534213120)
      (by rw [abs_of_nonneg (by norm_num)]; norm_num)
      (by rw [abs_of_nonneg (by norm_num)]; norm_num)
      (by norm_num)
      (by rw [abs_lt]; constructor <;> norm_num)
      (by rw [abs_of_nonneg (by norm_num)]; norm_num)
    rw [h]; norm_num
  have x2 : round64 ((10 : ℚ) * 5) = fin 50 := by
    have h := round64_eq ((10 : ℚ) * 5) (5) (7036874417766400)
      (by rw [abs_of_nonneg (by norm_num)]; norm_num)
      (by rw [abs_of_nonneg (by norm_num)]; norm_num)
      (by norm_num)
      (by rw [abs_lt]; constructor <;> norm_num)
      (by rw [abs_of_nonneg (by norm_num)]; norm_num)
    rw [h]; norm_num
  have x3 : round64 ((0 : ℚ) * 5) = fin 0 := by
    rw [show ((0 : ℚ) * 5 : ℚ) = 0 from by norm_num]; exact round64_zero
  have x4 : round64 ((50 : ℚ) - 0) = fin 50 := by
    have h := round64_eq ((50 : ℚ) - 0) (5) (7036874417766400)
      (by rw [abs_of_nonneg (by norm_num)]; norm_num)
      (by rw [abs_of_nonneg (by norm_num)]; norm_num)
      (by norm_num)
      (by rw [abs_lt]; constructor <;> norm_num)
      (by rw [abs_of_nonneg (by norm_num)]; norm_num)
    rw [h]; norm_num
  have x5 : round64 ((50 : ℚ) * (3602879701896397 / 36028797018963968)) = fin 5 := by
    have h := round64_eq ((50 : ℚ) * (3602879701896397 / 36028797018963968)) (2) (5629499534213120)
      (by rw [abs_of_nonneg (by norm_num)]; norm_num)
      (by rw [abs_of_nonneg (by norm_num)]; norm_num)
      (by norm_num)
      (by rw [abs_lt]; constructor <;> norm_num)
      (by rw [abs_of_nonneg (by norm_num)]; norm_num)
    rw [h]; norm_num
  have x6 : round64 ((0 : ℚ) + 5) = fin 5 := by
    have h := round64_eq ((0 : ℚ) + 5) (2) (5629499534213120)
      (by rw [abs_of_nonneg (by norm_num)]; norm_num)
      (by rw [abs_of_nonneg (by norm_num)]; norm_num)
      (by norm_num)
      (by rw [abs_lt]; constructor <;> norm_num)
      (by rw [abs_of_nonneg (by norm_num)]; norm_num)
    rw [h]; norm_num
  have x7 : round64 ((5 : ℚ) * (3602879701896397 / 36028797018963968)) = fin (1 / 2) := by
    have h := round64_eq ((5 : ℚ) * (3602879701896397 / 36028797018963968)) (-1) (4503599627370496)
      (by rw [abs_of_nonneg (by norm_num)]; norm_num)
      (by rw [abs_of_nonneg (by norm_num)]; norm_num)
      (by norm_num)
      (by rw [abs_lt]; constructor <;> norm_num)
      (by rw [abs_of_nonneg (by norm_num)]; norm_num)
    rw [h]; norm_num
  have x8 : round64 ((0 : ℚ) + (1 / 2)) = fin (1 / 2) := by
    have h := round64_eq ((0 : ℚ) + (1 / 2)) (-1) (4503599627370496)
      (by rw [abs_of_nonneg (by norm_num)]; norm_num)
      (by rw [abs_of_nonneg (by norm_num)]; norm_num)
      (by norm_num)
      (by rw [abs_lt]; constructor <;> norm_num)
      (by rw [abs_of_nonneg (by norm_num)]; norm_num)
    rw [h]; norm_num
  have xA := axis_eval 5 5 (3602879701896397 / 36028797018963968) 0 0 1 10 50 0 50 5 5 (1 / 2) (1 /
      2) (1)
    (by norm_num) xi x1 x2 x3 x4 x5 x6 x7 x8
  have yi : Dbl.ofInt (0) = fin 0 := ofInt_zero
  have y1 : round64 ((0 : ℚ) / (3602879701896397 / 36028797018963968)) = fin 0 := by
    rw [show ((0 : ℚ) / (3602879701896397 / 36028797018963968) : ℚ) = 0 from by norm_num]; exact
        round64_zero
  have y2 : round64 ((0 : ℚ) * 5) = fin 0 := by
    rw [show ((0 : ℚ) * 5 : ℚ) = 0 from by norm_num]; exact round64_zero
  have y3 : round64 ((0 : ℚ) * 5) = fin 0 := by
    rw [show ((0 : ℚ) * 5 : ℚ) = 0 from by norm_num]; exact round64_zero
  have y4 : round64 ((0 : ℚ) - 0) = fin 0 := by
    rw [show ((0 : ℚ) - 0 : ℚ) = 0 from by norm_num]; exact round64_zero
  have y5 : round64 ((0 : ℚ) * (3602879701896397 / 36028797018963968)) = fin 0 := by
    rw [show ((0 : ℚ) * (3602879701896397 / 36028797018963968) : ℚ) = 0 from by norm_num]; exact
        round64_zero
  have y6 : round64 ((0 : ℚ) + 0) = fin 0 := by
    rw [show ((0 : ℚ) + 0 : ℚ) = 0 from by norm_num]; exact round64_zero
  have y7 : round64 ((0 : ℚ) * (3602879701896397 / 36028797018963968)) = fin 0 := by
    rw [show ((0 : ℚ) * (3602879701896397 / 36028797018963968) : ℚ) = 0 from by norm_num]; exact
        round64_zero
  have y8 : round64 ((0 : ℚ) + 0) = fin 0 := by
    rw [show ((0 : ℚ) + 0 : ℚ) = 0 from by norm_num]; exact round64_zero
  have yA := axis_eval 5 5 (3602879701896397 / 36028797018963968) 0 0 0 0 0 0 0 0 0 0 0 (0)
    (by norm_num) yi y1 y2 y3 y4 y5 y6 y7 y8
  exact integrate_eval config 5 5 0 0 0 0 (3602879701896397 / 36028797018963968) 5 0 (1 / 2) 0
    ⟨1, 0⟩ rfl rfl xA yA

theorem quit_tick :
    CalcMouseTrace config ⟨fin 0, fin 0, fin 0, fin 0⟩ ⟨1, 0⟩ (fin tenth) =
      (⟨fin 5, fin 0, fin (1 / 2), fin 0⟩, ⟨0, 0⟩, false) := by
  have tx : truncQ (1 / 2) = 0 :=
    truncQ_eq_of_nonneg _ (0) (by norm_num) (by norm_num) (by norm_num)
  have ty : truncQ 0 = 0 :=
    truncQ_eq_of_nonneg _ (0) (by norm_num) (by norm_num) (by norm_num)
  have rx : Representable (fin (1 / 2)) := by
    show INT_MIN ≤ truncQ _ ∧ truncQ _ ≤ INT_MAX
    rw [tx]; decide
  have ry : Representable (fin 0) := by
    show INT_MIN ≤ truncQ _ ∧ truncQ _ ≤ INT_MAX
    rw [ty]; decide
  have h := CalcMouseTrace_eval config _ _ _ (1 / 2) 5 0 (1 / 2) 0 rfl
    quit_integrate rx ry
  rw [h, tx, ty]
  norm_num [abs_of_nonneg, abs_of_nonpos, EngineState.rest]

theorem sample_integrate :
    integrate config ⟨fin 0, fin 0, fin 0, fin 0⟩ ⟨3, 0⟩ (fin (1 / 8)) =
      ⟨fin 15, fin 0, fin (15 / 8), fin 0⟩ := by
  have xi : Dbl.ofInt (3) = fin 3 := by
    simpa using ofInt_eq (3) (by norm_num)
  have x1 : round64 ((3 : ℚ) / (1 / 8)) = fin 24 := by
    have h := round64_eq ((3 : ℚ) / (1 / 8)) (4) (6755399441055744)
      (by rw [abs_of_nonneg (by norm_num)]; norm_num)
      (by rw [abs_of_nonneg (by norm_num)]; norm_num)
      (by norm_num)
      (by rw [abs_lt]; constructor <;> norm_num)
      (by rw [abs_of_nonneg (by norm_num)]; norm_num)
    rw [h]; norm_num
  have x2 : round64 ((24 : ℚ) * 5) = fin 120 := by
    have h := round64_eq ((24 : ℚ) * 5) (6) (8444249301319680)
      (by rw [abs_of_nonneg (by norm_num)]; norm_num)
      (by rw [abs_of_nonneg (by norm_num)]; norm_num)
      (by norm_num)
      (by rw [abs_lt]; constructor <;> norm_num)
      (by rw [abs_of_nonneg (by norm_num)]; norm_num)
    rw [h]; norm_num
  have x3 : round64 ((0 : ℚ) * 5) = fin 0 := by
    rw [show ((0 : ℚ) * 5 : ℚ) = 0 from by norm_num]; exact round64_zero
  have x4 : round64 ((120 : ℚ) - 0) = fin 120 := by
    have h := round64_eq ((120 : ℚ) - 0) (6) (8444249301319680)
      (by rw [abs_of_nonneg (by norm_num)]; norm_num)
      (by rw [abs_of_nonneg (by norm_num)]; norm_num)
      (by norm_num)
      (by rw [abs_lt]; constructor <;> norm_num)
      (by rw [abs_of_nonneg (by norm_num)]; norm_num)
    rw [h]; norm_num
  have x5 : round64 ((120 : ℚ) * (1 / 8)) = fin 15 := by
    have h := round64_eq ((120 : ℚ) * (1 / 8)) (3) (8444249301319680)
      (by rw [abs_of_nonneg (by norm_num)]; norm_num)
      (by rw [abs_of_nonneg (by norm_num)]; norm_num)
      (by norm_num)
      (by rw [abs_lt]; constructor <;> norm_num)
      (by rw [abs_of_nonneg (by norm_num)]; norm_num)
    rw [h]; norm_num
  have x6 : round64 ((0 : ℚ) + 15) = fin 15 := by
    have h := round64_eq ((0 : ℚ) + 15) (3) (8444249301319680)
      (by rw [abs_of_nonneg (by norm_num)]; norm_num)
      (by rw [abs_of_nonneg (by norm_num)]; norm_num)
      (by norm_num)
      (by rw [abs_lt]; constructor <;> norm_num)
      (by rw [abs_of_nonneg (by norm_num)]; norm_num)
    rw [h]; norm_num
  have x7 : round64 ((15 : ℚ) * (1 / 8)) = fin (15 / 8) := by
    have h := round64_eq ((15 : ℚ) * (1 / 8)) (0) (8444249301319680)
      (by rw [abs_of_nonneg (by norm_num)]; norm_num)
      (by rw [abs_of_nonneg (by norm_num)]; norm_num)
      (by norm_num)
      (by rw [abs_lt]; constructor <;> norm_num)
      (by rw [abs_of_nonneg (by norm_num)]; norm_num)
    rw [h]; norm_num
  have x8 : round64 ((0 : ℚ) + (15 / 8)) = fin (15 / 8) := by
    have h := round64_eq ((0 : ℚ) + (15 / 8)) (0) (8444249301319680)
      (by rw [abs_of_nonneg (by norm_num)]; norm_num)
      (by rw [abs_of_nonneg (by norm_num)]; norm_num)
      (by norm_num)
      (by rw [abs_lt]; constructor <;> norm_num)
      (by rw [abs_of_nonneg (by norm_num)]; norm_num)
    rw [h]; norm_num
  have xA := axis_eval 5 5 (1 / 8) 0 0 3 24 120 0 120 15 15 (15 / 8) (15 / 8) (3)
    (by norm_num) xi x1 x2 x3 x4 x5 x6 x7 x8
  have yi : Dbl.ofInt (0) = fin 0 := ofInt_zero
  have y1 : round64 ((0 : ℚ) / (1 / 8)) = fin 0 := by
    rw [show ((0 : ℚ) / (1 / 8) : ℚ) = 0 from by norm_num]; exact round64_zero
  have y2 : round64 ((0 : ℚ) * 5) = fin 0 := by
    rw [show ((0 : ℚ) * 5 : ℚ) = 0 from by norm_num]; exact round64_zero
  have y3 : round64 ((0 : ℚ) * 5) = fin 0 := by
    rw [show ((0 : ℚ) * 5 : ℚ) = 0 from by norm_num]; exact round64_zero
  have y4 : round64 ((0 : ℚ) - 0) = fin 0 := by
    rw [show ((0 : ℚ) - 0 : ℚ) = 0 from by norm_num]; exact round64_zero
  have y5 : round64 ((0 : ℚ) * (1 / 8)) = fin 0 := by
    rw [show ((0 : ℚ) * (1 / 8) : ℚ) = 0 from by norm_num]; exact round64_zero
  have y6 : round64 ((0 : ℚ) + 0) = fin 0 := by
    rw [show ((0 : ℚ) + 0 : ℚ) = 0 from by norm_num]; exact round64_zero
  have y7 : round64 ((0 : ℚ) * (1 / 8)) = fin 0 := by
    rw [show ((0 : ℚ) * (1 / 8) : ℚ) = 0 from by norm_num]; exact round64_zero
  have y8 : round64 ((0 : ℚ) + 0) = fin 0 := by
    rw [show ((0 : ℚ) + 0 : ℚ) = 0 from by norm_num]; exact round64_zero
  have yA := axis_eval 5 5 (1 / 8) 0 0 0 0 0 0 0 0 0 0 0 (0)
    (by norm_num) yi y1 y2 y3 y4 y5 y6 y7 y8
  exact integrate_eval config 5 5 0 0 0 0 (1 / 8) 15 0 (15 / 8) 0
    ⟨3, 0⟩ rfl rfl xA yA

/-- A sample tick: default configuration, from rest, input `(3, 0)`, `dt = 1/8`. -/
theorem sample_tick :
    CalcMouseTrace config ⟨fin 0, fin 0, fin 0, fin 0⟩ ⟨3, 0⟩ (fin (1 / 8)) =
      (⟨fin 15, fin 0, fin (7 / 8), fin 0⟩, ⟨1, 0⟩, false) := by
  have tx : truncQ (15 / 8) = 1 :=
    truncQ_eq_of_nonneg _ (1) (by norm_num) (by norm_num) (by norm_num)
  have ty : truncQ 0 = 0 :=
    truncQ_eq_of_nonneg _ (0) (by norm_num) (by norm_num) (by norm_num)
  have rx : Representable (fin (15 / 8)) := by
    show INT_MIN ≤ truncQ _ ∧ truncQ _ ≤ INT_MAX
    rw [tx]; decide
  have ry : Representable (fin 0) := by
    show INT_MIN ≤ truncQ _ ∧ truncQ _ ≤ INT_MAX
    rw [ty]; decide
  have h := CalcMouseTrace_eval config _ _ _ (1 / 2) 15 0 (15 / 8) 0 rfl
    sample_integrate rx ry
  rw [h, tx, ty]
  norm_num [abs_of_nonneg, abs_of_nonpos, EngineState.rest]

theorem sample_integrate_next :
    integrate config ⟨fin 15, fin 0, fin (7 / 8), fin 0⟩ ⟨0, 0⟩ (fin (1 / 8)) =
      ⟨fin (45 / 8), fin 0, fin (101 / 64), fin 0⟩ := by
  have xi : Dbl.ofInt (0) = fin 0 := ofInt_zero
  have x1 : round64 ((0 : ℚ) / (1 / 8)) = fin 0 := by
    rw [show ((0 : ℚ) / (1 / 8) : ℚ) = 0 from by norm_num]; exact round64_zero
  have x2 : round64 ((0 : ℚ) * 5) = fin 0 := by
    rw [show ((0 : ℚ) * 5 : ℚ) = 0 from by norm_num]; exact round64_zero
  have x3 : round64 ((15 : ℚ) * 5) = fin 75 := by
    have h := round64_eq ((15 : ℚ) * 5) (6) (5277655813324800)
      (by rw [abs_of_nonneg (by norm_num)]; norm_num)
      (by rw [abs_of_nonneg (by norm_num)]; norm_num)
      (by norm_num)
      (by rw [abs_lt]; constructor <;> norm_num)
      (by rw [abs_of_nonneg (by norm_num)]; norm_num)
    rw [h]; norm_num
  have x4 : round64 ((0 : ℚ) - 75) = fin (-75) := by
    have h := round64_eq ((0 : ℚ) - 75) (6) (-5277655813324800)
      (by rw [abs_of_nonpos (by norm_num)]; norm_num)
      (by rw [abs_of_nonpos (by norm_num)]; norm_num)
      (by norm_num)
      (by rw [abs_lt]; constructor <;> norm_num)
      (by rw [abs_of_nonpos (by norm_num)]; norm_num)
    rw [h]; norm_num
  have x5 : round64 ((-75 : ℚ) * (1 / 8)) = fin (-75 / 8) := by
    have h := round64_eq ((-75 : ℚ) * (1 / 8)) (3) (-5277655813324800)
      (by rw [abs_of_nonpos (by norm_num)]; norm_num)
      (by rw [abs_of_nonpos (by norm_num)]; norm_num)
      (by norm_num)
      (by rw [abs_lt]; constructor <;> norm_num)
      (by rw [abs_of_nonpos (by norm_num)]; norm_num)
    rw [h]; norm_num
  have x6 : round64 ((15 : ℚ) + (-75 / 8)) = fin (45 / 8) := by
    have h := round64_eq ((15 : ℚ) + (-75 / 8)) (2) (6333186975989760)
      (by rw [abs_of_nonneg (by norm_num)]; norm_num)
      (by rw [abs_of_nonneg (by norm_num)]; norm_num)
      (by norm_num)
      (by rw [abs_lt]; constructor <;> norm_num)
      (by rw [abs_of_nonneg (by norm_num)]; norm_num)
    rw [h]; norm_num
  have x7 : round64 ((45 / 8 : ℚ) * (1 / 8)) = fin (45 / 64) := by
    have h := round64_eq ((45 / 8 : ℚ) * (1 / 8)) (-1) (6333186975989760)
      (by rw [abs_of_nonneg (by norm_num)]; norm_num)
      (by rw [abs_of_nonneg (by norm_num)]; norm_num)
      (by norm_num)
      (by rw [abs_lt]; constructor <;> norm_num)
      (by rw [abs_of_nonneg (by norm_num)]; norm_num)
    rw [h]; norm_num
  have x8 : round64 ((7 / 8 : ℚ) + (45 / 64)) = fin (101 / 64) := by
    have h := round64_eq ((7 / 8 : ℚ) + (45 / 64)) (0) (7107243161944064)
      (by rw [abs_of_nonneg (by norm_num)]; norm_num)
      (by rw [abs_of_nonneg (by norm_num)]; norm_num)
      (by norm_num)
      (by rw [abs_lt]; constructor <;> norm_num)
      (by rw [abs_of_nonneg (by norm_num)]; norm_num)
    rw [h]; norm_num
  have xA := axis_eval 5 5 (1 / 8) 15 (7 / 8) 0 0 0 75 (-75) (-75 / 8) (45 / 8) (45 / 64) (101 / 64)
      (0)
    (by norm_num) xi x1 x2 x3 x4 x5 x6 x7 x8
  have yi : Dbl.ofInt (0) = fin 0 := ofInt_zero
  have y1 : round64 ((0 : ℚ) / (1 / 8)) = fin 0 := by
    rw [show ((0 : ℚ) / (1 / 8) : ℚ) = 0 from by norm_num]; exact round64_zero
  have y2 : round64 ((0 : ℚ) * 5) = fin 0 := by
    rw [show ((0 : ℚ) * 5 : ℚ) = 0 from by norm_num]; exact round64_zero
  have y3 : round64 ((0 : ℚ) * 5) = fin 0 := by
    rw [show ((0 : ℚ) * 5 : ℚ) = 0 from by norm_num]; exact round64_zero
  have y4 : round64 ((0 : ℚ) - 0) = fin 0 := by
    rw [show ((0 : ℚ) - 0 : ℚ) = 0 from by norm_num]; exact round64_zero
  have y5 : round64 ((0 : ℚ) * (1 / 8)) = fin 0 := by
    rw [show ((0 : ℚ) * (1 / 8) : ℚ) = 0 from by norm_num]; exact round64_zero
  have y6 : round64 ((0 : ℚ) + 0) = fin 0 := by
    rw [show ((0 : ℚ) + 0 : ℚ) = 0 from by norm_num]; exact round64_zero
  have y7 : round64 ((0 : ℚ) * (1 / 8)) = fin 0 := by
    rw [show ((0 : ℚ) * (1 / 8) : ℚ) = 0 from by norm_num]; exact round64_zero
  have y8 : round64 ((0 : ℚ) + 0) = fin 0 := by
    rw [show ((0 : ℚ) + 0 : ℚ) = 0 from by norm_num]; exact round64_zero
  have yA := axis_eval 5 5 (1 / 8) 0 0 0 0 0 0 0 0 0 0 0 (0)
    (by norm_num) yi y1 y2 y3 y4 y5 y6 y7 y8
  exact integrate_eval config 5 5 15 0 (7 / 8) 0 (1 / 8) (45 / 8) 0 (101 / 64) 0
    ⟨0, 0⟩ rfl rfl xA yA

theorem overflow_integrate :
    integrate config ⟨fin 0, fin 0, fin 0, fin 0⟩ ⟨2147483647, 0⟩ (fin 1) =
      ⟨fin 10737418235, fin 0, fin 10737418235, fin 0⟩ := by
  have xi : Dbl.ofInt (2147483647) = fin 2147483647 := by
    simpa using ofInt_eq (2147483647) (by norm_num)
  have x1 : round64 ((2147483647 : ℚ) / 1) = fin 2147483647 := by
    have h := round64_eq ((2147483647 : ℚ) / 1) (30) (9007199250546688)
      (by rw [abs_of_nonneg (by norm_num)]; norm_num)
      (by rw [abs_of_nonneg (by norm_num)]; norm_num)
      (by norm_num)
      (by rw [abs_lt]; constructor <;> norm_num)
      (by rw [abs_of_nonneg (by norm_num)]; norm_num)
    rw [h]; norm_num
  have x2 : round64 ((2147483647 : ℚ) * 5) = fin 10737418235 := by
    have h := round64_eq ((2147483647 : ℚ) * 5) (33) (5629499531591680)
      (by rw [abs_of_nonneg (by norm_num)]; norm_num)
      (by rw [abs_of_nonneg (by norm_num)]; norm_num)
      (by norm_num)
      (by rw [abs_lt]; constructor <;> norm_num)
      (by rw [abs_of_nonneg (by norm_num)]; norm_num)
    rw [h]; norm_num
  have x3 : round64 ((0 : ℚ) * 5) = fin 0 := by
    rw [show ((0 : ℚ) * 5 : ℚ) = 0 from by norm_num]; exact round64_zero
  have x4 : round64 ((10737418235 : ℚ) - 0) = fin 10737418235 := by
    have h := round64_eq ((10737418235 : ℚ) - 0) (33) (5629499531591680)
      (by rw [abs_of_nonneg (by norm_num)]; norm_num)
      (by rw [abs_of_nonneg (by norm_num)]; norm_num)
      (by norm_num)
      (by rw [abs_lt]; constructor <;> norm_num)
      (by rw [abs_of_nonneg (by norm_num)]; norm_num)
    rw [h]; norm_num
  have x5 : round64 ((10737418235 : ℚ) * 1) = fin 10737418235 := by
    have h := round64_eq ((10737418235 : ℚ) * 1) (33) (5629499531591680)
      (by rw [abs_of_nonneg (by norm_num)]; norm_num)
      (by rw [abs_of_nonneg (by norm_num)]; norm_num)
      (by norm_num)
      (by rw [abs_lt]; constructor <;> norm_num)
      (by rw [abs_of_nonneg (by norm_num)]; norm_num)
    rw [h]; norm_num
  have x6 : round64 ((0 : ℚ) + 10737418235) = fin 10737418235 := by
    have h := round64_eq ((0 : ℚ) + 10737418235) (33) (5629499531591680)
      (by rw [abs_of_nonneg (by norm_num)]; norm_num)
      (by rw [abs_of_nonneg (by norm_num)]; norm_num)
      (by norm_num)
      (by rw [abs_lt]; constructor <;> norm_num)
      (by rw [abs_of_nonneg (by norm_num)]; norm_num)
    rw [h]; norm_num
  have x7 : round64 ((10737418235 : ℚ) * 1) = fin 10737418235 := by
    have h := round64_eq ((10737418235 : ℚ) * 1) (33) (5629499531591680)
      (by rw [abs_of_nonneg (by norm_num)]; norm_num)
      (by rw [abs_of_nonneg (by norm_num)]; norm_num)
      (by norm_num)
      (by rw [abs_lt]; constructor <;> norm_num)
      (by rw [abs_of_nonneg (by norm_num)]; norm_num)
    rw [h]; norm_num
  have x8 : round64 ((0 : ℚ) + 10737418235) = fin 10737418235 := by
    have h := round64_eq ((0 : ℚ) + 10737418235) (33) (5629499531591680)
      (by rw [abs_of_nonneg (by norm_num)]; norm_num)
      (by rw [abs_of_nonneg (by norm_num)]; norm_num)
      (by norm_num)
      (by rw [abs_lt]; constructor <;> norm_num)
      (by rw [abs_of_nonneg (by norm_num)]; norm_num)
    rw [h]; norm_num
  have xA := axis_eval 5 5 1 0 0 2147483647 2147483647 10737418235 0 10737418235 10737418235
      10737418235 10737418235 10737418235 (2147483647)
    (by norm_num) xi x1 x2 x3 x4 x5 x6 x7 x8
  have yi : Dbl.ofInt (0) = fin 0 := ofInt_zero
  have y1 : round64 ((0 : ℚ) / 1) = fin 0 := by
    rw [show ((0 : ℚ) / 1 : ℚ) = 0 from by norm_num]; exact round64_zero
  have y2 : round64 ((0 : ℚ) * 5) = fin 0 := by
    rw [show ((0 : ℚ) * 5 : ℚ) = 0 from by norm_num]; exact round64_zero
  have y3 : round64 ((0 : ℚ) * 5) = fin 0 := by
    rw [show ((0 : ℚ) * 5 : ℚ) = 0 from by norm_num]; exact round64_zero
  have y4 : round64 ((0 : ℚ) - 0) = fin 0 := by
    rw [show ((0 : ℚ) - 0 : ℚ) = 0 from by norm_num]; exact round64_zero
  have y5 : round64 ((0 : ℚ) * 1) = fin 0 := by
    rw [show ((0 : ℚ) * 1 : ℚ) = 0 from by norm_num]; exact round64_zero
  have y6 : round64 ((0 : ℚ) + 0) = fin 0 := by
    rw [show ((0 : ℚ) + 0 : ℚ) = 0 from by norm_num]; exact round64_zero
  have y7 : round64 ((0 : ℚ) * 1) = fin 0 := by
    rw [show ((0 : ℚ) * 1 : ℚ) = 0 from by norm_num]; exact round64_zero
  have y8 : round64 ((0 : ℚ) + 0) = fin 0 := by
    rw [show ((0 : ℚ) + 0 : ℚ) = 0 from by norm_num]; exact round64_zero
  have yA := axis_eval 5 5 1 0 0 0 0 0 0 0 0 0 0 0 (0)
    (by norm_num) yi y1 y2 y3 y4 y5 y6 y7 y8
  exact integrate_eval config 5 5 0 0 0 0 1 10737418235 0 10737418235 0
    ⟨2147483647, 0⟩ rfl rfl xA yA

/-! ## The event/tick loop (C1, C10) -/

theorem round64_tenth : round64 ((1 : ℚ) / 10) = fin tenth := by
  unfold tenth
  have h := round64_eq ((1 : ℚ) / 10) (-4) (7205759403792794)
    (by rw [abs_of_nonneg (by norm_num)]; norm_num) (by rw [abs_of_nonneg (by norm_num)]; norm_num)
    (by norm_num) (by rw [abs_lt]; constructor <;> norm_num)
    (by rw [abs_of_nonneg (by norm_num)]; norm_num)
  rw [h]; norm_num

/-- The `dt` of the sample environments: one count at 10 counts per second. -/
theorem first_dt : Dbl.ofInt 1 / Dbl.ofInt 10 = fin tenth := by
  have h1 : Dbl.ofInt 1 = fin 1 := by simpa using ofInt_eq 1 (by norm_num)
  have h10 : Dbl.ofInt 10 = fin 10 := by simpa using ofInt_eq 10 (by norm_num)
  rw [h1, h10, fin_div_fin _ _ (by norm_num)]
  exact round64_tenth

theorem steady_run :
    (WinMain config World.steady 2).log =
      [LogEntry.getMessage ⟨WM_INPUT, ⟨RIM_TYPEMOUSE, 0, 100, 0⟩⟩,
       LogEntry.iteration
        { dispatched := some ⟨WM_INPUT, ⟨RIM_TYPEMOUSE, 0, 100, 0⟩⟩,
          before := EngineState.rest, inp := ⟨100, 0⟩, dt := fin tenth, out := ⟨50, 0⟩,
          done := false, moveDx := -50, moveDy := 0,
          sent := some ⟨-50, 0, MOUSEEVENTF_MOVE, IT_IS_SENT_BY_ME⟩, peeked := none }] := by
  have h1 : WinMain config World.steady 1 =
      { pc := Pc.draining, event := ⟨WM_INPUT, ⟨RIM_TYPEMOUSE, 0, 100, 0⟩⟩, quit := false,
        done := false, received := true, t1 := 0, mouVelocity := ⟨0, 0⟩,
        engine := EngineState.rest, nMsg := 1, nPeek := 0, nClock := 1,
        log := [LogEntry.getMessage ⟨WM_INPUT, ⟨RIM_TYPEMOUSE, 0, 100, 0⟩⟩] } := by
    simp [WinMain, step, Loop.init, World.steady, WM_INPUT, WM_QUIT]
  show (step config World.steady (WinMain config World.steady 1)).log = _
  rw [h1]
  have hdt := first_dt
  have htick : CalcMouseTrace config EngineState.rest ⟨100, 0⟩ (fin tenth) = _ := steady_tick
  simp [step, World.steady, WM_INPUT, WM_QUIT, WM_DESTROY, EventHandler, RIM_TYPEMOUSE,
    IT_IS_SENT_BY_ME, hdt, htick, wrapInt32, MouseMove]

theorem CalcMouseTrace_out (c : Config) (s : EngineState) (inp : POINT) (dt : Dbl) :
    (CalcMouseTrace c s inp dt).2.1 =
      ⟨Dbl.toInt32 (integrate c s inp dt).dx, Dbl.toInt32 (integrate c s inp dt).dy⟩ := by
  unfold CalcMouseTrace
  simp only
  split <;> rfl

theorem MouseMove_eq_none_iff (dx dy : Int) : MouseMove dx dy = none ↔ dx = 0 ∧ dy = 0 := by
  unfold MouseMove
  split <;> simp_all

theorem wrapInt32_sub_zero (a : Int) (h : INT_MIN ≤ a ∧ a ≤ INT_MAX) :
    wrapInt32 (a - 0) = a := by
  unfold INT_MIN INT_MAX at h
  unfold wrapInt32
  omega

/-- With accumulated input `(0, 0)` the 32-bit difference is the tick output itself. -/
theorem move_of_zero_input (c : Config) (s : EngineState) (inp : POINT) (dt : Dbl)
    (h : inp = ⟨0, 0⟩) :
    wrapInt32 ((CalcMouseTrace c s inp dt).2.1.x - inp.x) = (CalcMouseTrace c s inp dt).2.1.x ∧
    wrapInt32 ((CalcMouseTrace c s inp dt).2.1.y - inp.y) = (CalcMouseTrace c s inp dt).2.1.y := by
  subst h
  rw [CalcMouseTrace_out]
  exact ⟨wrapInt32_sub_zero _ (toInt32_range _), wrapInt32_sub_zero _ (toInt32_range _)⟩

/-- C1, as stated, fails: in the steady sample environment the first iteration ticks with
accumulated input `(100, 0)` at `dt = 0.1`; the tick produces `(50, 0)` and `MouseMove` is
handed `(-50, 0)`, which it sends. -/
theorem move_differs_from_tick_output :
    (WinMain config World.steady 2).log =
      [LogEntry.getMessage ⟨WM_INPUT, ⟨RIM_TYPEMOUSE, 0, 100, 0⟩⟩,
       LogEntry.iteration
        { dispatched := some ⟨WM_INPUT, ⟨RIM_TYPEMOUSE, 0, 100, 0⟩⟩,
          before := EngineState.rest, inp := ⟨100, 0⟩, dt := fin tenth, out := ⟨50, 0⟩,
          done := false, moveDx := -50, moveDy := 0,
          sent := some ⟨-50, 0, MOUSEEVENTF_MOVE, IT_IS_SENT_BY_ME⟩, peeked := none }] ∧
    ((-50 : Int), (0 : Int)) ≠ (50, 0) :=
  ⟨steady_run, by decide⟩

/-- C1 (amended): in every iteration of the draining loop, in every environment and after any
number of passes, the tick output logged is what `CalcMouseTrace` produced for that iteration
from the engine state and the accumulated input, and the delta handed to `MouseMove` is that
output minus the accumulated input of the iteration, per axis in 32-bit arithmetic; it is the
tick output itself when the accumulated input is `(0, 0)`. `MouseMove` sends nothing exactly
when the delta it is handed is `(0, 0)`. -/
theorem move_is_output_minus_input (c : Config) (w : World) (n : Nat) (it : Iteration)
    (hit : LogEntry.iteration it ∈ (WinMain c w n).log) :
    it.out = (CalcMouseTrace c it.before it.inp it.dt).2.1 ∧
    it.moveDx = wrapInt32 (it.out.x - it.inp.x) ∧
    it.moveDy = wrapInt32 (it.out.y - it.inp.y) ∧
    it.sent = MouseMove it.moveDx it.moveDy ∧
    (it.sent = none ↔ it.moveDx = 0 ∧ it.moveDy = 0) ∧
    (it.inp = ⟨0, 0⟩ → it.moveDx = it.out.x ∧ it.moveDy = it.out.y) := by
  induction n generalizing it with
  | zero => simp [WinMain, Loop.init] at hit
  | succ n ih =>
    have hstep : (WinMain c w (n + 1)) = step c w (WinMain c w n) := rfl
    rw [hstep] at hit
    unfold step at hit
    split at hit
    · exact ih it hit
    · simp only at hit
      split at hit
      · simp only [List.mem_append, List.mem_singleton] at hit
        rcases hit with hit | hit
        · exact ih it hit
        · cases hit
      · simp only [List.mem_append, List.mem_singleton] at hit
        rcases hit with hit | hit
        · exact ih it hit
        · cases hit
    · split at hit
      · split at hit
        · exact ih it hit
        · simp only [List.mem_append, List.mem_singleton] at hit
          rcases hit with hit | hit
          · exact ih it hit
          · injection hit with hit
            subst hit
            refine ⟨rfl, rfl, rfl, rfl, MouseMove_eq_none_iff _ _, ?_⟩
            exact move_of_zero_input c _ _ _
      · exact ih it hit

/-- Witness of C1 (amended): the iteration logged in the steady sample environment. -/
theorem move_is_output_minus_input_witness :
    LogEntry.iteration
        { dispatched := some ⟨WM_INPUT, ⟨RIM_TYPEMOUSE, 0, 100, 0⟩⟩,
          before := EngineState.rest, inp := ⟨100, 0⟩, dt := fin tenth, out := ⟨50, 0⟩,
          done := false, moveDx := -50, moveDy := 0,
          sent := some ⟨-50, 0, MOUSEEVENTF_MOVE, IT_IS_SENT_BY_ME⟩, peeked := none } ∈
      (WinMain config World.steady 2).log ∧
    (⟨50, 0⟩ : POINT) = (CalcMouseTrace config EngineState.rest ⟨100, 0⟩ (fin tenth)).2.1 ∧
    (-50 : Int) = wrapInt32 (50 - 100) ∧
    (0 : Int) = wrapInt32 (0 - 0) ∧
    some (⟨-50, 0, MOUSEEVENTF_MOVE, IT_IS_SENT_BY_ME⟩ : INPUT) = MouseMove (-50) 0 ∧
    (some (⟨-50, 0, MOUSEEVENTF_MOVE, IT_IS_SENT_BY_ME⟩ : INPUT) = none ↔
      (-50 : Int) = 0 ∧ (0 : Int) = 0) ∧
    ((⟨100, 0⟩ : POINT) = ⟨0, 0⟩ → (-50 : Int) = 50 ∧ (0 : Int) = 0) := by
  have hmem : LogEntry.iteration
        { dispatched := some ⟨WM_INPUT, ⟨RIM_TYPEMOUSE, 0, 100, 0⟩⟩,
          before := EngineState.rest, inp := ⟨100, 0⟩, dt := fin tenth, out := ⟨50, 0⟩,
          done := false, moveDx := -50, moveDy := 0,
          sent := some ⟨-50, 0, MOUSEEVENTF_MOVE, IT_IS_SENT_BY_ME⟩, peeked := none } ∈
      (WinMain config World.steady 2).log := by
    rw [steady_run]
    exact List.mem_cons_of_mem _ (List.mem_cons_self _ _)
  exact ⟨hmem, move_is_output_minus_input config World.steady 2 _ hmem⟩

/-- C10: the code at the failing input. In the sample environment where the poll of the
first iteration retrieves `WM_QUIT`: after two passes the loop is in the draining loop holding
the received `WM_QUIT`; the third pass sets `quit` and returns to the test of the outer loop,
not to the code after it; the fourth pass calls `GetMessage` once more, which retrieves a
third message, and only then leaves the loop. No tick and no injection follow the quit
message. -/
theorem quit_waits_for_another_message :
    ((WinMain config World.quitWhileDraining 2).pc = Pc.draining ∧
      (WinMain config World.quitWhileDraining 2).received = true ∧
      (WinMain config World.quitWhileDraining 2).event.message = WM_QUIT ∧
      (WinMain config World.quitWhileDraining 2).nMsg = 2) ∧
    ((WinMain config World.quitWhileDraining 3).pc = Pc.waiting ∧
      (WinMain config World.quitWhileDraining 3).quit = true ∧
      (WinMain config World.quitWhileDraining 3).log = (WinMain config World.quitWhileDraining 2).log) ∧
    ((WinMain config World.quitWhileDraining 4).pc = Pc.quit ∧
      (WinMain config World.quitWhileDraining 4).nMsg = 3 ∧
      (WinMain config World.quitWhileDraining 4).log =
        [LogEntry.getMessage ⟨WM_INPUT, ⟨RIM_TYPEMOUSE, 0, 1, 0⟩⟩,
         LogEntry.iteration
          { dispatched := some ⟨WM_INPUT, ⟨RIM_TYPEMOUSE, 0, 1, 0⟩⟩,
            before := EngineState.rest, inp := ⟨1, 0⟩, dt := fin tenth, out := ⟨0, 0⟩,
            done := false, moveDx := -1, moveDy := 0,
            sent := some ⟨-1, 0, MOUSEEVENTF_MOVE, IT_IS_SENT_BY_ME⟩,
            peeked := some ⟨WM_QUIT, ⟨0, 0, 0, 0⟩⟩ },
         LogEntry.getMessage ⟨WM_INPUT, ⟨RIM_TYPEMOUSE, 0, 1, 0⟩⟩]) := by
  have h1 : WinMain config World.quitWhileDraining 1 =
      { pc := Pc.draining, event := ⟨WM_INPUT, ⟨RIM_TYPEMOUSE, 0, 1, 0⟩⟩, quit := false,
        done := false, received := true, t1 := 0, mouVelocity := ⟨0, 0⟩,
        engine := EngineState.rest, nMsg := 1, nPeek := 0, nClock := 1,
        log := [LogEntry.getMessage ⟨WM_INPUT, ⟨RIM_TYPEMOUSE, 0, 1, 0⟩⟩] } := by
    simp [WinMain, step, Loop.init, World.quitWhileDraining, WM_INPUT, WM_QUIT]
  have hdt := first_dt
  have htick : CalcMouseTrace config EngineState.rest ⟨1, 0⟩ (fin tenth) = _ := quit_tick
  have h2 : WinMain config World.quitWhileDraining 2 =
      { pc := Pc.draining, event := ⟨WM_QUIT, ⟨0, 0, 0, 0⟩⟩, quit := false,
        done := false, received := true, t1 := 1, mouVelocity := ⟨0, 0⟩,
        engine := ⟨fin 5, fin 0, fin (1 / 2), fin 0⟩, nMsg := 2, nPeek := 1, nClock := 2,
        log := [LogEntry.getMessage ⟨WM_INPUT, ⟨RIM_TYPEMOUSE, 0, 1, 0⟩⟩,
         LogEntry.iteration
          { dispatched := some ⟨WM_INPUT, ⟨RIM_TYPEMOUSE, 0, 1, 0⟩⟩,
            before := EngineState.rest, inp := ⟨1, 0⟩, dt := fin tenth, out := ⟨0, 0⟩,
            done := false, moveDx := -1, moveDy := 0,
            sent := some ⟨-1, 0, MOUSEEVENTF_MOVE, IT_IS_SENT_BY_ME⟩,
            peeked := some ⟨WM_QUIT, ⟨0, 0, 0, 0⟩⟩ }] } := by
    show step config World.quitWhileDraining (WinMain config World.quitWhileDraining 1) = _
    rw [h1]
    simp [step, World.quitWhileDraining, WM_INPUT, WM_QUIT, WM_DESTROY, EventHandler,
      RIM_TYPEMOUSE, IT_IS_SENT_BY_ME, hdt, htick, wrapInt32, MouseMove]
  have h3 : WinMain config World.quitWhileDraining 3 =
      { pc := Pc.waiting, event := ⟨WM_QUIT, ⟨0, 0, 0, 0⟩⟩, quit := true,
        done := false, received := true, t1 := 1, mouVelocity := ⟨0, 0⟩,
        engine := ⟨fin 5, fin 0, fin (1 / 2), fin 0⟩, nMsg := 2, nPeek := 1, nClock := 2,
        log := (WinMain config World.quitWhileDraining 2).log } := by
    show step config World.quitWhileDraining (WinMain config World.quitWhileDraining 2) = _
    rw [h2]
    simp [step]
  have h4 : (WinMain config World.quitWhileDraining 4).pc = Pc.quit ∧
      (WinMain config World.quitWhileDraining 4).nMsg = 3 ∧
      (WinMain config World.quitWhileDraining 4).log =
        (WinMain config World.quitWhileDraining 2).log ++
          [LogEntry.getMessage ⟨WM_INPUT, ⟨RIM_TYPEMOUSE, 0, 1, 0⟩⟩] := by
    show (step config World.quitWhileDraining (WinMain config World.quitWhileDraining 3)).pc = _ ∧
      (step config World.quitWhileDraining (WinMain config World.quitWhileDraining 3)).nMsg = _ ∧
      (step config World.quitWhileDraining (WinMain config World.quitWhileDraining 3)).log = _
    rw [h3]
    simp [step, World.quitWhileDraining, WM_INPUT, WM_QUIT]
  refine ⟨?_, ?_, ?_⟩
  · rw [h2]; exact ⟨rfl, rfl, rfl, rfl⟩
  · rw [h3]; exact ⟨rfl, rfl, rfl⟩
  · obtain ⟨k1, k2, k3⟩ := h4
    refine ⟨k1, k2, ?_⟩
    rw [k3, h2]
    rfl

/-! ## The residual invariant (C5): counterexample and sample sequence -/

/-- C5, as stated, fails in two ways. Where the truncation is not an `int`: from rest, default
configuration, input `(2147483647, 0)` and `dt = 1` leave the residual
`10737418235 + 2147483648`. At `dt = 0` with a non-zero input: from rest, input `(1, 0)`
leaves the residual NaN. -/
theorem residual_leaves_unit_interval :
    (CalcMouseTrace config EngineState.rest ⟨2147483647, 0⟩ (fin 1)).1.dx = fin 12884901883 ∧
    (CalcMouseTrace config EngineState.rest ⟨1, 0⟩ (fin 0)).1.dx = nan := by
  constructor
  · have hi : integrate config EngineState.rest ⟨2147483647, 0⟩ (fin 1) =
        ⟨fin 10737418235, fin 0, fin 10737418235, fin 0⟩ := overflow_integrate
    have t1 : truncQ 10737418235 = 10737418235 :=
      truncQ_eq_of_nonneg _ 10737418235 (by norm_num) (by norm_num) (by norm_num)
    have o1 : Dbl.toInt32 (fin 10737418235) = -2147483648 := by
      simp [Dbl.toInt32, t1, INT_MIN, INT_MAX]
    have o2 : Dbl.ofInt (-2147483648) = fin (-2147483648) := by
      simpa using ofInt_eq (-2147483648) (by norm_num)
    have o3 : fin 10737418235 - fin (-2147483648) = fin 12884901883 := by
      rw [fin_sub_fin]
      have h := round64_intCast 12884901883 (by norm_num)
      norm_num at h ⊢
      exact h
    have hf : (CalcMouseTrace config EngineState.rest ⟨2147483647, 0⟩ (fin 1)).2.2 = false := by
      rw [CalcMouseTrace_flag, hi]
      show (Dbl.lt (fabs (fin 10737418235)) (fin (1 / 2)) && _) = false
      rw [fabs_fin, lt_fin_fin, decide_eq_false (by rw [abs_of_nonneg (by norm_num)]; norm_num)]
      rfl
    rw [CalcMouseTrace_state, hf, if_neg (by simp), hi]
    show fin 10737418235 - Dbl.ofInt (Dbl.toInt32 (fin 10737418235)) = _
    rw [o1, o2, o3]
  · have o1 : Dbl.ofInt 1 = fin 1 := by simpa using ofInt_eq 1 (by norm_num)
    have hi : integrate config EngineState.rest ⟨1, 0⟩ (fin 0) = ⟨nan, fin 0, nan, fin 0⟩ := by
      simp [integrate, instVelocity, o1, div_fin_zero, infTimes, config, EngineState.rest,
        round64_zero]
    unfold CalcMouseTrace
    rw [hi]
    simp [config]

/-- The sample tick followed by a zero-input tick with `dt = 1/8` is a regular sequence. -/
theorem sample_regular :
    Regular config EngineState.rest [(⟨3, 0⟩, fin (1 / 8)), (⟨0, 0⟩, fin (1 / 8))] := by
  have i1 : integrate config EngineState.rest ⟨3, 0⟩ (fin (1 / 8)) =
      ⟨fin 15, fin 0, fin (15 / 8), fin 0⟩ := sample_integrate
  have c1 : CalcMouseTrace config EngineState.rest ⟨3, 0⟩ (fin (1 / 8)) =
      (⟨fin 15, fin 0, fin (7 / 8), fin 0⟩, ⟨1, 0⟩, false) := sample_tick
  have i2 := sample_integrate_next
  have r1 : Representable (fin (15 / 8)) :=
    representable_of_bounds _ 1 (by norm_num) (by norm_num) (by norm_num) (by decide)
  have r2 : Representable (fin (101 / 64)) :=
    representable_of_bounds _ 1 (by norm_num) (by norm_num) (by norm_num) (by decide)
  refine ⟨⟨1 / 8, rfl, Or.inl (by norm_num)⟩, ?_, ?_, ⟨1 / 8, rfl, Or.inl (by norm_num)⟩,
    ?_, ?_, trivial⟩
  · show Representable (integrate config EngineState.rest ⟨3, 0⟩ (fin (1 / 8))).dx
    rw [i1]; exact r1
  · show Representable (integrate config EngineState.rest ⟨3, 0⟩ (fin (1 / 8))).dy
    rw [i1]; exact representable_zero
  · show Representable (integrate config
      (CalcMouseTrace config EngineState.rest ⟨3, 0⟩ (fin (1 / 8))).1 ⟨0, 0⟩ (fin (1 / 8))).dx
    rw [c1, i2]; exact r2
  · show Representable (integrate config
      (CalcMouseTrace config EngineState.rest ⟨3, 0⟩ (fin (1 / 8))).1 ⟨0, 0⟩ (fin (1 / 8))).dy
    rw [c1, i2]; exact representable_zero

/-- Witness of C5 (amended): default configuration, a tick with input `(3, 0)` and
`dt = 1/8` followed by a tick with input `(0, 0)` and `dt = 1/8`. -/
theorem residual_invariant_witness :
    Regular config EngineState.rest ([(⟨3, 0⟩, fin (1 / 8))] ++ [(⟨0, 0⟩, fin (1 / 8))]) ∧
    ∃ px py rx ry : ℚ,
      (integrate config
        (runTicks config EngineState.rest [(⟨3, 0⟩, fin (1 / 8))]) ⟨0, 0⟩ (fin (1 / 8))).dx =
          fin px ∧
      (integrate config
        (runTicks config EngineState.rest [(⟨3, 0⟩, fin (1 / 8))]) ⟨0, 0⟩ (fin (1 / 8))).dy =
          fin py ∧
      (CalcMouseTrace config
        (runTicks config EngineState.rest [(⟨3, 0⟩, fin (1 / 8))]) ⟨0, 0⟩ (fin (1 / 8))).2.1 =
          ⟨truncQ px, truncQ py⟩ ∧
      (CalcMouseTrace config
        (runTicks config EngineState.rest [(⟨3, 0⟩, fin (1 / 8))]) ⟨0, 0⟩ (fin (1 / 8))).1.dx =
          fin rx ∧
      (CalcMouseTrace config
        (runTicks config EngineState.rest [(⟨3, 0⟩, fin (1 / 8))]) ⟨0, 0⟩ (fin (1 / 8))).1.dy =
          fin ry ∧
      |rx| < 1 ∧ |ry| < 1 :=
  ⟨sample_regular,
    residual_invariant 5 5 (1 / 2) [(⟨3, 0⟩, fin (1 / 8))] ⟨0, 0⟩ (fin (1 / 8)) sample_regular⟩

/-! ## A tick in which operations round, evaluated -/

theorem rounded_integrate :
    integrate config ⟨fin 0, fin 0, fin 0, fin 0⟩ ⟨4, 0⟩ (fin (7 / 4)) =
      ⟨fin (5629499534213119 / 281474976710656), fin 0, fin (4925812092436479 / 140737488355328),
          fin 0⟩ := by
  have xi : Dbl.ofInt (4) = fin 4 := by
    simpa using ofInt_eq (4) (by norm_num)
  have x1 : round64 ((4 : ℚ) / (7 / 4)) = fin (2573485501354569 / 1125899906842624) := by
    have h := round64_eq ((4 : ℚ) / (7 / 4)) (1) (5146971002709138)
      (by rw [abs_of_nonneg (by norm_num)]; norm_num)
      (by rw [abs_of_nonneg (by norm_num)]; norm_num)
      (by norm_num)
      (by rw [abs_lt]; constructor <;> norm_num)
      (by rw [abs_of_nonneg (by norm_num)]; norm_num)
    rw [h]; norm_num
  have x2 : round64 ((2573485501354569 / 1125899906842624 : ℚ) * 5) = fin (3216856876693211 /
      281474976710656) := by
    have h := round64_eq_tie ((2573485501354569 / 1125899906842624 : ℚ) * 5) (3) (6433713753386422)
      (by rw [abs_of_nonneg (by norm_num)]; norm_num)
      (by rw [abs_of_nonneg (by norm_num)]; norm_num)
      (by norm_num)
      (by rw [abs_of_nonneg (by norm_num)]; norm_num)
      (by norm_num)
      (by rw [abs_of_nonneg (by norm_num)]; norm_num)
    rw [h]; norm_num
  have x3 : round64 ((0 : ℚ) * 5) = fin 0 := by
    rw [show ((0 : ℚ) * 5 : ℚ) = 0 from by norm_num]; exact round64_zero
  have x4 : round64 ((3216856876693211 / 281474976710656 : ℚ) - 0) = fin (3216856876693211 /
      281474976710656) := by
    have h := round64_eq ((3216856876693211 / 281474976710656 : ℚ) - 0) (3) (6433713753386422)
      (by rw [abs_of_nonneg (by norm_num)]; norm_num)
      (by rw [abs_of_nonneg (by norm_num)]; norm_num)
      (by norm_num)
      (by rw [abs_lt]; constructor <;> norm_num)
      (by rw [abs_of_nonneg (by norm_num)]; norm_num)
    rw [h]; norm_num
  have x5 : round64 ((3216856876693211 / 281474976710656 : ℚ) * (7 / 4)) = fin (5629499534213119 /
      281474976710656) := by
    have h := round64_eq ((3216856876693211 / 281474976710656 : ℚ) * (7 / 4)) (4) (5629499534213119)
      (by rw [abs_of_nonneg (by norm_num)]; norm_num)
      (by rw [abs_of_nonneg (by norm_num)]; norm_num)
      (by norm_num)
      (by rw [abs_lt]; constructor <;> norm_num)
      (by rw [abs_of_nonneg (by norm_num)]; norm_num)
    rw [h]; norm_num
  have x6 : round64 ((0 : ℚ) + (5629499534213119 / 281474976710656)) = fin (5629499534213119 /
      281474976710656) := by
    have h := round64_eq ((0 : ℚ) + (5629499534213119 / 281474976710656)) (4) (5629499534213119)
      (by rw [abs_of_nonneg (by norm_num)]; norm_num)
      (by rw [abs_of_nonneg (by norm_num)]; norm_num)
      (by norm_num)
      (by rw [abs_lt]; constructor <;> norm_num)
      (by rw [abs_of_nonneg (by norm_num)]; norm_num)
    rw [h]; norm_num
  have x7 : round64 ((5629499534213119 / 281474976710656 : ℚ) * (7 / 4)) = fin (4925812092436479 /
      140737488355328) := by
    have h := round64_eq ((5629499534213119 / 281474976710656 : ℚ) * (7 / 4)) (5) (4925812092436479)
      (by rw [abs_of_nonneg (by norm_num)]; norm_num)
      (by rw [abs_of_nonneg (by norm_num)]; norm_num)
      (by norm_num)
      (by rw [abs_lt]; constructor <;> norm_num)
      (by rw [abs_of_nonneg (by norm_num)]; norm_num)
    rw [h]; norm_num
  have x8 : round64 ((0 : ℚ) + (4925812092436479 / 140737488355328)) = fin (4925812092436479 /
      140737488355328) := by
    have h := round64_eq ((0 : ℚ) + (4925812092436479 / 140737488355328)) (5) (4925812092436479)
      (by rw [abs_of_nonneg (by norm_num)]; norm_num)
      (by rw [abs_of_nonneg (by norm_num)]; norm_num)
      (by norm_num)
      (by rw [abs_lt]; constructor <;> norm_num)
      (by rw [abs_of_nonneg (by norm_num)]; norm_num)
    rw [h]; norm_num
  have xA := axis_eval 5 5 (7 / 4) 0 0 4 (2573485501354569 / 1125899906842624) (3216856876693211 /
      281474976710656) 0 (3216856876693211 / 281474976710656) (5629499534213119 / 281474976710656)
      (5629499534213119 / 281474976710656) (4925812092436479 / 140737488355328) (4925812092436479 /
      140737488355328) (4)
    (by norm_num) xi x1 x2 x3 x4 x5 x6 x7 x8
  have yi : Dbl.ofInt (0) = fin 0 := ofInt_zero
  have y1 : round64 ((0 : ℚ) / (7 / 4)) = fin 0 := by
    rw [show ((0 : ℚ) / (7 / 4) : ℚ) = 0 from by norm_num]; exact round64_zero
  have y2 : round64 ((0 : ℚ) * 5) = fin 0 := by
    rw [show ((0 : ℚ) * 5 : ℚ) = 0 from by norm_num]; exact round64_zero
  have y3 : round64 ((0 : ℚ) * 5) = fin 0 := by
    rw [show ((0 : ℚ) * 5 : ℚ) = 0 from by norm_num]; exact round64_zero
  have y4 : round64 ((0 : ℚ) - 0) = fin 0 := by
    rw [show ((0 : ℚ) - 0 : ℚ) = 0 from by norm_num]; exact round64_zero
  have y5 : round64 ((0 : ℚ) * (7 / 4)) = fin 0 := by
    rw [show ((0 : ℚ) * (7 / 4) : ℚ) = 0 from by norm_num]; exact round64_zero
  have y6 : round64 ((0 : ℚ) + 0) = fin 0 := by
    rw [show ((0 : ℚ) + 0 : ℚ) = 0 from by norm_num]; exact round64_zero
  have y7 : round64 ((0 : ℚ) * (7 / 4)) = fin 0 := by
    rw [show ((0 : ℚ) * (7 / 4) : ℚ) = 0 from by norm_num]; exact round64_zero
  have y8 : round64 ((0 : ℚ) + 0) = fin 0 := by
    rw [show ((0 : ℚ) + 0 : ℚ) = 0 from by norm_num]; exact round64_zero
  have yA := axis_eval 5 5 (7 / 4) 0 0 0 0 0 0 0 0 0 0 0 (0)
    (by norm_num) yi y1 y2 y3 y4 y5 y6 y7 y8
  exact integrate_eval config 5 5 0 0 0 0 (7 / 4) (5629499534213119 / 281474976710656) 0
      (4925812092436479 / 140737488355328) 0
    ⟨4, 0⟩ rfl rfl xA yA

/-- A tick in which operations round: default configuration, from rest, input `(4, 0)`, `dt = 1.75`.
    -/
theorem rounded_tick :
    CalcMouseTrace config ⟨fin 0, fin 0, fin 0, fin 0⟩ ⟨4, 0⟩ (fin (7 / 4)) =
      (⟨fin (5629499534213119 / 281474976710656), fin 0, fin (140737488355327 / 140737488355328),
          fin 0⟩, ⟨34, 0⟩, false) := by
  have tx : truncQ (4925812092436479 / 140737488355328) = 34 :=
    truncQ_eq_of_nonneg _ (34) (by norm_num) (by norm_num) (by norm_num)
  have ty : truncQ 0 = 0 :=
    truncQ_eq_of_nonneg _ (0) (by norm_num) (by norm_num) (by norm_num)
  have rx : Representable (fin (4925812092436479 / 140737488355328)) := by
    show INT_MIN ≤ truncQ _ ∧ truncQ _ ≤ INT_MAX
    rw [tx]; decide
  have ry : Representable (fin 0) := by
    show INT_MIN ≤ truncQ _ ∧ truncQ _ ≤ INT_MAX
    rw [ty]; decide
  have h := CalcMouseTrace_eval config _ _ _ (1 / 2) (5629499534213119 / 281474976710656) 0
      (4925812092436479 / 140737488355328) 0 rfl
    rounded_integrate rx ry
  rw [h, tx, ty]
  norm_num [abs_of_nonneg, abs_of_nonpos, EngineState.rest]

/-! ## One tick (C4) -/

theorem round64_of_isDouble (q : ℚ) (h : IsDouble q) : round64 q = fin q :=
  round64_of_grid q h.1 h.2

theorem pinf_div_fin (b : ℚ) : pinf / fin b = if 0 ≤ b then pinf else ninf := rfl

theorem ninf_div_fin (b : ℚ) : ninf / fin b = if 0 ≤ b then ninf else pinf := rfl

theorem fabs_pinf : fabs pinf = pinf := rfl

theorem fabs_ninf : fabs ninf = pinf := rfl

theorem lt_pinf_left (x : Dbl) : Dbl.lt pinf x = false := rfl

/-- With `dt ≠ 0` the guard `NoNaN` does not act: the quotient is not NaN. -/
theorem instVelocity_of_ne_zero (i : Int) (h : ℚ) (hh : h ≠ 0) :
    instVelocity i (fin h) = Dbl.ofInt i / fin h := by
  unfold instVelocity
  apply NoNaN_of_ne_nan
  have hr := round64_ne_nan (i : ℚ)
  unfold Dbl.ofInt
  cases hq : round64 (i : ℚ) with
  | fin q => rw [fin_div_fin _ _ hh]; exact round64_ne_nan _
  | pinf =>
    rw [pinf_div_fin]
    split_ifs <;> simp
  | ninf =>
    rw [ninf_div_fin]
    split_ifs <;> simp
  | nan => exact absurd hq hr

/-- The test `fabs(v) < vel_threshold` holds exactly for a finite `v` of magnitude below the
threshold. -/
theorem lt_fabs_iff (x : Dbl) (t : ℚ) :
    Dbl.lt (fabs x) (fin t) = true ↔ ∃ w : ℚ, x = fin w ∧ |w| < t := by
  cases x with
  | fin w =>
    rw [fabs_fin, lt_fin_fin, decide_eq_true_iff]
    constructor
    · intro h; exact ⟨w, rfl, h⟩
    · rintro ⟨w2, e, h⟩
      injection e with e
      rw [e]; exact h
  | pinf =>
    rw [fabs_pinf, lt_pinf_left]
    constructor
    · intro h; exact absurd h (by simp)
    · rintro ⟨w, e, -⟩; exact absurd e (by simp)
  | ninf =>
    rw [fabs_ninf, lt_pinf_left]
    constructor
    · intro h; exact absurd h (by simp)
    · rintro ⟨w, e, -⟩; exact absurd e (by simp)
  | nan =>
    rw [fabs_nan, lt_nan_left]
    constructor
    · intro h; exact absurd h (by simp)
    · rintro ⟨w, e, -⟩; exact absurd e (by simp)

/-- When no operation rounds, the integration of one axis gives the closed form. -/
theorem axis_exact (d a v r : ℚ) (i : Int) (h : ℚ) (hh : h ≠ 0)
    (hx : ExactAxis d a v r i h) :
    fin v + (instVelocity i (fin h) * fin a - fin v * fin d) * fin h =
      fin (v * (1 - d * h) + a * i) ∧
    fin r + fin (v * (1 - d * h) + a * i) * fin h =
      fin (r + (v * (1 - d * h) + a * i) * h) := by
  obtain ⟨h0, h1, h2, h3, h4, h5, h6, h7, h8⟩ := hx
  have e : v + ((i : ℚ) / h * a - v * d) * h = v * (1 - d * h) + a * i := by
    field_simp
    ring
  have hi : Dbl.ofInt i = fin (i : ℚ) := round64_of_isDouble _ h0
  have hA := axis_eval a d h v r i ((i : ℚ) / h) ((i : ℚ) / h * a) (v * d)
    ((i : ℚ) / h * a - v * d) (((i : ℚ) / h * a - v * d) * h)
    (v + ((i : ℚ) / h * a - v * d) * h) ((v + ((i : ℚ) / h * a - v * d) * h) * h)
    (r + (v + ((i : ℚ) / h * a - v * d) * h) * h) i hh hi
    (round64_of_isDouble _ h1) (round64_of_isDouble _ h2) (round64_of_isDouble _ h3)
    (round64_of_isDouble _ h4) (round64_of_isDouble _ h5) (round64_of_isDouble _ h6)
    (round64_of_isDouble _ h7) (round64_of_isDouble _ h8)
  rw [e] at hA
  exact hA

/-- C4, as stated, fails where an operation rounds. From rest, with the default configuration,
input `(4, 0)` and `dt = 1.75`: the quotient `4 / 1.75` is not a double, the integrated
velocity is `20 - 2 ^ (-48)` where the formula gives `20`, and the output is `34` where the
truncation of `r + v' * dt = 35` is `35`. -/
theorem tick_velocity_not_formula :
    (integrate config EngineState.rest ⟨4, 0⟩ (fin (7 / 4))).vx = fin (20 - 1 / 2 ^ 48) ∧
    (0 : ℚ) * (1 - 5 * (7 / 4)) + 5 * ((4 : Int) : ℚ) = 20 ∧
    (CalcMouseTrace config EngineState.rest ⟨4, 0⟩ (fin (7 / 4))).2.1 = ⟨34, 0⟩ ∧
    truncQ (0 + ((0 : ℚ) * (1 - 5 * (7 / 4)) + 5 * ((4 : Int) : ℚ)) * (7 / 4)) = 35 := by
  have hi : integrate config EngineState.rest ⟨4, 0⟩ (fin (7 / 4)) = _ := rounded_integrate
  have ht : CalcMouseTrace config EngineState.rest ⟨4, 0⟩ (fin (7 / 4)) = _ := rounded_tick
  refine ⟨?_, by norm_num, ?_, ?_⟩
  · rw [hi]
    norm_num
  · rw [ht]
  · have e : (0 + ((0 : ℚ) * (1 - 5 * (7 / 4)) + 5 * ((4 : Int) : ℚ)) * (7 / 4)) = ((35 : Int) : ℚ) := by
      norm_num
    rw [e, truncQ_intCast]

/-- C4 (amended): for every finite engine state (velocity `v`, residual `r`), every
accumulated input `in` and every finite `dt ≠ 0`, with finite configuration values, one tick
computes in binary64, every operation rounded to the nearest double, the velocity
`v' = v + ((in / dt) * accelerator - v * damper) * dt` per axis (the guard `NoNaN` does not
act) and the pre-output residual `r + v' * dt`. Whenever none of these operations rounds on an
axis, `v' = v * (1 - damper * dt) + accelerator * in` and the pre-output residual is
`r + v' * dt` exactly, on that axis. The tick reports settled exactly when `v'` is finite with
`|v'.x| < vel_threshold` and `|v'.y| < vel_threshold`; the stored state is the rest state when
settled, and otherwise has the velocity `v'`. Provided the computed pre-output residual is
finite and its truncation toward zero is representable as an `int` on both axes, the tick
emits exactly that truncation. -/
theorem tick_formula (d a t vx vy rx ry h : ℚ) (inp : POINT) (hh : h ≠ 0) :
    ((integrate ⟨fin d, fin a, fin t⟩ ⟨fin vx, fin vy, fin rx, fin ry⟩ inp (fin h)).vx =
        fin vx + (Dbl.ofInt inp.x / fin h * fin a - fin vx * fin d) * fin h ∧
      (integrate ⟨fin d, fin a, fin t⟩ ⟨fin vx, fin vy, fin rx, fin ry⟩ inp (fin h)).vy =
        fin vy + (Dbl.ofInt inp.y / fin h * fin a - fin vy * fin d) * fin h ∧
      (integrate ⟨fin d, fin a, fin t⟩ ⟨fin vx, fin vy, fin rx, fin ry⟩ inp (fin h)).dx =
        fin rx +
          (integrate ⟨fin d, fin a, fin t⟩ ⟨fin vx, fin vy, fin rx, fin ry⟩ inp (fin h)).vx *
            fin h ∧
      (integrate ⟨fin d, fin a, fin t⟩ ⟨fin vx, fin vy, fin rx, fin ry⟩ inp (fin h)).dy =
        fin ry +
          (integrate ⟨fin d, fin a, fin t⟩ ⟨fin vx, fin vy, fin rx, fin ry⟩ inp (fin h)).vy *
            fin h) ∧
    (ExactAxis d a vx rx inp.x h →
      (integrate ⟨fin d, fin a, fin t⟩ ⟨fin vx, fin vy, fin rx, fin ry⟩ inp (fin h)).vx =
        fin (vx * (1 - d * h) + a * inp.x) ∧
      (integrate ⟨fin d, fin a, fin t⟩ ⟨fin vx, fin vy, fin rx, fin ry⟩ inp (fin h)).dx =
        fin (rx + (vx * (1 - d * h) + a * inp.x) * h)) ∧
    (ExactAxis d a vy ry inp.y h →
      (integrate ⟨fin d, fin a, fin t⟩ ⟨fin vx, fin vy, fin rx, fin ry⟩ inp (fin h)).vy =
        fin (vy * (1 - d * h) + a * inp.y) ∧
      (integrate ⟨fin d, fin a, fin t⟩ ⟨fin vx, fin vy, fin rx, fin ry⟩ inp (fin h)).dy =
        fin (ry + (vy * (1 - d * h) + a * inp.y) * h)) ∧
    ((CalcMouseTrace ⟨fin d, fin a, fin t⟩ ⟨fin vx, fin vy, fin rx, fin ry⟩ inp (fin h)).2.2 =
        true ↔
      ∃ wx wy : ℚ,
        (integrate ⟨fin d, fin a, fin t⟩ ⟨fin vx, fin vy, fin rx, fin ry⟩ inp (fin h)).vx =
          fin wx ∧
        (integrate ⟨fin d, fin a, fin t⟩ ⟨fin vx, fin vy, fin rx, fin ry⟩ inp (fin h)).vy =
          fin wy ∧
        |wx| < t ∧ |wy| < t) ∧
    ((CalcMouseTrace ⟨fin d, fin a, fin t⟩ ⟨fin vx, fin vy, fin rx, fin ry⟩ inp (fin h)).2.2 =
        true →
      (CalcMouseTrace ⟨fin d, fin a, fin t⟩ ⟨fin vx, fin vy, fin rx, fin ry⟩ inp (fin h)).1 =
        EngineState.rest) ∧
    ((CalcMouseTrace ⟨fin d, fin a, fin t⟩ ⟨fin vx, fin vy, fin rx, fin ry⟩ inp (fin h)).2.2 =
        false →
      (CalcMouseTrace ⟨fin d, fin a, fin t⟩ ⟨fin vx, fin vy, fin rx, fin ry⟩ inp (fin h)).1.vx =
        (integrate ⟨fin d, fin a, fin t⟩ ⟨fin vx, fin vy, fin rx, fin ry⟩ inp (fin h)).vx ∧
      (CalcMouseTrace ⟨fin d, fin a, fin t⟩ ⟨fin vx, fin vy, fin rx, fin ry⟩ inp (fin h)).1.vy =
        (integrate ⟨fin d, fin a, fin t⟩ ⟨fin vx, fin vy, fin rx, fin ry⟩ inp (fin h)).vy) ∧
    (∀ px py : ℚ,
      (integrate ⟨fin d, fin a, fin t⟩ ⟨fin vx, fin vy, fin rx, fin ry⟩ inp (fin h)).dx =
        fin px →
      (integrate ⟨fin d, fin a, fin t⟩ ⟨fin vx, fin vy, fin rx, fin ry⟩ inp (fin h)).dy =
        fin py →
      Representable (fin px) → Representable (fin py) →
      (CalcMouseTrace ⟨fin d, fin a, fin t⟩ ⟨fin vx, fin vy, fin rx, fin ry⟩ inp (fin h)).2.1 =
        ⟨truncQ px, truncQ py⟩) := by
  have kx : (integrate ⟨fin d, fin a, fin t⟩ ⟨fin vx, fin vy, fin rx, fin ry⟩ inp (fin h)).vx =
      fin vx + (instVelocity inp.x (fin h) * fin a - fin vx * fin d) * fin h := rfl
  have ky : (integrate ⟨fin d, fin a, fin t⟩ ⟨fin vx, fin vy, fin rx, fin ry⟩ inp (fin h)).vy =
      fin vy + (instVelocity inp.y (fin h) * fin a - fin vy * fin d) * fin h := rfl
  have lx : (integrate ⟨fin d, fin a, fin t⟩ ⟨fin vx, fin vy, fin rx, fin ry⟩ inp (fin h)).dx =
      fin rx +
        (integrate ⟨fin d, fin a, fin t⟩ ⟨fin vx, fin vy, fin rx, fin ry⟩ inp (fin h)).vx *
          fin h := rfl
  have ly : (integrate ⟨fin d, fin a, fin t⟩ ⟨fin vx, fin vy, fin rx, fin ry⟩ inp (fin h)).dy =
      fin ry +
        (integrate ⟨fin d, fin a, fin t⟩ ⟨fin vx, fin vy, fin rx, fin ry⟩ inp (fin h)).vy *
          fin h := rfl
  refine ⟨⟨?_, ?_, lx, ly⟩, ?_, ?_, ?_, ?_, ?_, ?_⟩
  · rw [kx, instVelocity_of_ne_zero _ _ hh]
  · rw [ky, instVelocity_of_ne_zero _ _ hh]
  · intro hx
    obtain ⟨e1, e2⟩ := axis_exact d a vx rx inp.x h hh hx
    have e3 := kx.trans e1
    refine ⟨e3, ?_⟩
    rw [lx, e3]
    exact e2
  · intro hy
    obtain ⟨e1, e2⟩ := axis_exact d a vy ry inp.y h hh hy
    have e3 := ky.trans e1
    refine ⟨e3, ?_⟩
    rw [ly, e3]
    exact e2
  · rw [CalcMouseTrace_flag, Bool.and_eq_true]
    show Dbl.lt (fabs _) (fin t) = true ∧ Dbl.lt (fabs _) (fin t) = true ↔ _
    rw [lt_fabs_iff, lt_fabs_iff]
    constructor
    · rintro ⟨⟨wx, e1, b1⟩, ⟨wy, e2, b2⟩⟩
      exact ⟨wx, wy, e1, e2, b1, b2⟩
    · rintro ⟨wx, wy, e1, e2, b1, b2⟩
      exact ⟨⟨wx, e1, b1⟩, ⟨wy, e2, b2⟩⟩
  · intro hf
    rw [CalcMouseTrace_state, if_pos hf]
    rfl
  · intro hf
    rw [CalcMouseTrace_state, if_neg (by rw [hf]; simp)]
    exact ⟨rfl, rfl⟩
  · intro px py ex ey rx2 ry2
    exact (CalcMouseTrace_of_representable _ _ inp (fin h) px py ex ey rx2 ry2).1

theorem isDouble_dyadic (q : ℚ) (m : ℤ) (k : ℕ) (hm : |m| < 2 ^ 53) (hk : k ≤ 1074)
    (e : q = (m : ℚ) / (2 : ℚ) ^ k) : IsDouble q := by
  have h := round64_dyadic m k hm hk
  rw [← e] at h
  exact grid_of_round64 q q h

/-- The sample tick (input `(3, 0)`, `dt = 1/8`, from rest) rounds nowhere. -/
theorem sample_exact : ExactAxis 5 5 0 0 3 (1 / 8) ∧ ExactAxis 5 5 0 0 0 (1 / 8) := by
  constructor
  · refine ⟨isDouble_dyadic _ 3 0 (by norm_num) (by norm_num) (by norm_num),
      isDouble_dyadic _ 24 0 (by norm_num) (by norm_num) (by norm_num),
      isDouble_dyadic _ 120 0 (by norm_num) (by norm_num) (by norm_num),
      isDouble_dyadic _ 0 0 (by norm_num) (by norm_num) (by norm_num),
      isDouble_dyadic _ 120 0 (by norm_num) (by norm_num) (by norm_num),
      isDouble_dyadic _ 15 0 (by norm_num) (by norm_num) (by norm_num),
      isDouble_dyadic _ 15 0 (by norm_num) (by norm_num) (by norm_num),
      isDouble_dyadic _ 15 3 (by norm_num) (by norm_num) (by norm_num),
      isDouble_dyadic _ 15 3 (by norm_num) (by norm_num) (by norm_num)⟩
  · refine ⟨isDouble_dyadic _ 0 0 (by norm_num) (by norm_num) (by norm_num),
      isDouble_dyadic _ 0 0 (by norm_num) (by norm_num) (by norm_num),
      isDouble_dyadic _ 0 0 (by norm_num) (by norm_num) (by norm_num),
      isDouble_dyadic _ 0 0 (by norm_num) (by norm_num) (by norm_num),
      isDouble_dyadic _ 0 0 (by norm_num) (by norm_num) (by norm_num),
      isDouble_dyadic _ 0 0 (by norm_num) (by norm_num) (by norm_num),
      isDouble_dyadic _ 0 0 (by norm_num) (by norm_num) (by norm_num),
      isDouble_dyadic _ 0 0 (by norm_num) (by norm_num) (by norm_num),
      isDouble_dyadic _ 0 0 (by norm_num) (by norm_num) (by norm_num)⟩

/-- Witness of C4 (amended). The scenario of the specification: from rest with
`damper = accelerator = 5`, `vel_threshold = 0.5`, `dt` the double nearest `0.1` and input
`(100, 0)`, the computed velocity is `(500, 0)`, the tick emits `(50, 0)`, is not settled and
stores the velocity `(500, 0)`. A tick that rounds nowhere: from rest, input `(3, 0)`,
`dt = 1/8`, where the velocity and the pre-output residual are those of the closed form,
`(15, 0)` and `(15/8, 0)`. -/
theorem tick_formula_witness :
    (tenth ≠ 0 ∧
      fin 0 + (Dbl.ofInt 100 / fin tenth * fin 5 - fin 0 * fin 5) * fin tenth = fin 500 ∧
      fin 0 + (Dbl.ofInt 0 / fin tenth * fin 5 - fin 0 * fin 5) * fin tenth = fin 0 ∧
      (CalcMouseTrace config EngineState.rest ⟨100, 0⟩ (fin tenth)).2.1 = ⟨50, 0⟩ ∧
      (CalcMouseTrace config EngineState.rest ⟨100, 0⟩ (fin tenth)).2.2 = false ∧
      (CalcMouseTrace config EngineState.rest ⟨100, 0⟩ (fin tenth)).1.vx = fin 500 ∧
      (CalcMouseTrace config EngineState.rest ⟨100, 0⟩ (fin tenth)).1.vy = fin 0) ∧
    ((1 / 8 : ℚ) ≠ 0 ∧ ExactAxis 5 5 0 0 3 (1 / 8) ∧ ExactAxis 5 5 0 0 0 (1 / 8) ∧
      (integrate config EngineState.rest ⟨3, 0⟩ (fin (1 / 8))).vx = fin 15 ∧
      (integrate config EngineState.rest ⟨3, 0⟩ (fin (1 / 8))).dx = fin (15 / 8) ∧
      (integrate config EngineState.rest ⟨3, 0⟩ (fin (1 / 8))).vy = fin 0 ∧
      (integrate config EngineState.rest ⟨3, 0⟩ (fin (1 / 8))).dy = fin 0) := by
  have h0 : tenth ≠ 0 := by norm_num [tenth]
  have hi : integrate config EngineState.rest ⟨100, 0⟩ (fin tenth) =
      ⟨fin 500, fin 0, fin 50, fin 0⟩ := steady_integrate
  obtain ⟨⟨k1, k2, -, -⟩, -, -, hs, -, hn, ho⟩ :=
    tick_formula 5 5 (1 / 2) 0 0 0 0 tenth ⟨100, 0⟩ h0
  have tx : truncQ 50 = 50 :=
    truncQ_eq_of_nonneg _ 50 (by norm_num) (by norm_num) (by norm_num)
  have hf : (CalcMouseTrace config EngineState.rest ⟨100, 0⟩ (fin tenth)).2.2 = false := by
    rw [← Bool.not_eq_true]
    intro hc
    obtain ⟨wx, wy, e1, -, b1, -⟩ := hs.mp hc
    have e3 : (integrate config EngineState.rest ⟨100, 0⟩ (fin tenth)).vx = fin wx := e1
    rw [hi] at e3
    injection e3 with e3
    rw [← e3, abs_of_nonneg (by norm_num)] at b1
    norm_num at b1
  obtain ⟨n1, n2⟩ := hn hf
  have hout := ho 50 0
    (show (integrate config EngineState.rest ⟨100, 0⟩ (fin tenth)).dx = fin 50 by rw [hi])
    (show (integrate config EngineState.rest ⟨100, 0⟩ (fin tenth)).dy = fin 0 by rw [hi])
    (by show INT_MIN ≤ truncQ 50 ∧ truncQ 50 ≤ INT_MAX; rw [tx]; decide)
    representable_zero
  rw [tx, truncQ_zero] at hout
  obtain ⟨⟨-, -, -, -⟩, ex, ey, -, -, -, -⟩ :=
    tick_formula 5 5 (1 / 2) 0 0 0 0 (1 / 8) ⟨3, 0⟩ (by norm_num)
  obtain ⟨x1, x2⟩ := ex sample_exact.1
  obtain ⟨y1, y2⟩ := ey sample_exact.2
  refine ⟨⟨h0, ?_, ?_, hout, hf, ?_, ?_⟩, by norm_num, sample_exact.1, sample_exact.2,
    ?_, ?_, ?_, ?_⟩
  · rw [← k1]; show (integrate config EngineState.rest ⟨100, 0⟩ (fin tenth)).vx = _; rw [hi]
  · rw [← k2]; show (integrate config EngineState.rest ⟨100, 0⟩ (fin tenth)).vy = _; rw [hi]
  · exact n1.trans (by show (integrate config EngineState.rest ⟨100, 0⟩ (fin tenth)).vx = _; rw [hi])
  · exact n2.trans (by show (integrate config EngineState.rest ⟨100, 0⟩ (fin tenth)).vy = _; rw [hi])
  · refine Eq.trans x1 ?_; norm_num
  · refine Eq.trans x2 ?_; norm_num
  · refine Eq.trans y1 ?_; norm_num
  · refine Eq.trans y2 ?_; norm_num

/-! ## The ticks of the drift scenarios, evaluated -/

theorem driftA_integrate :
    integrate config ⟨fin 0, fin 0, fin 0, fin 0⟩ ⟨3, 0⟩ (fin (3 / 16)) =
      ⟨fin 15, fin 0, fin (45 / 16), fin 0⟩ := by
  have xi : Dbl.ofInt (3) = fin 3 := by
    simpa using ofInt_eq (3) (by norm_num)
  have x1 : round64 ((3 : ℚ) / (3 / 16)) = fin 16 := by
    have h := round64_eq ((3 : ℚ) / (3 / 16)) (4) (4503599627370496)
      (by rw [abs_of_nonneg (by norm_num)]; norm_num)
      (by rw [abs_of_nonneg (by norm_num)]; norm_num)
      (by norm_num)
      (by rw [abs_lt]; constructor <;> norm_num)
      (by rw [abs_of_nonneg (by norm_num)]; norm_num)
    rw [h]; norm_num
  have x2 : round64 ((16 : ℚ) * 5) = fin 80 := by
    have h := round64_eq ((16 : ℚ) * 5) (6) (5629499534213120)
      (by rw [abs_of_nonneg (by norm_num)]; norm_num)
      (by rw [abs_of_nonneg (by norm_num)]; norm_num)
      (by norm_num)
      (by rw [abs_lt]; constructor <;> norm_num)
      (by rw [abs_of_nonneg (by norm_num)]; norm_num)
    rw [h]; norm_num
  have x3 : round64 ((0 : ℚ) * 5) = fin 0 := by
    rw [show ((0 : ℚ) * 5 : ℚ) = 0 from by norm_num]; exact round64_zero
  have x4 : round64 ((80 : ℚ) - 0) = fin 80 := by
    have h := round64_eq ((80 : ℚ) - 0) (6) (5629499534213120)
      (by rw [abs_of_nonneg (by norm_num)]; norm_num)
      (by rw [abs_of_nonneg (by norm_num)]; norm_num)
      (by norm_num)
      (by rw [abs_lt]; constructor <;> norm_num)
      (by rw [abs_of_nonneg (by norm_num)]; norm_num)
    rw [h]; norm_num
  have x5 : round64 ((80 : ℚ) * (3 / 16)) = fin 15 := by
    have h := round64_eq ((80 : ℚ) * (3 / 16)) (3) (8444249301319680)
      (by rw [abs_of_nonneg (by norm_num)]; norm_num)
      (by rw [abs_of_nonneg (by norm_num)]; norm_num)
      (by norm_num)
      (by rw [abs_lt]; constructor <;> norm_num)
      (by rw [abs_of_nonneg (by norm_num)]; norm_num)
    rw [h]; norm_num
  have x6 : round64 ((0 : ℚ) + 15) = fin 15 := by
    have h := round64_eq ((0 : ℚ) + 15) (3) (8444249301319680)
      (by rw [abs_of_nonneg (by norm_num)]; norm_num)
      (by rw [abs_of_nonneg (by norm_num)]; norm_num)
      (by norm_num)
      (by rw [abs_lt]; constructor <;> norm_num)
      (by rw [abs_of_nonneg (by norm_num)]; norm_num)
    rw [h]; norm_num
  have x7 : round64 ((15 : ℚ) * (3 / 16)) = fin (45 / 16) := by
    have h := round64_eq ((15 : ℚ) * (3 / 16)) (1) (6333186975989760)
      (by rw [abs_of_nonneg (by norm_num)]; norm_num)
      (by rw [abs_of_nonneg (by norm_num)]; norm_num)
      (by norm_num)
      (by rw [abs_lt]; constructor <;> norm_num)
      (by rw [abs_of_nonneg (by norm_num)]; norm_num)
    rw [h]; norm_num
  have x8 : round64 ((0 : ℚ) + (45 / 16)) = fin (45 / 16) := by
    have h := round64_eq ((0 : ℚ) + (45 / 16)) (1) (6333186975989760)
      (by rw [abs_of_nonneg (by norm_num)]; norm_num)
      (by rw [abs_of_nonneg (by norm_num)]; norm_num)
      (by norm_num)
      (by rw [abs_lt]; constructor <;> norm_num)
      (by rw [abs_of_nonneg (by norm_num)]; norm_num)
    rw [h]; norm_num
  have xA := axis_eval 5 5 (3 / 16) 0 0 3 16 80 0 80 15 15 (45 / 16) (45 / 16) (3)
    (by norm_num) xi x1 x2 x3 x4 x5 x6 x7 x8
  have yi : Dbl.ofInt (0) = fin 0 := ofInt_zero
  have y1 : round64 ((0 : ℚ) / (3 / 16)) = fin 0 := by
    rw [show ((0 : ℚ) / (3 / 16) : ℚ) = 0 from by norm_num]; exact round64_zero
  have y2 : round64 ((0 : ℚ) * 5) = fin 0 := by
    rw [show ((0 : ℚ) * 5 : ℚ) = 0 from by norm_num]; exact round64_zero
  have y3 : round64 ((0 : ℚ) * 5) = fin 0 := by
    rw [show ((0 : ℚ) * 5 : ℚ) = 0 from by norm_num]; exact round64_zero
  have y4 : round64 ((0 : ℚ) - 0) = fin 0 := by
    rw [show ((0 : ℚ) - 0 : ℚ) = 0 from by norm_num]; exact round64_zero
  have y5 : round64 ((0 : ℚ) * (3 / 16)) = fin 0 := by
    rw [show ((0 : ℚ) * (3 / 16) : ℚ) = 0 from by norm_num]; exact round64_zero
  have y6 : round64 ((0 : ℚ) + 0) = fin 0 := by
    rw [show ((0 : ℚ) + 0 : ℚ) = 0 from by norm_num]; exact round64_zero
  have y7 : round64 ((0 : ℚ) * (3 / 16)) = fin 0 := by
    rw [show ((0 : ℚ) * (3 / 16) : ℚ) = 0 from by norm_num]; exact round64_zero
  have y8 : round64 ((0 : ℚ) + 0) = fin 0 := by
    rw [show ((0 : ℚ) + 0 : ℚ) = 0 from by norm_num]; exact round64_zero
  have yA := axis_eval 5 5 (3 / 16) 0 0 0 0 0 0 0 0 0 0 0 (0)
    (by norm_num) yi y1 y2 y3 y4 y5 y6 y7 y8
  exact integrate_eval config 5 5 0 0 0 0 (3 / 16) 15 0 (45 / 16) 0
    ⟨3, 0⟩ rfl rfl xA yA

/-- First tick of the drift scenario: from rest, input `(3, 0)`, `dt = 3/16`. -/
theorem driftA_tick :
    CalcMouseTrace config ⟨fin 0, fin 0, fin 0, fin 0⟩ ⟨3, 0⟩ (fin (3 / 16)) =
      (⟨fin 15, fin 0, fin (13 / 16), fin 0⟩, ⟨2, 0⟩, false) := by
  have tx : truncQ (45 / 16) = 2 :=
    truncQ_eq_of_nonneg _ (2) (by norm_num) (by norm_num) (by norm_num)
  have ty : truncQ 0 = 0 :=
    truncQ_eq_of_nonneg _ (0) (by norm_num) (by norm_num) (by norm_num)
  have rx : Representable (fin (45 / 16)) := by
    show INT_MIN ≤ truncQ _ ∧ truncQ _ ≤ INT_MAX
    rw [tx]; decide
  have ry : Representable (fin 0) := by
    show INT_MIN ≤ truncQ _ ∧ truncQ _ ≤ INT_MAX
    rw [ty]; decide
  have h := CalcMouseTrace_eval config _ _ _ (1 / 2) 15 0 (45 / 16) 0 rfl
    driftA_integrate rx ry
  rw [h, tx, ty]
  norm_num [abs_of_nonneg, abs_of_nonpos, EngineState.rest]

theorem driftA_pos :
    fin 15 * fin (3 / 16) = fin (45 / 16) ∧ fin 0 * fin (3 / 16) = fin 0 := by
  have px : round64 ((15 : ℚ) * (3 / 16)) = fin (45 / 16) := by
    have h := round64_eq ((15 : ℚ) * (3 / 16)) (1) (6333186975989760)
      (by rw [abs_of_nonneg (by norm_num)]; norm_num)
      (by rw [abs_of_nonneg (by norm_num)]; norm_num)
      (by norm_num)
      (by rw [abs_lt]; constructor <;> norm_num)
      (by rw [abs_of_nonneg (by norm_num)]; norm_num)
    rw [h]; norm_num
  have py : round64 ((0 : ℚ) * (3 / 16)) = fin 0 := by
    rw [show ((0 : ℚ) * (3 / 16) : ℚ) = 0 from by norm_num]; exact round64_zero
  exact ⟨px, py⟩

theorem driftB_integrate :
    integrate config ⟨fin 15, fin 0, fin (13 / 16), fin 0⟩ ⟨0, 0⟩ (fin (13 / 64)) =
      ⟨fin (-15 / 64), fin 0, fin (3133 / 4096), fin 0⟩ := by
  have xi : Dbl.ofInt (0) = fin 0 := ofInt_zero
  have x1 : round64 ((0 : ℚ) / (13 / 64)) = fin 0 := by
    rw [show ((0 : ℚ) / (13 / 64) : ℚ) = 0 from by norm_num]; exact round64_zero
  have x2 : round64 ((0 : ℚ) * 5) = fin 0 := by
    rw [show ((0 : ℚ) * 5 : ℚ) = 0 from by norm_num]; exact round64_zero
  have x3 : round64 ((15 : ℚ) * 5) = fin 75 := by
    have h := round64_eq ((15 : ℚ) * 5) (6) (5277655813324800)
      (by rw [abs_of_nonneg (by norm_num)]; norm_num)
      (by rw [abs_of_nonneg (by norm_num)]; norm_num)
      (by norm_num)
      (by rw [abs_lt]; constructor <;> norm_num)
      (by rw [abs_of_nonneg (by norm_num)]; norm_num)
    rw [h]; norm_num
  have x4 : round64 ((0 : ℚ) - 75) = fin (-75) := by
    have h := round64_eq ((0 : ℚ) - 75) (6) (-5277655813324800)
      (by rw [abs_of_nonpos (by norm_num)]; norm_num)
      (by rw [abs_of_nonpos (by norm_num)]; norm_num)
      (by norm_num)
      (by rw [abs_lt]; constructor <;> norm_num)
      (by rw [abs_of_nonpos (by norm_num)]; norm_num)
    rw [h]; norm_num
  have x5 : round64 ((-75 : ℚ) * (13 / 64)) = fin (-975 / 64) := by
    have h := round64_eq ((-75 : ℚ) * (13 / 64)) (3) (-8576190696652800)
      (by rw [abs_of_nonpos (by norm_num)]; norm_num)
      (by rw [abs_of_nonpos (by norm_num)]; norm_num)
      (by norm_num)
      (by rw [abs_lt]; constructor <;> norm_num)
      (by rw [abs_of_nonpos (by norm_num)]; norm_num)
    rw [h]; norm_num
  have x6 : round64 ((15 : ℚ) + (-975 / 64)) = fin (-15 / 64) := by
    have h := round64_eq ((15 : ℚ) + (-975 / 64)) (-3) (-8444249301319680)
      (by rw [abs_of_nonpos (by norm_num)]; norm_num)
      (by rw [abs_of_nonpos (by norm_num)]; norm_num)
      (by norm_num)
      (by rw [abs_lt]; constructor <;> norm_num)
      (by rw [abs_of_nonpos (by norm_num)]; norm_num)
    rw [h]; norm_num
  have x7 : round64 ((-15 / 64 : ℚ) * (13 / 64)) = fin (-195 / 4096) := by
    have h := round64_eq ((-15 / 64 : ℚ) * (13 / 64)) (-5) (-6860952557322240)
      (by rw [abs_of_nonpos (by norm_num)]; norm_num)
      (by rw [abs_of_nonpos (by norm_num)]; norm_num)
      (by norm_num)
      (by rw [abs_lt]; constructor <;> norm_num)
      (by rw [abs_of_nonpos (by norm_num)]; norm_num)
    rw [h]; norm_num
  have x8 : round64 ((13 / 16 : ℚ) + (-195 / 4096)) = fin (3133 / 4096) := by
    have h := round64_eq ((13 / 16 : ℚ) + (-195 / 4096)) (-1) (6889539859644416)
      (by rw [abs_of_nonneg (by norm_num)]; norm_num)
      (by rw [abs_of_nonneg (by norm_num)]; norm_num)
      (by norm_num)
      (by rw [abs_lt]; constructor <;> norm_num)
      (by rw [abs_of_nonneg (by norm_num)]; norm_num)
    rw [h]; norm_num
  have xA := axis_eval 5 5 (13 / 64) 15 (13 / 16) 0 0 0 75 (-75) (-975 / 64) (-15 / 64) (-195 /
      4096) (3133 / 4096) (0)
    (by norm_num) xi x1 x2 x3 x4 x5 x6 x7 x8
  have yi : Dbl.ofInt (0) = fin 0 := ofInt_zero
  have y1 : round64 ((0 : ℚ) / (13 / 64)) = fin 0 := by
    rw [show ((0 : ℚ) / (13 / 64) : ℚ) = 0 from by norm_num]; exact round64_zero
  have y2 : round64 ((0 : ℚ) * 5) = fin 0 := by
    rw [show ((0 : ℚ) * 5 : ℚ) = 0 from by norm_num]; exact round64_zero
  have y3 : round64 ((0 : ℚ) * 5) = fin 0 := by
    rw [show ((0 : ℚ) * 5 : ℚ) = 0 from by norm_num]; exact round64_zero
  have y4 : round64 ((0 : ℚ) - 0) = fin 0 := by
    rw [show ((0 : ℚ) - 0 : ℚ) = 0 from by norm_num]; exact round64_zero
  have y5 : round64 ((0 : ℚ) * (13 / 64)) = fin 0 := by
    rw [show ((0 : ℚ) * (13 / 64) : ℚ) = 0 from by norm_num]; exact round64_zero
  have y6 : round64 ((0 : ℚ) + 0) = fin 0 := by
    rw [show ((0 : ℚ) + 0 : ℚ) = 0 from by norm_num]; exact round64_zero
  have y7 : round64 ((0 : ℚ) * (13 / 64)) = fin 0 := by
    rw [show ((0 : ℚ) * (13 / 64) : ℚ) = 0 from by norm_num]; exact round64_zero
  have y8 : round64 ((0 : ℚ) + 0) = fin 0 := by
    rw [show ((0 : ℚ) + 0 : ℚ) = 0 from by norm_num]; exact round64_zero
  have yA := axis_eval 5 5 (13 / 64) 0 0 0 0 0 0 0 0 0 0 0 (0)
    (by norm_num) yi y1 y2 y3 y4 y5 y6 y7 y8
  exact integrate_eval config 5 5 15 0 (13 / 16) 0 (13 / 64) (-15 / 64) 0 (3133 / 4096) 0
    ⟨0, 0⟩ rfl rfl xA yA

/-- Second tick of the drift scenario: input `(0, 0)`, `dt = 13/64`; it settles. -/
theorem driftB_tick :
    CalcMouseTrace config ⟨fin 15, fin 0, fin (13 / 16), fin 0⟩ ⟨0, 0⟩ (fin (13 / 64)) =
      (⟨fin 0, fin 0, fin 0, fin 0⟩, ⟨0, 0⟩, true) := by
  have tx : truncQ (3133 / 4096) = 0 :=
    truncQ_eq_of_nonneg _ (0) (by norm_num) (by norm_num) (by norm_num)
  have ty : truncQ 0 = 0 :=
    truncQ_eq_of_nonneg _ (0) (by norm_num) (by norm_num) (by norm_num)
  have rx : Representable (fin (3133 / 4096)) := by
    show INT_MIN ≤ truncQ _ ∧ truncQ _ ≤ INT_MAX
    rw [tx]; decide
  have ry : Representable (fin 0) := by
    show INT_MIN ≤ truncQ _ ∧ truncQ _ ≤ INT_MAX
    rw [ty]; decide
  have h := CalcMouseTrace_eval config _ _ _ (1 / 2) (-15 / 64) 0 (3133 / 4096) 0 rfl
    driftB_integrate rx ry
  rw [h, tx, ty]
  norm_num [abs_of_nonneg, abs_of_nonpos, EngineState.rest]

theorem driftB_pos :
    fin (-15 / 64) * fin (13 / 64) = fin (-195 / 4096) ∧ fin 0 * fin (13 / 64) = fin 0 := by
  have px : round64 ((-15 / 64 : ℚ) * (13 / 64)) = fin (-195 / 4096) := by
    have h := round64_eq ((-15 / 64 : ℚ) * (13 / 64)) (-5) (-6860952557322240)
      (by rw [abs_of_nonpos (by norm_num)]; norm_num)
      (by rw [abs_of_nonpos (by norm_num)]; norm_num)
      (by norm_num)
      (by rw [abs_lt]; constructor <;> norm_num)
      (by rw [abs_of_nonpos (by norm_num)]; norm_num)
    rw [h]; norm_num
  have py : round64 ((0 : ℚ) * (13 / 64)) = fin 0 := by
    rw [show ((0 : ℚ) * (13 / 64) : ℚ) = 0 from by norm_num]; exact round64_zero
  exact ⟨px, py⟩

theorem absorbA_integrate :
    integrate config ⟨fin 0, fin 0, fin 0, fin 0⟩ ⟨1, 0⟩ (fin (7205759403792793 /
        36028797018963968)) =
      ⟨fin 5, fin 0, fin (9007199254740991 / 9007199254740992), fin 0⟩ := by
  have xi : Dbl.ofInt (1) = fin 1 := by
    simpa using ofInt_eq (1) (by norm_num)
  have x1 : round64 ((1 : ℚ) / (7205759403792793 / 36028797018963968)) = fin 5 := by
    have h := round64_eq ((1 : ℚ) / (7205759403792793 / 36028797018963968)) (2) (5629499534213120)
      (by rw [abs_of_nonneg (by norm_num)]; norm_num)
      (by rw [abs_of_nonneg (by norm_num)]; norm_num)
      (by norm_num)
      (by rw [abs_lt]; constructor <;> norm_num)
      (by rw [abs_of_nonneg (by norm_num)]; norm_num)
    rw [h]; norm_num
  have x2 : round64 ((5 : ℚ) * 5) = fin 25 := by
    have h := round64_eq ((5 : ℚ) * 5) (4) (7036874417766400)
      (by rw [abs_of_nonneg (by norm_num)]; norm_num)
      (by rw [abs_of_nonneg (by norm_num)]; norm_num)
      (by norm_num)
      (by rw [abs_lt]; constructor <;> norm_num)
      (by rw [abs_of_nonneg (by norm_num)]; norm_num)
    rw [h]; norm_num
  have x3 : round64 ((0 : ℚ) * 5) = fin 0 := by
    rw [show ((0 : ℚ) * 5 : ℚ) = 0 from by norm_num]; exact round64_zero
  have x4 : round64 ((25 : ℚ) - 0) = fin 25 := by
    have h := round64_eq ((25 : ℚ) - 0) (4) (7036874417766400)
      (by rw [abs_of_nonneg (by norm_num)]; norm_num)
      (by rw [abs_of_nonneg (by norm_num)]; norm_num)
      (by norm_num)
      (by rw [abs_lt]; constructor <;> norm_num)
      (by rw [abs_of_nonneg (by norm_num)]; norm_num)
    rw [h]; norm_num
  have x5 : round64 ((25 : ℚ) * (7205759403792793 / 36028797018963968)) = fin 5 := by
    have h := round64_eq ((25 : ℚ) * (7205759403792793 / 36028797018963968)) (2) (5629499534213120)
      (by rw [abs_of_nonneg (by norm_num)]; norm_num)
      (by rw [abs_of_nonneg (by norm_num)]; norm_num)
      (by norm_num)
      (by rw [abs_lt]; constructor <;> norm_num)
      (by rw [abs_of_nonneg (by norm_num)]; norm_num)
    rw [h]; norm_num
  have x6 : round64 ((0 : ℚ) + 5) = fin 5 := by
    have h := round64_eq ((0 : ℚ) + 5) (2) (5629499534213120)
      (by rw [abs_of_nonneg (by norm_num)]; norm_num)
      (by rw [abs_of_nonneg (by norm_num)]; norm_num)
      (by norm_num)
      (by rw [abs_lt]; constructor <;> norm_num)
      (by rw [abs_of_nonneg (by norm_num)]; norm_num)
    rw [h]; norm_num
  have x7 : round64 ((5 : ℚ) * (7205759403792793 / 36028797018963968)) = fin (9007199254740991 /
      9007199254740992) := by
    have h := round64_eq ((5 : ℚ) * (7205759403792793 / 36028797018963968)) (-1) (9007199254740991)
      (by rw [abs_of_nonneg (by norm_num)]; norm_num)
      (by rw [abs_of_nonneg (by norm_num)]; norm_num)
      (by norm_num)
      (by rw [abs_lt]; constructor <;> norm_num)
      (by rw [abs_of_nonneg (by norm_num)]; norm_num)
    rw [h]; norm_num
  have x8 : round64 ((0 : ℚ) + (9007199254740991 / 9007199254740992)) = fin (9007199254740991 /
      9007199254740992) := by
    have h := round64_eq ((0 : ℚ) + (9007199254740991 / 9007199254740992)) (-1) (9007199254740991)
      (by rw [abs_of_nonneg (by norm_num)]; norm_num)
      (by rw [abs_of_nonneg (by norm_num)]; norm_num)
      (by norm_num)
      (by rw [abs_lt]; constructor <;> norm_num)
      (by rw [abs_of_nonneg (by norm_num)]; norm_num)
    rw [h]; norm_num
  have xA := axis_eval 5 5 (7205759403792793 / 36028797018963968) 0 0 1 5 25 0 25 5 5
      (9007199254740991 / 9007199254740992) (9007199254740991 / 9007199254740992) (1)
    (by norm_num) xi x1 x2 x3 x4 x5 x6 x7 x8
  have yi : Dbl.ofInt (0) = fin 0 := ofInt_zero
  have y1 : round64 ((0 : ℚ) / (7205759403792793 / 36028797018963968)) = fin 0 := by
    rw [show ((0 : ℚ) / (7205759403792793 / 36028797018963968) : ℚ) = 0 from by norm_num]; exact
        round64_zero
  have y2 : round64 ((0 : ℚ) * 5) = fin 0 := by
    rw [show ((0 : ℚ) * 5 : ℚ) = 0 from by norm_num]; exact round64_zero
  have y3 : round64 ((0 : ℚ) * 5) = fin 0 := by
    rw [show ((0 : ℚ) * 5 : ℚ) = 0 from by norm_num]; exact round64_zero
  have y4 : round64 ((0 : ℚ) - 0) = fin 0 := by
    rw [show ((0 : ℚ) - 0 : ℚ) = 0 from by norm_num]; exact round64_zero
  have y5 : round64 ((0 : ℚ) * (7205759403792793 / 36028797018963968)) = fin 0 := by
    rw [show ((0 : ℚ) * (7205759403792793 / 36028797018963968) : ℚ) = 0 from by norm_num]; exact
        round64_zero
  have y6 : round64 ((0 : ℚ) + 0) = fin 0 := by
    rw [show ((0 : ℚ) + 0 : ℚ) = 0 from by norm_num]; exact round64_zero
  have y7 : round64 ((0 : ℚ) * (7205759403792793 / 36028797018963968)) = fin 0 := by
    rw [show ((0 : ℚ) * (7205759403792793 / 36028797018963968) : ℚ) = 0 from by norm_num]; exact
        round64_zero
  have y8 : round64 ((0 : ℚ) + 0) = fin 0 := by
    rw [show ((0 : ℚ) + 0 : ℚ) = 0 from by norm_num]; exact round64_zero
  have yA := axis_eval 5 5 (7205759403792793 / 36028797018963968) 0 0 0 0 0 0 0 0 0 0 0 (0)
    (by norm_num) yi y1 y2 y3 y4 y5 y6 y7 y8
  exact integrate_eval config 5 5 0 0 0 0 (7205759403792793 / 36028797018963968) 5 0
      (9007199254740991 / 9007199254740992) 0
    ⟨1, 0⟩ rfl rfl xA yA

/-- First tick of the rounding scenario: from rest, input `(1, 0)`, `dt = 0.19999999999999998`; the
    residual is the double below `1`. -/
theorem absorbA_tick :
    CalcMouseTrace config ⟨fin 0, fin 0, fin 0, fin 0⟩ ⟨1, 0⟩ (fin (7205759403792793 /
        36028797018963968)) =
      (⟨fin 5, fin 0, fin (9007199254740991 / 9007199254740992), fin 0⟩, ⟨0, 0⟩, false) := by
  have tx : truncQ (9007199254740991 / 9007199254740992) = 0 :=
    truncQ_eq_of_nonneg _ (0) (by norm_num) (by norm_num) (by norm_num)
  have ty : truncQ 0 = 0 :=
    truncQ_eq_of_nonneg _ (0) (by norm_num) (by norm_num) (by norm_num)
  have rx : Representable (fin (9007199254740991 / 9007199254740992)) := by
    show INT_MIN ≤ truncQ _ ∧ truncQ _ ≤ INT_MAX
    rw [tx]; decide
  have ry : Representable (fin 0) := by
    show INT_MIN ≤ truncQ _ ∧ truncQ _ ≤ INT_MAX
    rw [ty]; decide
  have h := CalcMouseTrace_eval config _ _ _ (1 / 2) 5 0 (9007199254740991 / 9007199254740992) 0 rfl
    absorbA_integrate rx ry
  rw [h, tx, ty]
  norm_num [abs_of_nonneg, abs_of_nonpos, EngineState.rest]

theorem absorbA_pos :
    fin 5 * fin (7205759403792793 / 36028797018963968) = fin (9007199254740991 / 9007199254740992) ∧
        fin 0 * fin (7205759403792793 / 36028797018963968) = fin 0 := by
  have px : round64 ((5 : ℚ) * (7205759403792793 / 36028797018963968)) = fin (9007199254740991 /
      9007199254740992) := by
    have h := round64_eq ((5 : ℚ) * (7205759403792793 / 36028797018963968)) (-1) (9007199254740991)
      (by rw [abs_of_nonneg (by norm_num)]; norm_num)
      (by rw [abs_of_nonneg (by norm_num)]; norm_num)
      (by norm_num)
      (by rw [abs_lt]; constructor <;> norm_num)
      (by rw [abs_of_nonneg (by norm_num)]; norm_num)
    rw [h]; norm_num
  have py : round64 ((0 : ℚ) * (7205759403792793 / 36028797018963968)) = fin 0 := by
    rw [show ((0 : ℚ) * (7205759403792793 / 36028797018963968) : ℚ) = 0 from by norm_num]; exact
        round64_zero
  exact ⟨px, py⟩

theorem absorbB_integrate :
    integrate config ⟨fin 5, fin 0, fin (9007199254740991 / 9007199254740992), fin 0⟩ ⟨0, 0⟩ (fin (3
        / 2 ^ 58)) =
      ⟨fin 5, fin 0, fin (9007199254740991 / 9007199254740992), fin 0⟩ := by
  have xi : Dbl.ofInt (0) = fin 0 := ofInt_zero
  have x1 : round64 ((0 : ℚ) / (3 / 2 ^ 58)) = fin 0 := by
    rw [show ((0 : ℚ) / (3 / 2 ^ 58) : ℚ) = 0 from by norm_num]; exact round64_zero
  have x2 : round64 ((0 : ℚ) * 5) = fin 0 := by
    rw [show ((0 : ℚ) * 5 : ℚ) = 0 from by norm_num]; exact round64_zero
  have x3 : round64 ((5 : ℚ) * 5) = fin 25 := by
    have h := round64_eq ((5 : ℚ) * 5) (4) (7036874417766400)
      (by rw [abs_of_nonneg (by norm_num)]; norm_num)
      (by rw [abs_of_nonneg (by norm_num)]; norm_num)
      (by norm_num)
      (by rw [abs_lt]; constructor <;> norm_num)
      (by rw [abs_of_nonneg (by norm_num)]; norm_num)
    rw [h]; norm_num
  have x4 : round64 ((0 : ℚ) - 25) = fin (-25) := by
    have h := round64_eq ((0 : ℚ) - 25) (4) (-7036874417766400)
      (by rw [abs_of_nonpos (by norm_num)]; norm_num)
      (by rw [abs_of_nonpos (by norm_num)]; norm_num)
      (by norm_num)
      (by rw [abs_lt]; constructor <;> norm_num)
      (by rw [abs_of_nonpos (by norm_num)]; norm_num)
    rw [h]; norm_num
  have x5 : round64 ((-25 : ℚ) * (3 / 2 ^ 58)) = fin (-75 / 2 ^ 58) := by
    have h := round64_eq ((-25 : ℚ) * (3 / 2 ^ 58)) (-52) (-5277655813324800)
      (by rw [abs_of_nonpos (by norm_num)]; norm_num)
      (by rw [abs_of_nonpos (by norm_num)]; norm_num)
      (by norm_num)
      (by rw [abs_lt]; constructor <;> norm_num)
      (by rw [abs_of_nonpos (by norm_num)]; norm_num)
    rw [h]; norm_num
  have x6 : round64 ((5 : ℚ) + (-75 / 2 ^ 58)) = fin 5 := by
    have h := round64_eq ((5 : ℚ) + (-75 / 2 ^ 58)) (2) (5629499534213120)
      (by rw [abs_of_nonneg (by norm_num)]; norm_num)
      (by rw [abs_of_nonneg (by norm_num)]; norm_num)
      (by norm_num)
      (by rw [abs_lt]; constructor <;> norm_num)
      (by rw [abs_of_nonneg (by norm_num)]; norm_num)
    rw [h]; norm_num
  have x7 : round64 ((5 : ℚ) * (3 / 2 ^ 58)) = fin (15 / 2 ^ 58) := by
    have h := round64_eq ((5 : ℚ) * (3 / 2 ^ 58)) (-55) (8444249301319680)
      (by rw [abs_of_nonneg (by norm_num)]; norm_num)
      (by rw [abs_of_nonneg (by norm_num)]; norm_num)
      (by norm_num)
      (by rw [abs_lt]; constructor <;> norm_num)
      (by rw [abs_of_nonneg (by norm_num)]; norm_num)
    rw [h]; norm_num
  have x8 : round64 ((9007199254740991 / 9007199254740992 : ℚ) + (15 / 2 ^ 58)) = fin
      (9007199254740991 / 9007199254740992) := by
    have h := round64_eq ((9007199254740991 / 9007199254740992 : ℚ) + (15 / 2 ^ 58)) (-1)
        (9007199254740991)
      (by rw [abs_of_nonneg (by norm_num)]; norm_num)
      (by rw [abs_of_nonneg (by norm_num)]; norm_num)
      (by norm_num)
      (by rw [abs_lt]; constructor <;> norm_num)
      (by rw [abs_of_nonneg (by norm_num)]; norm_num)
    rw [h]; norm_num
  have xA := axis_eval 5 5 (3 / 2 ^ 58) 5 (9007199254740991 / 9007199254740992) 0 0 0 25 (-25) (-75
      / 2 ^ 58) 5 (15 / 2 ^ 58) (9007199254740991 / 9007199254740992) (0)
    (by norm_num) xi x1 x2 x3 x4 x5 x6 x7 x8
  have yi : Dbl.ofInt (0) = fin 0 := ofInt_zero
  have y1 : round64 ((0 : ℚ) / (3 / 2 ^ 58)) = fin 0 := by
    rw [show ((0 : ℚ) / (3 / 2 ^ 58) : ℚ) = 0 from by norm_num]; exact round64_zero
  have y2 : round64 ((0 : ℚ) * 5) = fin 0 := by
    rw [show ((0 : ℚ) * 5 : ℚ) = 0 from by norm_num]; exact round64_zero
  have y3 : round64 ((0 : ℚ) * 5) = fin 0 := by
    rw [show ((0 : ℚ) * 5 : ℚ) = 0 from by norm_num]; exact round64_zero
  have y4 : round64 ((0 : ℚ) - 0) = fin 0 := by
    rw [show ((0 : ℚ) - 0 : ℚ) = 0 from by norm_num]; exact round64_zero
  have y5 : round64 ((0 : ℚ) * (3 / 2 ^ 58)) = fin 0 := by
    rw [show ((0 : ℚ) * (3 / 2 ^ 58) : ℚ) = 0 from by norm_num]; exact round64_zero
  have y6 : round64 ((0 : ℚ) + 0) = fin 0 := by
    rw [show ((0 : ℚ) + 0 : ℚ) = 0 from by norm_num]; exact round64_zero
  have y7 : round64 ((0 : ℚ) * (3 / 2 ^ 58)) = fin 0 := by
    rw [show ((0 : ℚ) * (3 / 2 ^ 58) : ℚ) = 0 from by norm_num]; exact round64_zero
  have y8 : round64 ((0 : ℚ) + 0) = fin 0 := by
    rw [show ((0 : ℚ) + 0 : ℚ) = 0 from by norm_num]; exact round64_zero
  have yA := axis_eval 5 5 (3 / 2 ^ 58) 0 0 0 0 0 0 0 0 0 0 0 (0)
    (by norm_num) yi y1 y2 y3 y4 y5 y6 y7 y8
  exact integrate_eval config 5 5 5 0 (9007199254740991 / 9007199254740992) 0 (3 / 2 ^ 58) 5 0
      (9007199254740991 / 9007199254740992) 0
    ⟨0, 0⟩ rfl rfl xA yA

/-- Later ticks of the rounding scenario: input `(0, 0)`, `dt = 3 * 2 ^ (-58)`; the position delta
    is lost in the rounding of the residual and the state does not change. -/
theorem absorbB_tick :
    CalcMouseTrace config ⟨fin 5, fin 0, fin (9007199254740991 / 9007199254740992), fin 0⟩ ⟨0, 0⟩
        (fin (3 / 2 ^ 58)) =
      (⟨fin 5, fin 0, fin (9007199254740991 / 9007199254740992), fin 0⟩, ⟨0, 0⟩, false) := by
  have tx : truncQ (9007199254740991 / 9007199254740992) = 0 :=
    truncQ_eq_of_nonneg _ (0) (by norm_num) (by norm_num) (by norm_num)
  have ty : truncQ 0 = 0 :=
    truncQ_eq_of_nonneg _ (0) (by norm_num) (by norm_num) (by norm_num)
  have rx : Representable (fin (9007199254740991 / 9007199254740992)) := by
    show INT_MIN ≤ truncQ _ ∧ truncQ _ ≤ INT_MAX
    rw [tx]; decide
  have ry : Representable (fin 0) := by
    show INT_MIN ≤ truncQ _ ∧ truncQ _ ≤ INT_MAX
    rw [ty]; decide
  have h := CalcMouseTrace_eval config _ _ _ (1 / 2) 5 0 (9007199254740991 / 9007199254740992) 0 rfl
    absorbB_integrate rx ry
  rw [h, tx, ty]
  norm_num [abs_of_nonneg, abs_of_nonpos, EngineState.rest]

theorem absorbB_pos :
    fin 5 * fin (3 / 2 ^ 58) = fin (15 / 2 ^ 58) ∧ fin 0 * fin (3 / 2 ^ 58) = fin 0 := by
  have px : round64 ((5 : ℚ) * (3 / 2 ^ 58)) = fin (15 / 2 ^ 58) := by
    have h := round64_eq ((5 : ℚ) * (3 / 2 ^ 58)) (-55) (8444249301319680)
      (by rw [abs_of_nonneg (by norm_num)]; norm_num)
      (by rw [abs_of_nonneg (by norm_num)]; norm_num)
      (by norm_num)
      (by rw [abs_lt]; constructor <;> norm_num)
      (by rw [abs_of_nonneg (by norm_num)]; norm_num)
    rw [h]; norm_num
  have py : round64 ((0 : ℚ) * (3 / 2 ^ 58)) = fin 0 := by
    rw [show ((0 : ℚ) * (3 / 2 ^ 58) : ℚ) = 0 from by norm_num]; exact round64_zero
  exact ⟨px, py⟩

theorem overflow_pos :
    fin 10737418235 * fin 1 = fin 10737418235 ∧ fin 0 * fin 1 = fin 0 := by
  have px : round64 ((10737418235 : ℚ) * 1) = fin 10737418235 := by
    have h := round64_eq ((10737418235 : ℚ) * 1) (33) (5629499531591680)
      (by rw [abs_of_nonneg (by norm_num)]; norm_num)
      (by rw [abs_of_nonneg (by norm_num)]; norm_num)
      (by norm_num)
      (by rw [abs_lt]; constructor <;> norm_num)
      (by rw [abs_of_nonneg (by norm_num)]; norm_num)
    rw [h]; norm_num
  have py : round64 ((0 : ℚ) * 1) = fin 0 := by
    rw [show ((0 : ℚ) * 1 : ℚ) = 0 from by norm_num]; exact round64_zero
  exact ⟨px, py⟩

/-! ## Residual drift (C9) -/

theorem ticksLog_cons (c : Config) (s : EngineState) (t : POINT × Dbl)
    (l : List (POINT × Dbl)) :
    ticksLog c s (t :: l) =
      ⟨(CalcMouseTrace c s t.1 t.2).2.1, (integrate c s t.1 t.2).vx * t.2,
        (integrate c s t.1 t.2).vy * t.2, (CalcMouseTrace c s t.1 t.2).2.2⟩ ::
        ticksLog c (CalcMouseTrace c s t.1 t.2).1 l := rfl

theorem sumOutX_cons (e : TickLog) (l : List TickLog) :
    sumOutX (e :: l) = e.out.x + sumOutX l := by
  simp [sumOutX]

theorem sumOutY_cons (e : TickLog) (l : List TickLog) :
    sumOutY (e :: l) = e.out.y + sumOutY l := by
  simp [sumOutY]

theorem sumPosX_cons (e : TickLog) (l : List TickLog) :
    sumPosX (e :: l) = e.posx.val + sumPosX l := by
  simp [sumPosX]

theorem sumPosY_cons (e : TickLog) (l : List TickLog) :
    sumPosY (e :: l) = e.posy.val + sumPosY l := by
  simp [sumPosY]

theorem sumOutX_nil : sumOutX [] = 0 := rfl

theorem sumOutY_nil : sumOutY [] = 0 := rfl

theorem sumPosX_nil : sumPosX [] = 0 := rfl

theorem sumPosY_nil : sumPosY [] = 0 := rfl

theorem abs_lt_of_representable (D : ℚ) (h : Representable (fin D)) :
    |D| < (2 : ℚ) ^ (32 : ℤ) := by
  obtain ⟨h1, h2⟩ := h
  have h3 := abs_lt.mp (abs_sub_truncQ_lt D)
  have h1q : ((INT_MIN : Int) : ℚ) ≤ (truncQ D : ℚ) := by exact_mod_cast h1
  have h2q : (truncQ D : ℚ) ≤ ((INT_MAX : Int) : ℚ) := by exact_mod_cast h2
  unfold INT_MIN at h1q
  unfold INT_MAX at h2q
  push_cast at h1q h2q
  rw [abs_lt]
  norm_num
  constructor <;> linarith [h3.1, h3.2]

/-- The update `dx += vx * dt` of a finite residual `r` with a result `D` within the `int`
range: the position delta is finite and the addition rounds by at most `2 ^ (-22)`. -/
theorem residual_update (r D : ℚ) (p : Dbl) (h : fin r + p = fin D)
    (hD : Representable (fin D)) :
    ∃ q : ℚ, p = fin q ∧ |D - (r + q)| ≤ (2 : ℚ) ^ (-22 : ℤ) := by
  cases p with
  | fin q =>
    refine ⟨q, rfl, ?_⟩
    rw [fin_add_fin] at h
    obtain ⟨e, -⟩ := round64_eq_fin _ _ h
    have hb := abs_lt.mp (abs_lt_of_representable D hD)
    have hz : |r + q| < (2 : ℚ) ^ ((31 : ℤ) + 1) := by
      rw [abs_lt]
      constructor
      · by_contra hc
        have h1 := rnd_le_of_le_grid (r + q) (-(2 : ℚ) ^ (32 : ℤ)) (by norm_num at hc ⊢; linarith)
          (grid_neg _ (grid_two_zpow 32 (by norm_num)))
        rw [← e] at h1
        linarith [hb.1]
      · by_contra hc
        have h1 := le_rnd_of_grid_le (r + q) ((2 : ℚ) ^ (32 : ℤ)) (by norm_num at hc ⊢; linarith)
          (grid_two_zpow 32 (by norm_num))
        rw [← e] at h1
        linarith [hb.2]
    have hu := ulp_le_of_abs_lt (r + q) 31 (by norm_num) hz
    have he := abs_rnd_sub_le (r + q)
    rw [← e] at he
    have e2 : (2 : ℚ) ^ ((31 : ℤ) - 52) / 2 = (2 : ℚ) ^ (-22 : ℤ) := by norm_num
    calc |D - (r + q)| ≤ ulp (r + q) / 2 := he
      _ ≤ (2 : ℚ) ^ ((31 : ℤ) - 52) / 2 :=
          (div_le_div_iff_of_pos_right (by norm_num : (0 : ℚ) < 2)).mpr hu
      _ = (2 : ℚ) ^ (-22 : ℤ) := e2
  | pinf => exact Dbl.noConfusion (show pinf = fin D from h)
  | ninf => exact Dbl.noConfusion (show ninf = fin D from h)
  | nan =>
    rw [add_nan] at h
    exact Dbl.noConfusion h

/-- One regular tick from a state with finite residual `(rx, ry)`: the position deltas are
finite, the integrated residual is the sum up to a rounding of at most `2 ^ (-22)`, the output
is its truncation and an unsettled tick stores the fractional remainder. -/
theorem regular_tick_balance (c : Config) (s : EngineState) (p : POINT × Dbl)
    (l : List (POINT × Dbl)) (rx ry : ℚ) (hsx : s.dx = fin rx) (hsy : s.dy = fin ry)
    (hreg : Regular c s (p :: l)) :
    ∃ Dx Dy qx qy : ℚ,
      (integrate c s p.1 p.2).vx * p.2 = fin qx ∧
      (integrate c s p.1 p.2).vy * p.2 = fin qy ∧
      (CalcMouseTrace c s p.1 p.2).2.1 = ⟨truncQ Dx, truncQ Dy⟩ ∧
      |Dx - (rx + qx)| ≤ (2 : ℚ) ^ (-22 : ℤ) ∧ |Dy - (ry + qy)| ≤ (2 : ℚ) ^ (-22 : ℤ) ∧
      ((CalcMouseTrace c s p.1 p.2).2.2 = false →
        (CalcMouseTrace c s p.1 p.2).1.dx = fin (Dx - (truncQ Dx : ℚ)) ∧
        (CalcMouseTrace c s p.1 p.2).1.dy = fin (Dy - (truncQ Dy : ℚ))) := by
  obtain ⟨-, hx, hy, -⟩ := hreg
  obtain ⟨Dx, ex, rDx⟩ := representable_fin _ hx
  obtain ⟨Dy, ey, rDy⟩ := representable_fin _ hy
  have kx : fin rx + (integrate c s p.1 p.2).vx * p.2 = fin Dx := by
    rw [← hsx, ← integrate_dx]; exact ex
  have ky : fin ry + (integrate c s p.1 p.2).vy * p.2 = fin Dy := by
    rw [← hsy, ← integrate_dy]; exact ey
  obtain ⟨qx, e1, b1⟩ := residual_update rx Dx _ kx rDx
  obtain ⟨qy, e2, b2⟩ := residual_update ry Dy _ ky rDy
  obtain ⟨ho, -, -, hn⟩ := CalcMouseTrace_of_representable c s p.1 p.2 Dx Dy ex ey rDx rDy
  refine ⟨Dx, Dy, qx, qy, e1, e2, ho, b1, b2, ?_⟩
  intro hf
  rw [hn hf]
  exact ⟨rfl, rfl⟩

/-- Within one episode (no tick before the last is settled), from a state with finite
residual `(rx, ry)`: every position delta is finite, and the emitted sum plus a fraction in
`(-1, 1)` is the starting residual plus the sum of the position deltas, up to `2 ^ (-22)` per
tick. -/
theorem episode_balance (c : Config) (l : List (POINT × Dbl)) :
    ∀ (s : EngineState) (rx ry : ℚ), s.dx = fin rx → s.dy = fin ry → l ≠ [] →
      Regular c s l →
      (∀ e ∈ (ticksLog c s l).dropLast, e.done = false) →
      (∀ e ∈ ticksLog c s l, ∃ p q : ℚ, e.posx = fin p ∧ e.posy = fin q) ∧
      ∃ fx fy : ℚ, |fx| < 1 ∧ |fy| < 1 ∧
        |(sumOutX (ticksLog c s l) : ℚ) + fx - (rx + sumPosX (ticksLog c s l))| ≤
          (l.length : ℚ) * (2 : ℚ) ^ (-22 : ℤ) ∧
        |(sumOutY (ticksLog c s l) : ℚ) + fy - (ry + sumPosY (ticksLog c s l))| ≤
          (l.length : ℚ) * (2 : ℚ) ^ (-22 : ℤ) := by
  induction l with
  | nil => intro s rx ry _ _ hne; exact absurd rfl hne
  | cons u l ih =>
    intro s rx ry hsx hsy _ hreg hno
    obtain ⟨Dx, Dy, qx, qy, e1, e2, ho, b1, b2, hn⟩ :=
      regular_tick_balance c s u l rx ry hsx hsy hreg
    rw [ticksLog_cons] at hno ⊢
    by_cases hl : l = []
    · subst hl
      constructor
      · intro e he
        simp only [ticksLog, List.mem_singleton] at he
        subst he
        exact ⟨qx, qy, e1, e2⟩
      · refine ⟨Dx - (truncQ Dx : ℚ), Dy - (truncQ Dy : ℚ), abs_sub_truncQ_lt _,
          abs_sub_truncQ_lt _, ?_, ?_⟩
        · rw [sumOutX_cons, sumPosX_cons]
          simp only [ticksLog, ho, e1, Dbl.val, sumOutX_nil, sumPosX_nil,
            List.length_singleton]
          have : ((truncQ Dx + 0 : Int) : ℚ) + (Dx - (truncQ Dx : ℚ)) - (rx + (qx + 0)) =
              Dx - (rx + qx) := by push_cast; ring
          rw [this]
          simpa using b1
        · rw [sumOutY_cons, sumPosY_cons]
          simp only [ticksLog, ho, e2, Dbl.val, sumOutY_nil, sumPosY_nil,
            List.length_singleton]
          have : ((truncQ Dy + 0 : Int) : ℚ) + (Dy - (truncQ Dy : ℚ)) - (ry + (qy + 0)) =
              Dy - (ry + qy) := by push_cast; ring
          rw [this]
          simpa using b2
    · obtain ⟨u2, l2, rfl⟩ := List.exists_cons_of_ne_nil hl
      have hf : (CalcMouseTrace c s u.1 u.2).2.2 = false :=
        hno ⟨(CalcMouseTrace c s u.1 u.2).2.1, (integrate c s u.1 u.2).vx * u.2,
          (integrate c s u.1 u.2).vy * u.2, (CalcMouseTrace c s u.1 u.2).2.2⟩
          (by rw [ticksLog_cons, List.dropLast_cons₂]; exact List.mem_cons_self _ _)
      obtain ⟨n1, n2⟩ := hn hf
      have hno2 : ∀ e ∈ (ticksLog c (CalcMouseTrace c s u.1 u.2).1 (u2 :: l2)).dropLast,
          e.done = false := by
        intro e he
        refine hno e ?_
        rw [ticksLog_cons, List.dropLast_cons₂]
        rw [ticksLog_cons] at he
        exact List.mem_cons_of_mem _ he
      obtain ⟨hfin, fx, fy, bx, by2, sx, sy⟩ :=
        ih _ (Dx - (truncQ Dx : ℚ)) (Dy - (truncQ Dy : ℚ)) n1 n2 (by simp) hreg.2.2.2 hno2
      constructor
      · intro e he
        rcases List.mem_cons.mp he with he | he
        · subst he
          exact ⟨qx, qy, e1, e2⟩
        · exact hfin e he
      · refine ⟨fx, fy, bx, by2, ?_, ?_⟩
        · rw [sumOutX_cons, sumPosX_cons]
          simp only [ho, e1, Dbl.val, List.length_cons]
          have e : ((truncQ Dx + sumOutX (ticksLog c (CalcMouseTrace c s u.1 u.2).1 (u2 :: l2)) :
                Int) : ℚ) + fx -
              (rx + (qx + sumPosX (ticksLog c (CalcMouseTrace c s u.1 u.2).1 (u2 :: l2)))) =
              ((sumOutX (ticksLog c (CalcMouseTrace c s u.1 u.2).1 (u2 :: l2)) : ℚ) + fx -
                (Dx - (truncQ Dx : ℚ) +
                  sumPosX (ticksLog c (CalcMouseTrace c s u.1 u.2).1 (u2 :: l2)))) +
              (Dx - (rx + qx)) := by push_cast; ring
          rw [e]
          have h3 := abs_add
            ((sumOutX (ticksLog c (CalcMouseTrace c s u.1 u.2).1 (u2 :: l2)) : ℚ) + fx -
                (Dx - (truncQ Dx : ℚ) +
                  sumPosX (ticksLog c (CalcMouseTrace c s u.1 u.2).1 (u2 :: l2))))
            (Dx - (rx + qx))
          simp only [List.length_cons] at sx
          push_cast at sx ⊢
          linarith
        · rw [sumOutY_cons, sumPosY_cons]
          simp only [ho, e2, Dbl.val, List.length_cons]
          have e : ((truncQ Dy + sumOutY (ticksLog c (CalcMouseTrace c s u.1 u.2).1 (u2 :: l2)) :
                Int) : ℚ) + fy -
              (ry + (qy + sumPosY (ticksLog c (CalcMouseTrace c s u.1 u.2).1 (u2 :: l2)))) =
              ((sumOutY (ticksLog c (CalcMouseTrace c s u.1 u.2).1 (u2 :: l2)) : ℚ) + fy -
                (Dy - (truncQ Dy : ℚ) +
                  sumPosY (ticksLog c (CalcMouseTrace c s u.1 u.2).1 (u2 :: l2)))) +
              (Dy - (ry + qy)) := by push_cast; ring
          rw [e]
          have h3 := abs_add
            ((sumOutY (ticksLog c (CalcMouseTrace c s u.1 u.2).1 (u2 :: l2)) : ℚ) + fy -
                (Dy - (truncQ Dy : ℚ) +
                  sumPosY (ticksLog c (CalcMouseTrace c s u.1 u.2).1 (u2 :: l2))))
            (Dy - (ry + qy))
          simp only [List.length_cons] at sy
          push_cast at sy ⊢
          linarith

/-- The record of a tick whose results are known. -/
theorem ticksLog_step (c : Config) (s : EngineState) (inp : POINT) (dt : Dbl)
    (l : List (POINT × Dbl)) (w s2 : EngineState) (o : POINT) (f : Bool) (px py : Dbl)
    (hi : integrate c s inp dt = w) (ht : CalcMouseTrace c s inp dt = (s2, o, f))
    (hx : w.vx * dt = px) (hy : w.vy * dt = py) :
    ticksLog c s ((inp, dt) :: l) = ⟨o, px, py, f⟩ :: ticksLog c s2 l := by
  rw [ticksLog_cons]
  simp only [hi, ht, hx, hy]

/-- The integration at `dt = 0` with input `(1, 0)`, from rest. -/
theorem zero_dt_integrate :
    integrate config EngineState.rest ⟨1, 0⟩ (fin 0) = ⟨nan, fin 0, nan, fin 0⟩ := by
  have o1 : Dbl.ofInt 1 = fin 1 := by simpa using ofInt_eq 1 (by norm_num)
  simp [integrate, instVelocity, o1, div_fin_zero, infTimes, config, EngineState.rest,
    round64_zero]

/-- The drift scenario: two ticks with input `(3, 0)` and `dt = 3/16`, separated by a
zero-input tick with `dt = 13/64` that settles. -/
theorem drift_log :
    ticksLog config EngineState.rest
      [(⟨3, 0⟩, fin (3 / 16)), (⟨0, 0⟩, fin (13 / 64)), (⟨3, 0⟩, fin (3 / 16))] =
      [⟨⟨2, 0⟩, fin (45 / 16), fin 0, false⟩, ⟨⟨0, 0⟩, fin (-195 / 4096), fin 0, true⟩,
       ⟨⟨2, 0⟩, fin (45 / 16), fin 0, false⟩] := by
  rw [ticksLog_step config EngineState.rest ⟨3, 0⟩ (fin (3 / 16)) _ _ _ _ _ _ _
      driftA_integrate driftA_tick driftA_pos.1 driftA_pos.2,
    ticksLog_step config _ ⟨0, 0⟩ (fin (13 / 64)) _ _ _ _ _ _ _
      driftB_integrate driftB_tick driftB_pos.1 driftB_pos.2,
    ticksLog_step config _ ⟨3, 0⟩ (fin (3 / 16)) _ _ _ _ _ _ _
      driftA_integrate driftA_tick driftA_pos.1 driftA_pos.2]
  rfl

/-- The rounding scenario: a tick with input `(1, 0)` and `dt = 0.19999999999999998`, then
three zero-input ticks with `dt = 3 * 2 ^ (-58)`; none settles. -/
theorem absorb_log :
    ticksLog config EngineState.rest
      [(⟨1, 0⟩, fin (7205759403792793 / 36028797018963968)),
       (⟨0, 0⟩, fin (3 / 2 ^ 58)), (⟨0, 0⟩, fin (3 / 2 ^ 58)),
       (⟨0, 0⟩, fin (3 / 2 ^ 58))] =
      [⟨⟨0, 0⟩, fin (9007199254740991 / 9007199254740992), fin 0, false⟩,
       ⟨⟨0, 0⟩, fin (15 / 2 ^ 58), fin 0, false⟩,
       ⟨⟨0, 0⟩, fin (15 / 2 ^ 58), fin 0, false⟩,
       ⟨⟨0, 0⟩, fin (15 / 2 ^ 58), fin 0, false⟩] := by
  rw [ticksLog_step config EngineState.rest ⟨1, 0⟩ _ _ _ _ _ _ _ _
      absorbA_integrate absorbA_tick absorbA_pos.1 absorbA_pos.2,
    ticksLog_step config _ ⟨0, 0⟩ _ _ _ _ _ _ _ _
      absorbB_integrate absorbB_tick absorbB_pos.1 absorbB_pos.2,
    ticksLog_step config _ ⟨0, 0⟩ _ _ _ _ _ _ _ _
      absorbB_integrate absorbB_tick absorbB_pos.1 absorbB_pos.2,
    ticksLog_step config _ ⟨0, 0⟩ _ _ _ _ _ _ _ _
      absorbB_integrate absorbB_tick absorbB_pos.1 absorbB_pos.2]
  rfl

/-- The rounding scenario is a regular sequence. -/
theorem absorb_regular :
    Regular config EngineState.rest
      [(⟨1, 0⟩, fin (7205759403792793 / 36028797018963968)),
       (⟨0, 0⟩, fin (3 / 2 ^ 58)), (⟨0, 0⟩, fin (3 / 2 ^ 58)),
       (⟨0, 0⟩, fin (3 / 2 ^ 58))] := by
  have r1 : Representable (fin (9007199254740991 / 9007199254740992)) :=
    representable_of_bounds _ 0 (by norm_num) (by norm_num) (by norm_num) (by decide)
  have iA : integrate config EngineState.rest ⟨1, 0⟩
      (fin (7205759403792793 / 36028797018963968)) = _ := absorbA_integrate
  have eA : CalcMouseTrace config EngineState.rest ⟨1, 0⟩
      (fin (7205759403792793 / 36028797018963968)) = _ := absorbA_tick
  have iB := absorbB_integrate
  have eB := absorbB_tick
  refine ⟨⟨_, rfl, Or.inl (by norm_num)⟩, ?_, ?_, ⟨_, rfl, Or.inr rfl⟩, ?_, ?_,
    ⟨_, rfl, Or.inr rfl⟩, ?_, ?_, ⟨_, rfl, Or.inr rfl⟩, ?_, ?_, trivial⟩
  all_goals simp only [iA, eA, iB, eB]
  all_goals first | exact r1 | exact representable_zero

/-- C9, as stated, fails. A settled tick discards the residual: with the default
configuration, from rest, the ticks (input `(3, 0)`, `dt = 3/16`), (input `(0, 0)`,
`dt = 13/64`, which settles) and (input `(3, 0)`, `dt = 3/16`) emit `4` on the x axis in
total, while the position deltas sum to `22845/4096`, about `5.58`. The additions to the
residual round: in the regular sequence (input `(1, 0)`, `dt = 0.19999999999999998`) followed
by three ticks (input `(0, 0)`, `dt = 3 * 2 ^ (-58)`) no tick settles, nothing is emitted and
the position deltas sum to `1 + 13 * 2 ^ (-58)`. Outside the `int` range the output is not the
truncation: one tick with input `(2147483647, 0)` and `dt = 1` emits `INT_MIN` and has the
position delta `10737418235`. At `dt = 0` with input `(1, 0)` the position delta is NaN. -/
theorem drift_across_settle :
    (sumOutX (ticksLog config EngineState.rest
        [(⟨3, 0⟩, fin (3 / 16)), (⟨0, 0⟩, fin (13 / 64)), (⟨3, 0⟩, fin (3 / 16))]) = 4 ∧
      sumPosX (ticksLog config EngineState.rest
        [(⟨3, 0⟩, fin (3 / 16)), (⟨0, 0⟩, fin (13 / 64)), (⟨3, 0⟩, fin (3 / 16))]) =
          22845 / 4096 ∧
      ¬ (|((4 : Int) : ℚ) - 22845 / 4096| < 1)) ∧
    (Regular config EngineState.rest
        [(⟨1, 0⟩, fin (7205759403792793 / 36028797018963968)),
         (⟨0, 0⟩, fin (3 / 2 ^ 58)), (⟨0, 0⟩, fin (3 / 2 ^ 58)),
         (⟨0, 0⟩, fin (3 / 2 ^ 58))] ∧
      (∀ e ∈ ticksLog config EngineState.rest
        [(⟨1, 0⟩, fin (7205759403792793 / 36028797018963968)),
         (⟨0, 0⟩, fin (3 / 2 ^ 58)), (⟨0, 0⟩, fin (3 / 2 ^ 58)),
         (⟨0, 0⟩, fin (3 / 2 ^ 58))], e.done = false) ∧
      sumOutX (ticksLog config EngineState.rest
        [(⟨1, 0⟩, fin (7205759403792793 / 36028797018963968)),
         (⟨0, 0⟩, fin (3 / 2 ^ 58)), (⟨0, 0⟩, fin (3 / 2 ^ 58)),
         (⟨0, 0⟩, fin (3 / 2 ^ 58))]) = 0 ∧
      sumPosX (ticksLog config EngineState.rest
        [(⟨1, 0⟩, fin (7205759403792793 / 36028797018963968)),
         (⟨0, 0⟩, fin (3 / 2 ^ 58)), (⟨0, 0⟩, fin (3 / 2 ^ 58)),
         (⟨0, 0⟩, fin (3 / 2 ^ 58))]) = 1 + 13 / 2 ^ 58 ∧
      ¬ (|((0 : Int) : ℚ) - (1 + 13 / 2 ^ 58)| < 1)) ∧
    ticksLog config EngineState.rest [(⟨2147483647, 0⟩, fin 1)] =
      [⟨⟨INT_MIN, 0⟩, fin 10737418235, fin 0, false⟩] ∧
    ticksLog config EngineState.rest [(⟨1, 0⟩, fin 0)] =
      [⟨⟨INT_MIN, 0⟩, nan, fin 0, false⟩] := by
  refine ⟨⟨?_, ?_, ?_⟩, ⟨absorb_regular, ?_, ?_, ?_, ?_⟩, ?_, ?_⟩
  · rw [drift_log]; rfl
  · rw [drift_log]
    simp only [sumPosX, List.map, Dbl.val, List.sum_cons, List.sum_nil]
    norm_num
  · rw [abs_of_nonpos (by norm_num)]; norm_num
  · rw [absorb_log]
    intro e he
    simp only [List.mem_cons, List.mem_singleton, List.not_mem_nil, or_false] at he
    rcases he with he | he | he | he <;> rw [he]
  · rw [absorb_log]; rfl
  · rw [absorb_log]
    simp only [sumPosX, List.map, Dbl.val, List.sum_cons, List.sum_nil]
    norm_num
  · rw [abs_of_nonpos (by norm_num)]; norm_num
  · have hi : integrate config EngineState.rest ⟨2147483647, 0⟩ (fin 1) =
        ⟨fin 10737418235, fin 0, fin 10737418235, fin 0⟩ := overflow_integrate
    have t1 : truncQ 10737418235 = 10737418235 :=
      truncQ_eq_of_nonneg _ 10737418235 (by norm_num) (by norm_num) (by norm_num)
    have o1 : Dbl.toInt32 (fin 10737418235) = INT_MIN := by
      simp [Dbl.toInt32, t1, INT_MIN, INT_MAX]
    have o2 : Dbl.toInt32 (fin 0) = 0 := by
      rw [toInt32_fin _ representable_zero, truncQ_zero]
    have hf : (CalcMouseTrace config EngineState.rest ⟨2147483647, 0⟩ (fin 1)).2.2 = false := by
      rw [CalcMouseTrace_flag, hi]
      show (Dbl.lt (fabs (fin 10737418235)) (fin (1 / 2)) && _) = false
      rw [fabs_fin, lt_fin_fin, decide_eq_false (by rw [abs_of_nonneg (by norm_num)]; norm_num)]
      rfl
    rw [ticksLog_cons]
    simp only [ticksLog, CalcMouseTrace_out, hf, hi, o1, o2, overflow_pos.1, overflow_pos.2]
  · have hi := zero_dt_integrate
    have hf : (CalcMouseTrace config EngineState.rest ⟨1, 0⟩ (fin 0)).2.2 = false := by
      rw [CalcMouseTrace_flag, hi]
      rfl
    have o2 : Dbl.toInt32 (fin 0) = 0 := by
      rw [toInt32_fin _ representable_zero, truncQ_zero]
    rw [ticksLog_cons]
    simp only [ticksLog, CalcMouseTrace_out, hf, hi, o2, toInt32_nan, nan_mul]
    have e : fin 0 * fin 0 = fin 0 := by rw [fin_mul_fin, mul_zero, round64_zero]
    rw [e]

/-- C9 (amended): for every sequence of `n` ticks starting from the rest state, with finite
configuration values, in which each `dt` is finite, a zero `dt` comes only with input `(0, 0)`,
each integrated residual truncates to a value representable as an `int`, and no tick before
the last one reports settled: every position delta `velocity * dt` the ticks compute is a
finite double, and the sum of the emitted integer deltas differs from the exact sum of these
position deltas by less than `1 + n * 2 ^ (-22)` on each axis. -/
theorem no_drift_within_episode (d a t : ℚ) (l : List (POINT × Dbl))
    (hreg : Regular ⟨fin d, fin a, fin t⟩ EngineState.rest l)
    (hno : ∀ e ∈ (ticksLog ⟨fin d, fin a, fin t⟩ EngineState.rest l).dropLast,
      e.done = false) :
    (∀ e ∈ ticksLog ⟨fin d, fin a, fin t⟩ EngineState.rest l,
      ∃ p q : ℚ, e.posx = fin p ∧ e.posy = fin q) ∧
    |(sumOutX (ticksLog ⟨fin d, fin a, fin t⟩ EngineState.rest l) : ℚ) -
        sumPosX (ticksLog ⟨fin d, fin a, fin t⟩ EngineState.rest l)| <
      1 + (l.length : ℚ) * (2 : ℚ) ^ (-22 : ℤ) ∧
    |(sumOutY (ticksLog ⟨fin d, fin a, fin t⟩ EngineState.rest l) : ℚ) -
        sumPosY (ticksLog ⟨fin d, fin a, fin t⟩ EngineState.rest l)| <
      1 + (l.length : ℚ) * (2 : ℚ) ^ (-22 : ℤ) := by
  by_cases hl : l = []
  · subst hl
    refine ⟨?_, ?_, ?_⟩
    · intro e he
      simp [ticksLog] at he
    · simp [ticksLog, sumOutX, sumPosX]
    · simp [ticksLog, sumOutY, sumPosY]
  · obtain ⟨hfin, fx, fy, b1, b2, s1, s2⟩ :=
      episode_balance ⟨fin d, fin a, fin t⟩ l EngineState.rest 0 0 rfl rfl hl hreg hno
    refine ⟨hfin, ?_, ?_⟩
    · have e : (sumOutX (ticksLog ⟨fin d, fin a, fin t⟩ EngineState.rest l) : ℚ) -
          sumPosX (ticksLog ⟨fin d, fin a, fin t⟩ EngineState.rest l) =
          ((sumOutX (ticksLog ⟨fin d, fin a, fin t⟩ EngineState.rest l) : ℚ) + fx -
            (0 + sumPosX (ticksLog ⟨fin d, fin a, fin t⟩ EngineState.rest l))) + (-fx) := by
        ring
      rw [e]
      have h3 := abs_add
        ((sumOutX (ticksLog ⟨fin d, fin a, fin t⟩ EngineState.rest l) : ℚ) + fx -
            (0 + sumPosX (ticksLog ⟨fin d, fin a, fin t⟩ EngineState.rest l))) (-fx)
      rw [abs_neg] at h3
      linarith
    · have e : (sumOutY (ticksLog ⟨fin d, fin a, fin t⟩ EngineState.rest l) : ℚ) -
          sumPosY (ticksLog ⟨fin d, fin a, fin t⟩ EngineState.rest l) =
          ((sumOutY (ticksLog ⟨fin d, fin a, fin t⟩ EngineState.rest l) : ℚ) + fy -
            (0 + sumPosY (ticksLog ⟨fin d, fin a, fin t⟩ EngineState.rest l))) + (-fy) := by
        ring
      rw [e]
      have h3 := abs_add
        ((sumOutY (ticksLog ⟨fin d, fin a, fin t⟩ EngineState.rest l) : ℚ) + fy -
            (0 + sumPosY (ticksLog ⟨fin d, fin a, fin t⟩ EngineState.rest l))) (-fy)
      rw [abs_neg] at h3
      linarith

/-- Witness of C9 (amended): default configuration, a tick with input `(3, 0)` and
`dt = 1/8` followed by a tick with input `(0, 0)` and `dt = 1/8`; the first is not settled. -/
theorem no_drift_within_episode_witness :
    Regular config EngineState.rest [(⟨3, 0⟩, fin (1 / 8)), (⟨0, 0⟩, fin (1 / 8))] ∧
    (∀ e ∈ (ticksLog config EngineState.rest
        [(⟨3, 0⟩, fin (1 / 8)), (⟨0, 0⟩, fin (1 / 8))]).dropLast, e.done = false) ∧
    (∀ e ∈ ticksLog config EngineState.rest [(⟨3, 0⟩, fin (1 / 8)), (⟨0, 0⟩, fin (1 / 8))],
      ∃ p q : ℚ, e.posx = fin p ∧ e.posy = fin q) ∧
    |(sumOutX (ticksLog config EngineState.rest
        [(⟨3, 0⟩, fin (1 / 8)), (⟨0, 0⟩, fin (1 / 8))]) : ℚ) -
      sumPosX (ticksLog config EngineState.rest
        [(⟨3, 0⟩, fin (1 / 8)), (⟨0, 0⟩, fin (1 / 8))])| <
      1 + (([(⟨3, 0⟩, fin (1 / 8)), (⟨0, 0⟩, fin (1 / 8))] : List (POINT × Dbl)).length : ℚ) *
        (2 : ℚ) ^ (-22 : ℤ) ∧
    |(sumOutY (ticksLog config EngineState.rest
        [(⟨3, 0⟩, fin (1 / 8)), (⟨0, 0⟩, fin (1 / 8))]) : ℚ) -
      sumPosY (ticksLog config EngineState.rest
        [(⟨3, 0⟩, fin (1 / 8)), (⟨0, 0⟩, fin (1 / 8))])| <
      1 + (([(⟨3, 0⟩, fin (1 / 8)), (⟨0, 0⟩, fin (1 / 8))] : List (POINT × Dbl)).length : ℚ) *
        (2 : ℚ) ^ (-22 : ℤ) := by
  have c1 : CalcMouseTrace config EngineState.rest ⟨3, 0⟩ (fin (1 / 8)) =
      (⟨fin 15, fin 0, fin (7 / 8), fin 0⟩, ⟨1, 0⟩, false) := sample_tick
  have hno : ∀ e ∈ (ticksLog config EngineState.rest
      [(⟨3, 0⟩, fin (1 / 8)), (⟨0, 0⟩, fin (1 / 8))]).dropLast, e.done = false := by
    intro e he
    rw [ticksLog_cons, ticksLog_cons, List.dropLast_cons₂] at he
    simp only [ticksLog, List.dropLast_single, List.mem_singleton] at he
    rw [he]
    show (CalcMouseTrace config EngineState.rest ⟨3, 0⟩ (fin (1 / 8))).2.2 = false
    rw [c1]
  exact ⟨sample_regular, hno,
    no_drift_within_episode 5 5 (1 / 2) _ sample_regular hno⟩

/-! ## Zero input: the velocity of one axis (C7) -/

theorem grid_of_abs_le (j k : ℤ) (hj : |j| ≤ 2 ^ 53) (hk : -1074 ≤ k) :
    Grid ((j : ℚ) * (2 : ℚ) ^ k) := by
  by_cases hlt : |j| < 2 ^ 53
  · exact ⟨j, k, hlt, hk, rfl⟩
  · have heq : |j| = 2 ^ 53 := le_antisymm hj (not_lt.mp hlt)
    have hsplit : (2 : ℚ) ^ (k + 53) = (2 : ℚ) ^ (53 : ℤ) * (2 : ℚ) ^ k := by
      rw [zpow_add₀ (by norm_num)]; ring
    rcases abs_eq (by norm_num : (0 : ℤ) ≤ 2 ^ 53) |>.mp heq with h | h
    · refine ⟨1, k + 53, by norm_num, by omega, ?_⟩
      rw [h, hsplit]
      push_cast
      norm_num
    · refine ⟨-1, k + 53, by norm_num, by omega, ?_⟩
      rw [h, hsplit]
      push_cast
      norm_num

theorem grid_two_mul (q : ℚ) (g : Grid q) : Grid (2 * q) := by
  obtain ⟨m, k, hm, hk, rfl⟩ := g
  refine ⟨m, k + 1, hm, by omega, ?_⟩
  rw [zpow_add₀ (by norm_num)]
  ring

theorem grid_abs (q : ℚ) (g : Grid q) : Grid |q| := by
  rcases abs_cases q with ⟨h, -⟩ | ⟨h, -⟩ <;> rw [h]
  · exact g
  · exact grid_neg q g

theorem abs_rnd_le_two_mul (z : ℚ) : |rnd z| ≤ 2 * |z| := by
  rcases le_or_lt 0 z with h | h
  · rw [abs_of_nonneg h, abs_of_nonneg (rnd_nonneg z h)]
    exact rnd_le_two_mul z h
  · have h1 := rnd_le_two_mul (-z) (by linarith)
    have h2 := rnd_nonpos z h.le
    rw [rnd_neg] at h1
    rw [abs_of_neg h, abs_of_nonpos h2]
    linarith

theorem decay_neg (d h v : ℚ) : decay d h (-v) = -decay d h v := by
  unfold decay
  have e1 : -v * d = -(v * d) := by ring
  rw [e1, rnd_neg]
  have e2 : -rnd (v * d) * h = -(rnd (v * d) * h) := by ring
  rw [e2, rnd_neg]
  have e3 : -v - -rnd (rnd (v * d) * h) = -(v - rnd (rnd (v * d) * h)) := by ring
  rw [e3, rnd_neg]

theorem decay_zero (d h : ℚ) : decay d h 0 = 0 := by
  unfold decay
  simp [rnd_zero]

/-- With `0 < damper * dt ≤ 1` a non-negative velocity stays within `[-v, v]`. -/
theorem decay_bounds (d h v : ℚ) (hd : 0 < d) (hh : 0 < h) (hdh : d * h ≤ 1) (hv : 0 ≤ v)
    (g : Grid v) :
    0 ≤ rnd (rnd (v * d) * h) ∧ rnd (rnd (v * d) * h) ≤ 2 * v ∧
    -v ≤ decay d h v ∧ decay d h v ≤ v := by
  have hvd : 0 ≤ v * d := mul_nonneg hv hd.le
  have y0 : 0 ≤ rnd (v * d) := rnd_nonneg _ hvd
  have y1 : rnd (v * d) ≤ 2 * (v * d) := rnd_le_two_mul _ hvd
  have yh0 : 0 ≤ rnd (v * d) * h := mul_nonneg y0 hh.le
  have yh1 : rnd (v * d) * h ≤ 2 * v := by
    calc rnd (v * d) * h ≤ 2 * (v * d) * h := mul_le_mul_of_nonneg_right y1 hh.le
      _ = 2 * v * (d * h) := by ring
      _ ≤ 2 * v * 1 := mul_le_mul_of_nonneg_left hdh (by linarith)
      _ = 2 * v := by ring
  have x0 : 0 ≤ rnd (rnd (v * d) * h) := rnd_nonneg _ yh0
  have x1 : rnd (rnd (v * d) * h) ≤ 2 * v := rnd_le_of_le_grid _ _ yh1 (grid_two_mul v g)
  refine ⟨x0, x1, ?_, ?_⟩
  · exact le_rnd_of_grid_le _ _ (by linarith) (grid_neg v g)
  · exact rnd_le_of_le_grid _ _ (by linarith) g

/-- With `0 < damper * dt ≤ 1` the magnitude of the velocity does not increase. -/
theorem abs_decay_le (d h v : ℚ) (hd : 0 < d) (hh : 0 < h) (hdh : d * h ≤ 1) (g : Grid v) :
    |decay d h v| ≤ |v| := by
  rcases le_or_lt 0 v with hv | hv
  · obtain ⟨-, -, h1, h2⟩ := decay_bounds d h v hd hh hdh hv g
    rw [abs_of_nonneg hv, abs_le]
    exact ⟨h1, h2⟩
  · obtain ⟨-, -, h1, h2⟩ := decay_bounds d h (-v) hd hh hdh (by linarith) (grid_neg v g)
    rw [decay_neg] at h1 h2
    rw [abs_of_neg hv, abs_le]
    constructor <;> linarith

/-- The intermediate results of the zero-input step are bounded by twice the velocity. -/
theorem abs_decay_steps (d h v : ℚ) (hd : 0 < d) (hh : 0 < h) (hdh : d * h ≤ 1)
    (g : Grid v) :
    |rnd (v * d)| ≤ 2 * (|v| * d) ∧ |rnd (rnd (v * d) * h)| ≤ 2 * |v| := by
  constructor
  · have := abs_rnd_le_two_mul (v * d)
    rwa [abs_mul, abs_of_pos hd] at this
  · rcases le_or_lt 0 v with hv | hv
    · obtain ⟨h1, h2, -, -⟩ := decay_bounds d h v hd hh hdh hv g
      rw [abs_of_nonneg hv, abs_of_nonneg h1]
      exact h2
    · obtain ⟨h1, h2, -, -⟩ := decay_bounds d h (-v) hd hh hdh (by linarith) (grid_neg v g)
      rw [neg_mul, rnd_neg, neg_mul, rnd_neg] at h1 h2
      rw [abs_of_neg hv, abs_of_nonpos (by linarith)]
      linarith

/-- In the normal range, with `2 ^ (-51) ≤ damper * dt ≤ 1`, the magnitude of the velocity
decreases. -/
theorem abs_decay_lt_of_pos (d h v : ℚ) (hd : 0 < d) (hh : 0 < h)
    (hl : (2 : ℚ) ^ (-51 : ℤ) ≤ d * h) (hdh : d * h ≤ 1)
    (hv : (2 : ℚ) ^ (-1022 : ℤ) ≤ v) (hvd : (2 : ℚ) ^ (-1022 : ℤ) ≤ v * d) (g : Grid v) :
    |decay d h v| < v := by
  have hv0 : 0 < v := lt_of_lt_of_le (by positivity) hv
  have hva : |v| = v := abs_of_pos hv0
  have hu := ulp_pos v
  -- the unit of `v` is small against `v`
  have u1 : ulp v ≤ (2 : ℚ) ^ (-52 : ℤ) * v := by
    have := ulp_le_of_normal v (by rw [hva]; exact hv)
    rwa [hva] at this
  have u2 : v < (2 : ℚ) ^ (53 : ℤ) * ulp v := by
    have := abs_div_ulp_lt v
    rw [abs_div, abs_of_pos hu, hva, div_lt_iff₀ hu] at this
    exact this
  -- `v` is a multiple of its unit
  have hb : (2 : ℚ) ^ binade v ≤ |v| ∨ binade v = -1022 := by
    by_cases hbb : binade v = -1022
    · exact Or.inr hbb
    · exact Or.inl (two_zpow_binade_le v hv0.ne' hbb)
  obtain ⟨j, hj⟩ := grid_multiple v (binade v) g hb
  have hue : ulp v = (2 : ℚ) ^ (binade v - 52) := rfl
  rw [← hue] at hj
  have hbk : -1074 ≤ binade v - 52 := by have := binade_ge v; omega
  have hj1 : (0 : ℚ) < j := by
    by_contra hc
    have : (j : ℚ) * ulp v ≤ 0 := mul_nonpos_of_nonpos_of_nonneg (not_lt.mp hc) hu.le
    linarith
  have hj2 : (j : ℚ) < (2 : ℚ) ^ (53 : ℤ) := by
    have u3 : (j : ℚ) * ulp v < (2 : ℚ) ^ (53 : ℤ) * ulp v := by
      rw [← hj]; exact u2
    exact lt_of_mul_lt_mul_right u3 hu.le
  have hj1z : 0 < j := by exact_mod_cast hj1
  have hj2z : j < 2 ^ 53 := by
    have : (j : ℚ) < ((2 ^ 53 : ℤ) : ℚ) := by push_cast; norm_num at hj2 ⊢; exact hj2
    exact_mod_cast this
  have gu : Grid (ulp v) := grid_two_zpow _ hbk
  have gpred : Grid (v - ulp v) := by
    have e : v - ulp v = ((j - 1 : ℤ) : ℚ) * (2 : ℚ) ^ (binade v - 52) := by
      rw [← hue]; push_cast; rw [sub_mul, one_mul, ← hj]
    rw [e]
    exact grid_of_abs_le _ _ (by rw [abs_of_nonneg (by omega)]; omega) hbk
  have gsucc : Grid (v + ulp v) := by
    have e : v + ulp v = ((j + 1 : ℤ) : ℚ) * (2 : ℚ) ^ (binade v - 52) := by
      rw [← hue]; push_cast; rw [add_mul, one_mul, ← hj]
    rw [e]
    exact grid_of_abs_le _ _ (by rw [abs_of_nonneg (by omega)]; omega) hbk
  -- the product `v * d` rounds with a small relative error
  have hvd0 : 0 < v * d := mul_pos hv0 hd
  have r1 := abs_le.mp (abs_rnd_sub_le_rel (v * d) (by rw [abs_of_pos hvd0]; exact hvd))
  rw [abs_of_pos hvd0] at r1
  have e53 : (2 : ℚ) ^ (-53 : ℤ) = 1 / 9007199254740992 := by norm_num
  have e52 : (2 : ℚ) ^ (-52 : ℤ) = 1 / 4503599627370496 := by norm_num
  have e51 : (2 : ℚ) ^ (-51 : ℤ) = 1 / 2251799813685248 := by norm_num
  have p53 : (2 : ℚ) ^ (53 : ℤ) = 9007199254740992 := by norm_num
  rw [e53] at r1
  rw [e52] at u1
  rw [e51] at hl
  rw [p53] at u2
  have hvdh : 0 < v * (d * h) := mul_pos hv0 (mul_pos hd hh)
  -- bounds on `rnd (v * d) * h`
  have lo : ulp v ≤ rnd (v * d) * h := by
    have h1 : v * d * (1 - 1 / 9007199254740992) ≤ rnd (v * d) := by linarith [r1.1]
    have h2 : v * d * (1 - 1 / 9007199254740992) * h ≤ rnd (v * d) * h :=
      mul_le_mul_of_nonneg_right h1 hh.le
    have h3 : v * (d * h) * (1 - 1 / 9007199254740992) =
        v * d * (1 - 1 / 9007199254740992) * h := by ring
    have h4 : v * (1 / 2251799813685248) ≤ v * (d * h) :=
      mul_le_mul_of_nonneg_left hl hv0.le
    nlinarith
  have hi : rnd (v * d) * h ≤ v + ulp v := by
    have h1 : rnd (v * d) ≤ v * d * (1 + 1 / 9007199254740992) := by linarith [r1.2]
    have h2 : rnd (v * d) * h ≤ v * d * (1 + 1 / 9007199254740992) * h :=
      mul_le_mul_of_nonneg_right h1 hh.le
    have h3 : v * (d * h) * (1 + 1 / 9007199254740992) =
        v * d * (1 + 1 / 9007199254740992) * h := by ring
    have h4 : v * (d * h) ≤ v * 1 := mul_le_mul_of_nonneg_left hdh hv0.le
    nlinarith
  have x1 : ulp v ≤ rnd (rnd (v * d) * h) := le_rnd_of_grid_le _ _ lo gu
  have x2 : rnd (rnd (v * d) * h) ≤ v + ulp v := rnd_le_of_le_grid _ _ hi gsucc
  have w1 : decay d h v ≤ v - ulp v := rnd_le_of_le_grid _ _ (by linarith) gpred
  have w2 : -ulp v ≤ decay d h v := le_rnd_of_grid_le _ _ (by linarith) (grid_neg _ gu)
  rw [abs_lt]
  constructor <;> nlinarith

/-- In the normal range, with `2 ^ (-51) ≤ damper * dt ≤ 1`, the magnitude of the velocity
decreases. -/
theorem abs_decay_lt (d h v : ℚ) (hd : 0 < d) (hh : 0 < h)
    (hl : (2 : ℚ) ^ (-51 : ℤ) ≤ d * h) (hdh : d * h ≤ 1)
    (hv : (2 : ℚ) ^ (-1022 : ℤ) ≤ |v|) (hvd : (2 : ℚ) ^ (-1022 : ℤ) ≤ |v| * d) (g : Grid v) :
    |decay d h v| < |v| := by
  rcases le_or_lt 0 v with h0 | h0
  · rw [abs_of_nonneg h0] at hv hvd ⊢
    exact abs_decay_lt_of_pos d h v hd hh hl hdh hv hvd g
  · rw [abs_of_neg h0] at hv hvd ⊢
    have := abs_decay_lt_of_pos d h (-v) hd hh hl hdh hv hvd (grid_neg v g)
    rwa [decay_neg, abs_neg] at this

/-! ## Zero input: ticks (C7) -/

theorem instVelocity_zero (h : ℚ) : instVelocity 0 (fin h) = fin 0 := by
  unfold instVelocity
  by_cases h0 : h = 0
  · subst h0; simp [div_fin_zero]
  · rw [ofInt_zero, fin_div_fin _ _ h0, zero_div, round64_zero, NoNaN_fin]

/-- The zero-input integration of the velocity of one axis, when no operation overflows. -/
theorem axis_zero_of_bounds (d a v h : ℚ)
    (b1 : |rnd (v * d)| < (2 : ℚ) ^ (1024 : ℕ))
    (b2 : |rnd (rnd (v * d) * h)| < (2 : ℚ) ^ (1024 : ℕ))
    (b3 : |decay d h v| < (2 : ℚ) ^ (1024 : ℕ)) :
    fin v + (instVelocity 0 (fin h) * fin a - fin v * fin d) * fin h = fin (decay d h v) := by
  have e1 : fin 0 * fin a = fin 0 := by rw [fin_mul_fin, zero_mul, round64_zero]
  have e2 : fin v * fin d = fin (rnd (v * d)) := by
    rw [fin_mul_fin, round64_of_abs_lt _ b1]
  have e3 : fin 0 - fin (rnd (v * d)) = fin (-rnd (v * d)) := by
    rw [fin_sub_fin, zero_sub]
    exact round64_of_grid _ (grid_neg _ (grid_rnd _)) (by rw [abs_neg]; exact b1)
  have e4 : fin (-rnd (v * d)) * fin h = fin (-rnd (rnd (v * d) * h)) := by
    rw [fin_mul_fin, neg_mul, round64_of_abs_lt _ (by rw [rnd_neg, abs_neg]; exact b2), rnd_neg]
  have e5 : fin v + fin (-rnd (rnd (v * d) * h)) = fin (decay d h v) := by
    rw [fin_add_fin, ← sub_eq_add_neg]
    exact round64_of_abs_lt _ b3
  rw [instVelocity_zero, e1, e2, e3, e4, e5]

/-- The zero-input integration of the velocity of one axis with `0 < damper * dt ≤ 1`. -/
theorem axis_zero (d a v h : ℚ) (hd : 0 < d) (hh : 0 < h) (hdh : d * h ≤ 1) (g : Grid v)
    (bv : |v| < (2 : ℚ) ^ (1023 : ℕ)) (bvd : |v| * d < (2 : ℚ) ^ (1023 : ℕ)) :
    fin v + (instVelocity 0 (fin h) * fin a - fin v * fin d) * fin h = fin (decay d h v) := by
  obtain ⟨s1, s2⟩ := abs_decay_steps d h v hd hh hdh g
  have s3 := abs_decay_le d h v hd hh hdh g
  have e : (2 : ℚ) ^ (1024 : ℕ) = 2 * (2 : ℚ) ^ (1023 : ℕ) := by norm_num
  have p : (0 : ℚ) < (2 : ℚ) ^ (1023 : ℕ) := by positivity
  apply axis_zero_of_bounds
  · rw [e]; linarith
  · rw [e]; linarith
  · rw [e]; linarith

/-- The flag and the stored velocity of a tick whose integrated velocity is finite. -/
theorem tick_velocity (c : Config) (s : EngineState) (inp : POINT) (dt : Dbl) (t wx wy : ℚ)
    (ht : c.vel_threshold = fin t) (ex : (integrate c s inp dt).vx = fin wx)
    (ey : (integrate c s inp dt).vy = fin wy) :
    (CalcMouseTrace c s inp dt).2.2 = decide (|wx| < t ∧ |wy| < t) ∧
    (CalcMouseTrace c s inp dt).1.vx = fin (if |wx| < t ∧ |wy| < t then 0 else wx) ∧
    (CalcMouseTrace c s inp dt).1.vy = fin (if |wx| < t ∧ |wy| < t then 0 else wy) := by
  have hf : (CalcMouseTrace c s inp dt).2.2 = decide (|wx| < t ∧ |wy| < t) := by
    rw [CalcMouseTrace_flag, ex, ey, ht, fabs_fin, fabs_fin, lt_fin_fin, lt_fin_fin,
      Bool.decide_and]
  refine ⟨hf, ?_, ?_⟩
  · rw [CalcMouseTrace_state, hf]
    by_cases hc : |wx| < t ∧ |wy| < t
    · rw [if_pos (decide_eq_true hc), if_pos hc]
    · rw [if_neg (by simpa using hc), if_neg hc]
      exact ex
  · rw [CalcMouseTrace_state, hf]
    by_cases hc : |wx| < t ∧ |wy| < t
    · rw [if_pos (decide_eq_true hc), if_pos hc]
    · rw [if_neg (by simpa using hc), if_neg hc]
      exact ey

theorem settled_state (c : Config) (s : EngineState) (inp : POINT) (dt : Dbl)
    (h : (CalcMouseTrace c s inp dt).2.2 = true) :
    (CalcMouseTrace c s inp dt).1 = EngineState.rest := by
  rw [CalcMouseTrace_state, if_pos h]
  rfl

theorem zeroTicks_shift (c : Config) (dt : Dbl) (s : EngineState) (n : Nat) :
    zeroTicks c dt s (n + 1) = zeroTicks c dt (CalcMouseTrace c s ⟨0, 0⟩ dt).1 n := by
  induction n with
  | zero => rfl
  | succ n ih =>
    show (CalcMouseTrace c (zeroTicks c dt s (n + 1)) ⟨0, 0⟩ dt).1 = _
    rw [ih]
    rfl

theorem zeroTicks_rest (d a t h : ℚ) (ht : 0 < t) (n : Nat) :
    zeroTicks ⟨fin d, fin a, fin t⟩ (fin h) EngineState.rest n = EngineState.rest := by
  induction n with
  | zero => rfl
  | succ n ih =>
    show (CalcMouseTrace _ (zeroTicks _ _ _ n) ⟨0, 0⟩ (fin h)).1 = _
    rw [ih, rest_tick d a t h ht]

/-- Once a zero-input tick is settled, every later one is. -/
theorem settled_forever (d a t h : ℚ) (ht : 0 < t) (s : EngineState) (N : Nat)
    (hN : (CalcMouseTrace ⟨fin d, fin a, fin t⟩
      (zeroTicks ⟨fin d, fin a, fin t⟩ (fin h) s N) ⟨0, 0⟩ (fin h)).2.2 = true) :
    ∀ n : Nat, N ≤ n →
      (CalcMouseTrace ⟨fin d, fin a, fin t⟩
        (zeroTicks ⟨fin d, fin a, fin t⟩ (fin h) s n) ⟨0, 0⟩ (fin h)).2.2 = true := by
  have hrest : ∀ k : Nat,
      zeroTicks ⟨fin d, fin a, fin t⟩ (fin h) s (N + 1 + k) = EngineState.rest := by
    intro k
    induction k with
    | zero => exact settled_state _ _ _ _ hN
    | succ k ih =>
      show (CalcMouseTrace _ (zeroTicks _ _ _ (N + 1 + k)) ⟨0, 0⟩ (fin h)).1 = _
      rw [ih, rest_tick d a t h ht]
  intro n hn
  rcases Nat.eq_or_lt_of_le hn with h1 | h1
  · rw [← h1]; exact hN
  · obtain ⟨k, rfl⟩ : ∃ k, n = N + 1 + k := ⟨n - (N + 1), by omega⟩
    rw [hrest k, rest_tick d a t h ht]

/-- The magnitude of a grid value is a natural multiple of `2 ^ (-1074)`. -/
theorem grid_natAbs (q : ℚ) (g : Grid q) : ∃ n : ℕ, |q| = (n : ℚ) * (2 : ℚ) ^ (-1074 : ℤ) := by
  obtain ⟨j, hj⟩ := grid_multiple q (-1022) g (Or.inr rfl)
  refine ⟨j.natAbs, ?_⟩
  have e : ((-1022 : ℤ) - 52) = -1074 := by norm_num
  rw [e] at hj
  rw [hj, abs_mul, abs_of_pos (by positivity : (0 : ℚ) < (2 : ℚ) ^ (-1074 : ℤ))]
  congr 1
  rw [← Int.cast_abs, ← Int.natCast_natAbs, Int.cast_natCast]

/-- The zero-input velocity after one tick, in the regime `0 < damper * dt ≤ 1`. -/
theorem zero_tick (d a t h ux uy : ℚ) (rx ry : Dbl) (hd : 0 < d) (hh : 0 < h)
    (hdh : d * h ≤ 1) (gx : Grid ux) (gy : Grid uy)
    (bx : |ux| < (2 : ℚ) ^ (1023 : ℕ)) (bxd : |ux| * d < (2 : ℚ) ^ (1023 : ℕ))
    (by1 : |uy| < (2 : ℚ) ^ (1023 : ℕ)) (byd : |uy| * d < (2 : ℚ) ^ (1023 : ℕ)) :
    (CalcMouseTrace ⟨fin d, fin a, fin t⟩ ⟨fin ux, fin uy, rx, ry⟩ ⟨0, 0⟩ (fin h)).2.2 =
      decide (|decay d h ux| < t ∧ |decay d h uy| < t) ∧
    (CalcMouseTrace ⟨fin d, fin a, fin t⟩ ⟨fin ux, fin uy, rx, ry⟩ ⟨0, 0⟩ (fin h)).1.vx =
      fin (if |decay d h ux| < t ∧ |decay d h uy| < t then 0 else decay d h ux) ∧
    (CalcMouseTrace ⟨fin d, fin a, fin t⟩ ⟨fin ux, fin uy, rx, ry⟩ ⟨0, 0⟩ (fin h)).1.vy =
      fin (if |decay d h ux| < t ∧ |decay d h uy| < t then 0 else decay d h uy) := by
  apply tick_velocity _ _ _ _ t _ _ rfl
  · rw [integrate_vx]
    exact axis_zero d a ux h hd hh hdh gx bx bxd
  · rw [integrate_vy]
    exact axis_zero d a uy h hd hh hdh gy by1 byd

/-- The zero-input velocity stays finite, on the grid and bounded by the starting one. -/
theorem zeroTicks_invariant (d a t h vx vy : ℚ) (rx ry : Dbl) (hd : 0 < d) (hh : 0 < h)
    (hdh : d * h ≤ 1) (gx : Grid vx) (gy : Grid vy) (n : Nat) :
    (|vx| < (2 : ℚ) ^ (1023 : ℕ)) → (|vx| * d < (2 : ℚ) ^ (1023 : ℕ)) →
    (|vy| < (2 : ℚ) ^ (1023 : ℕ)) → (|vy| * d < (2 : ℚ) ^ (1023 : ℕ)) →
    ∃ ux uy : ℚ,
      (zeroTicks ⟨fin d, fin a, fin t⟩ (fin h) ⟨fin vx, fin vy, rx, ry⟩ n).vx = fin ux ∧
      (zeroTicks ⟨fin d, fin a, fin t⟩ (fin h) ⟨fin vx, fin vy, rx, ry⟩ n).vy = fin uy ∧
      Grid ux ∧ Grid uy ∧ |ux| ≤ |vx| ∧ |uy| ≤ |vy| := by
  intro bx bxd by1 byd
  induction n with
  | zero => exact ⟨vx, vy, rfl, rfl, gx, gy, le_refl _, le_refl _⟩
  | succ n ih =>
    obtain ⟨ux, uy, e1, e2, g1, g2, l1, l2⟩ := ih
    rcases hS : zeroTicks ⟨fin d, fin a, fin t⟩ (fin h) ⟨fin vx, fin vy, rx, ry⟩ n with
      ⟨s1, s2, s3, s4⟩
    rw [hS] at e1 e2
    simp only at e1 e2
    subst e1 e2
    have c1 : |ux| * d ≤ |vx| * d := mul_le_mul_of_nonneg_right l1 hd.le
    have c2 : |uy| * d ≤ |vy| * d := mul_le_mul_of_nonneg_right l2 hd.le
    obtain ⟨-, k1, k2⟩ := zero_tick d a t h ux uy s3 s4 hd hh hdh g1 g2
      (lt_of_le_of_lt l1 bx) (lt_of_le_of_lt c1 bxd) (lt_of_le_of_lt l2 by1)
      (lt_of_le_of_lt c2 byd)
    have a1 := abs_decay_le d h ux hd hh hdh g1
    have a2 := abs_decay_le d h uy hd hh hdh g2
    refine ⟨if |decay d h ux| < t ∧ |decay d h uy| < t then 0 else decay d h ux,
      if |decay d h ux| < t ∧ |decay d h uy| < t then 0 else decay d h uy,
      ?_, ?_, ?_, ?_, ?_, ?_⟩
    · show (CalcMouseTrace _ (zeroTicks _ _ _ n) ⟨0, 0⟩ (fin h)).1.vx = _
      rw [hS]; exact k1
    · show (CalcMouseTrace _ (zeroTicks _ _ _ n) ⟨0, 0⟩ (fin h)).1.vy = _
      rw [hS]; exact k2
    · split
      · exact grid_zero
      · exact grid_rnd _
    · split
      · exact grid_zero
      · exact grid_rnd _
    · split
      · rw [abs_zero]; exact abs_nonneg _
      · exact le_trans a1 l1
    · split
      · rw [abs_zero]; exact abs_nonneg _
      · exact le_trans a2 l2

/-- A zero-input sequence settles: by induction on the velocity in units of `2 ^ (-1074)`. -/
theorem zero_input_settles (d a t h : ℚ) (hd : 0 < d) (hh : 0 < h)
    (hl : (2 : ℚ) ^ (-51 : ℤ) ≤ d * h) (hdh : d * h ≤ 1)
    (ht : (2 : ℚ) ^ (-1022 : ℤ) ≤ t) (htd : (2 : ℚ) ^ (-1022 : ℤ) ≤ t * d) (M : ℕ) :
    ∀ (vx vy : ℚ) (rx ry : Dbl), Grid vx → Grid vy →
      |vx| < (2 : ℚ) ^ (1023 : ℕ) → |vx| * d < (2 : ℚ) ^ (1023 : ℕ) →
      |vy| < (2 : ℚ) ^ (1023 : ℕ) → |vy| * d < (2 : ℚ) ^ (1023 : ℕ) →
      |vx| + |vy| ≤ (M : ℚ) * (2 : ℚ) ^ (-1074 : ℤ) →
      ∃ N : Nat,
        (CalcMouseTrace ⟨fin d, fin a, fin t⟩
          (zeroTicks ⟨fin d, fin a, fin t⟩ (fin h) ⟨fin vx, fin vy, rx, ry⟩ N)
          ⟨0, 0⟩ (fin h)).2.2 = true := by
  have hp : (0 : ℚ) < (2 : ℚ) ^ (-1074 : ℤ) := by positivity
  -- one unsettled tick lowers the measure
  have key : ∀ (vx vy : ℚ), Grid vx → Grid vy →
      ¬ (|decay d h vx| < t ∧ |decay d h vy| < t) →
      |decay d h vx| + |decay d h vy| < |vx| + |vy| := by
    intro vx vy gx gy hc
    have a1 := abs_decay_le d h vx hd hh hdh gx
    have a2 := abs_decay_le d h vy hd hh hdh gy
    rw [not_and_or, not_lt, not_lt] at hc
    rcases hc with hc | hc
    · have h1 : (2 : ℚ) ^ (-1022 : ℤ) ≤ |vx| := le_trans ht (le_trans hc a1)
      have h2 : (2 : ℚ) ^ (-1022 : ℤ) ≤ |vx| * d :=
        le_trans htd (mul_le_mul_of_nonneg_right (le_trans hc a1) hd.le)
      have := abs_decay_lt d h vx hd hh hl hdh h1 h2 gx
      linarith
    · have h1 : (2 : ℚ) ^ (-1022 : ℤ) ≤ |vy| := le_trans ht (le_trans hc a2)
      have h2 : (2 : ℚ) ^ (-1022 : ℤ) ≤ |vy| * d :=
        le_trans htd (mul_le_mul_of_nonneg_right (le_trans hc a2) hd.le)
      have := abs_decay_lt d h vy hd hh hl hdh h1 h2 gy
      linarith
  induction M with
  | zero =>
    intro vx vy rx ry gx gy bx bxd by1 byd hm
    refine ⟨0, ?_⟩
    show (CalcMouseTrace _ ⟨fin vx, fin vy, rx, ry⟩ ⟨0, 0⟩ (fin h)).2.2 = true
    rw [(zero_tick d a t h vx vy rx ry hd hh hdh gx gy bx bxd by1 byd).1, decide_eq_true_iff]
    by_contra hc
    have := key vx vy gx gy hc
    have n1 := abs_nonneg (decay d h vx)
    have n2 := abs_nonneg (decay d h vy)
    simp only [Nat.cast_zero, zero_mul] at hm
    linarith
  | succ M ih =>
    intro vx vy rx ry gx gy bx bxd by1 byd hm
    by_cases hc : |decay d h vx| < t ∧ |decay d h vy| < t
    · refine ⟨0, ?_⟩
      show (CalcMouseTrace _ ⟨fin vx, fin vy, rx, ry⟩ ⟨0, 0⟩ (fin h)).2.2 = true
      rw [(zero_tick d a t h vx vy rx ry hd hh hdh gx gy bx bxd by1 byd).1]
      exact decide_eq_true hc
    · obtain ⟨-, k1, k2⟩ := zero_tick d a t h vx vy rx ry hd hh hdh gx gy bx bxd by1 byd
      rw [if_neg hc] at k1 k2
      have a1 := abs_decay_le d h vx hd hh hdh gx
      have a2 := abs_decay_le d h vy hd hh hdh gy
      have hlt := key vx vy gx gy hc
      obtain ⟨n1, e1⟩ := grid_natAbs (decay d h vx) (grid_rnd _)
      obtain ⟨n2, e2⟩ := grid_natAbs (decay d h vy) (grid_rnd _)
      have hm2 : |decay d h vx| + |decay d h vy| ≤ (M : ℚ) * (2 : ℚ) ^ (-1074 : ℤ) := by
        rw [e1, e2, ← add_mul]
        apply mul_le_mul_of_nonneg_right _ hp.le
        have h3 : ((n1 : ℚ) + n2) * (2 : ℚ) ^ (-1074 : ℤ) <
            ((M + 1 : ℕ) : ℚ) * (2 : ℚ) ^ (-1074 : ℤ) := by
          rw [add_mul, ← e1, ← e2]
          exact lt_of_lt_of_le hlt hm
        have h4 : ((n1 : ℚ) + n2) < ((M + 1 : ℕ) : ℚ) := lt_of_mul_lt_mul_right h3 hp.le
        have h5 : n1 + n2 < M + 1 := by exact_mod_cast h4
        have h6 : n1 + n2 ≤ M := by omega
        exact_mod_cast h6
      rcases hS : (CalcMouseTrace ⟨fin d, fin a, fin t⟩ ⟨fin vx, fin vy, rx, ry⟩ ⟨0, 0⟩
        (fin h)).1 with ⟨s1, s2, s3, s4⟩
      rw [hS] at k1 k2
      simp only at k1 k2
      subst k1 k2
      have c1 : |decay d h vx| * d ≤ |vx| * d := mul_le_mul_of_nonneg_right a1 hd.le
      have c2 : |decay d h vy| * d ≤ |vy| * d := mul_le_mul_of_nonneg_right a2 hd.le
      obtain ⟨N, hN⟩ := ih (decay d h vx) (decay d h vy) s3 s4 (grid_rnd _) (grid_rnd _)
        (lt_of_le_of_lt a1 bx) (lt_of_le_of_lt c1 bxd) (lt_of_le_of_lt a2 by1)
        (lt_of_le_of_lt c2 byd) hm2
      refine ⟨N + 1, ?_⟩
      rw [zeroTicks_shift, hS]
      exact hN

/-! ## The zero-input steps of the scenario of the specification, evaluated -/

theorem halving_decay_0 :
    rnd ((500 : ℚ) * 5) = 2500 ∧ rnd ((2500 : ℚ) * tenth) = 250 ∧
    decay 5 tenth 500 = 250 := by
  unfold tenth
  have a1r : round64 ((500 : ℚ) * 5) = fin 2500 := by
    have h := round64_eq ((500 : ℚ) * 5) (11) (5497558138880000)
      (by rw [abs_of_nonneg (by norm_num)]; norm_num)
      (by rw [abs_of_nonneg (by norm_num)]; norm_num)
      (by norm_num)
      (by rw [abs_lt]; constructor <;> norm_num)
      (by rw [abs_of_nonneg (by norm_num)]; norm_num)
    rw [h]; norm_num
  have a1 : rnd ((500 : ℚ) * 5) = 2500 := (round64_eq_fin _ _ a1r).1.symm
  have a2r : round64 ((2500 : ℚ) * (3602879701896397 / 36028797018963968)) = fin 250 := by
    have h := round64_eq ((2500 : ℚ) * (3602879701896397 / 36028797018963968)) (7)
        (8796093022208000)
      (by rw [abs_of_nonneg (by norm_num)]; norm_num)
      (by rw [abs_of_nonneg (by norm_num)]; norm_num)
      (by norm_num)
      (by rw [abs_lt]; constructor <;> norm_num)
      (by rw [abs_of_nonneg (by norm_num)]; norm_num)
    rw [h]; norm_num
  have a2 : rnd ((2500 : ℚ) * (3602879701896397 / 36028797018963968)) = 250 := (round64_eq_fin _ _
      a2r).1.symm
  have a3r : round64 ((500 : ℚ) - 250) = fin 250 := by
    have h := round64_eq ((500 : ℚ) - 250) (7) (8796093022208000)
      (by rw [abs_of_nonneg (by norm_num)]; norm_num)
      (by rw [abs_of_nonneg (by norm_num)]; norm_num)
      (by norm_num)
      (by rw [abs_lt]; constructor <;> norm_num)
      (by rw [abs_of_nonneg (by norm_num)]; norm_num)
    rw [h]; norm_num
  have a3 : rnd ((500 : ℚ) - 250) = 250 := (round64_eq_fin _ _ a3r).1.symm
  refine ⟨a1, a2, ?_⟩
  unfold decay
  rw [a1, a2, a3]

theorem halving_decay_1 :
    rnd ((250 : ℚ) * 5) = 1250 ∧ rnd ((1250 : ℚ) * tenth) = 125 ∧
    decay 5 tenth 250 = 125 := by
  unfold tenth
  have a1r : round64 ((250 : ℚ) * 5) = fin 1250 := by
    have h := round64_eq ((250 : ℚ) * 5) (10) (5497558138880000)
      (by rw [abs_of_nonneg (by norm_num)]; norm_num)
      (by rw [abs_of_nonneg (by norm_num)]; norm_num)
      (by norm_num)
      (by rw [abs_lt]; constructor <;> norm_num)
      (by rw [abs_of_nonneg (by norm_num)]; norm_num)
    rw [h]; norm_num
  have a1 : rnd ((250 : ℚ) * 5) = 1250 := (round64_eq_fin _ _ a1r).1.symm
  have a2r : round64 ((1250 : ℚ) * (3602879701896397 / 36028797018963968)) = fin 125 := by
    have h := round64_eq ((1250 : ℚ) * (3602879701896397 / 36028797018963968)) (6)
        (8796093022208000)
      (by rw [abs_of_nonneg (by norm_num)]; norm_num)
      (by rw [abs_of_nonneg (by norm_num)]; norm_num)
      (by norm_num)
      (by rw [abs_lt]; constructor <;> norm_num)
      (by rw [abs_of_nonneg (by norm_num)]; norm_num)
    rw [h]; norm_num
  have a2 : rnd ((1250 : ℚ) * (3602879701896397 / 36028797018963968)) = 125 := (round64_eq_fin _ _
      a2r).1.symm
  have a3r : round64 ((250 : ℚ) - 125) = fin 125 := by
    have h := round64_eq ((250 : ℚ) - 125) (6) (8796093022208000)
      (by rw [abs_of_nonneg (by norm_num)]; norm_num)
      (by rw [abs_of_nonneg (by norm_num)]; norm_num)
      (by norm_num)
      (by rw [abs_lt]; constructor <;> norm_num)
      (by rw [abs_of_nonneg (by norm_num)]; norm_num)
    rw [h]; norm_num
  have a3 : rnd ((250 : ℚ) - 125) = 125 := (round64_eq_fin _ _ a3r).1.symm
  refine ⟨a1, a2, ?_⟩
  unfold decay
  rw [a1, a2, a3]

theorem halving_decay_2 :
    rnd ((125 : ℚ) * 5) = 625 ∧ rnd ((625 : ℚ) * tenth) = (125 / 2) ∧
    decay 5 tenth 125 = (125 / 2) := by
  unfold tenth
  have a1r : round64 ((125 : ℚ) * 5) = fin 625 := by
    have h := round64_eq ((125 : ℚ) * 5) (9) (5497558138880000)
      (by rw [abs_of_nonneg (by norm_num)]; norm_num)
      (by rw [abs_of_nonneg (by norm_num)]; norm_num)
      (by norm_num)
      (by rw [abs_lt]; constructor <;> norm_num)
      (by rw [abs_of_nonneg (by norm_num)]; norm_num)
    rw [h]; norm_num
  have a1 : rnd ((125 : ℚ) * 5) = 625 := (round64_eq_fin _ _ a1r).1.symm
  have a2r : round64 ((625 : ℚ) * (3602879701896397 / 36028797018963968)) = fin (125 / 2) := by
    have h := round64_eq ((625 : ℚ) * (3602879701896397 / 36028797018963968)) (5) (8796093022208000)
      (by rw [abs_of_nonneg (by norm_num)]; norm_num)
      (by rw [abs_of_nonneg (by norm_num)]; norm_num)
      (by norm_num)
      (by rw [abs_lt]; constructor <;> norm_num)
      (by rw [abs_of_nonneg (by norm_num)]; norm_num)
    rw [h]; norm_num
  have a2 : rnd ((625 : ℚ) * (3602879701896397 / 36028797018963968)) = (125 / 2) := (round64_eq_fin
      _ _ a2r).1.symm
  have a3r : round64 ((125 : ℚ) - (125 / 2)) = fin (125 / 2) := by
    have h := round64_eq ((125 : ℚ) - (125 / 2)) (5) (8796093022208000)
      (by rw [abs_of_nonneg (by norm_num)]; norm_num)
      (by rw [abs_of_nonneg (by norm_num)]; norm_num)
      (by norm_num)
      (by rw [abs_lt]; constructor <;> norm_num)
      (by rw [abs_of_nonneg (by norm_num)]; norm_num)
    rw [h]; norm_num
  have a3 : rnd ((125 : ℚ) - (125 / 2)) = (125 / 2) := (round64_eq_fin _ _ a3r).1.symm
  refine ⟨a1, a2, ?_⟩
  unfold decay
  rw [a1, a2, a3]

theorem halving_decay_3 :
    rnd ((125 / 2 : ℚ) * 5) = (625 / 2) ∧ rnd ((625 / 2 : ℚ) * tenth) = (125 / 4) ∧
    decay 5 tenth (125 / 2) = (125 / 4) := by
  unfold tenth
  have a1r : round64 ((125 / 2 : ℚ) * 5) = fin (625 / 2) := by
    have h := round64_eq ((125 / 2 : ℚ) * 5) (8) (5497558138880000)
      (by rw [abs_of_nonneg (by norm_num)]; norm_num)
      (by rw [abs_of_nonneg (by norm_num)]; norm_num)
      (by norm_num)
      (by rw [abs_lt]; constructor <;> norm_num)
      (by rw [abs_of_nonneg (by norm_num)]; norm_num)
    rw [h]; norm_num
  have a1 : rnd ((125 / 2 : ℚ) * 5) = (625 / 2) := (round64_eq_fin _ _ a1r).1.symm
  have a2r : round64 ((625 / 2 : ℚ) * (3602879701896397 / 36028797018963968)) = fin (125 / 4) := by
    have h := round64_eq ((625 / 2 : ℚ) * (3602879701896397 / 36028797018963968)) (4)
        (8796093022208000)
      (by rw [abs_of_nonneg (by norm_num)]; norm_num)
      (by rw [abs_of_nonneg (by norm_num)]; norm_num)
      (by norm_num)
      (by rw [abs_lt]; constructor <;> norm_num)
      (by rw [abs_of_nonneg (by norm_num)]; norm_num)
    rw [h]; norm_num
  have a2 : rnd ((625 / 2 : ℚ) * (3602879701896397 / 36028797018963968)) = (125 / 4) :=
      (round64_eq_fin _ _ a2r).1.symm
  have a3r : round64 ((125 / 2 : ℚ) - (125 / 4)) = fin (125 / 4) := by
    have h := round64_eq ((125 / 2 : ℚ) - (125 / 4)) (4) (8796093022208000)
      (by rw [abs_of_nonneg (by norm_num)]; norm_num)
      (by rw [abs_of_nonneg (by norm_num)]; norm_num)
      (by norm_num)
      (by rw [abs_lt]; constructor <;> norm_num)
      (by rw [abs_of_nonneg (by norm_num)]; norm_num)
    rw [h]; norm_num
  have a3 : rnd ((125 / 2 : ℚ) - (125 / 4)) = (125 / 4) := (round64_eq_fin _ _ a3r).1.symm
  refine ⟨a1, a2, ?_⟩
  unfold decay
  rw [a1, a2, a3]

theorem halving_decay_4 :
    rnd ((125 / 4 : ℚ) * 5) = (625 / 4) ∧ rnd ((625 / 4 : ℚ) * tenth) = (125 / 8) ∧
    decay 5 tenth (125 / 4) = (125 / 8) := by
  unfold tenth
  have a1r : round64 ((125 / 4 : ℚ) * 5) = fin (625 / 4) := by
    have h := round64_eq ((125 / 4 : ℚ) * 5) (7) (5497558138880000)
      (by rw [abs_of_nonneg (by norm_num)]; norm_num)
      (by rw [abs_of_nonneg (by norm_num)]; norm_num)
      (by norm_num)
      (by rw [abs_lt]; constructor <;> norm_num)
      (by rw [abs_of_nonneg (by norm_num)]; norm_num)
    rw [h]; norm_num
  have a1 : rnd ((125 / 4 : ℚ) * 5) = (625 / 4) := (round64_eq_fin _ _ a1r).1.symm
  have a2r : round64 ((625 / 4 : ℚ) * (3602879701896397 / 36028797018963968)) = fin (125 / 8) := by
    have h := round64_eq ((625 / 4 : ℚ) * (3602879701896397 / 36028797018963968)) (3)
        (8796093022208000)
      (by rw [abs_of_nonneg (by norm_num)]; norm_num)
      (by rw [abs_of_nonneg (by norm_num)]; norm_num)
      (by norm_num)
      (by rw [abs_lt]; constructor <;> norm_num)
      (by rw [abs_of_nonneg (by norm_num)]; norm_num)
    rw [h]; norm_num
  have a2 : rnd ((625 / 4 : ℚ) * (3602879701896397 / 36028797018963968)) = (125 / 8) :=
      (round64_eq_fin _ _ a2r).1.symm
  have a3r : round64 ((125 / 4 : ℚ) - (125 / 8)) = fin (125 / 8) := by
    have h := round64_eq ((125 / 4 : ℚ) - (125 / 8)) (3) (8796093022208000)
      (by rw [abs_of_nonneg (by norm_num)]; norm_num)
      (by rw [abs_of_nonneg (by norm_num)]; norm_num)
      (by norm_num)
      (by rw [abs_lt]; constructor <;> norm_num)
      (by rw [abs_of_nonneg (by norm_num)]; norm_num)
    rw [h]; norm_num
  have a3 : rnd ((125 / 4 : ℚ) - (125 / 8)) = (125 / 8) := (round64_eq_fin _ _ a3r).1.symm
  refine ⟨a1, a2, ?_⟩
  unfold decay
  rw [a1, a2, a3]

theorem halving_decay_5 :
    rnd ((125 / 8 : ℚ) * 5) = (625 / 8) ∧ rnd ((625 / 8 : ℚ) * tenth) = (125 / 16) ∧
    decay 5 tenth (125 / 8) = (125 / 16) := by
  unfold tenth
  have a1r : round64 ((125 / 8 : ℚ) * 5) = fin (625 / 8) := by
    have h := round64_eq ((125 / 8 : ℚ) * 5) (6) (5497558138880000)
      (by rw [abs_of_nonneg (by norm_num)]; norm_num)
      (by rw [abs_of_nonneg (by norm_num)]; norm_num)
      (by norm_num)
      (by rw [abs_lt]; constructor <;> norm_num)
      (by rw [abs_of_nonneg (by norm_num)]; norm_num)
    rw [h]; norm_num
  have a1 : rnd ((125 / 8 : ℚ) * 5) = (625 / 8) := (round64_eq_fin _ _ a1r).1.symm
  have a2r : round64 ((625 / 8 : ℚ) * (3602879701896397 / 36028797018963968)) = fin (125 / 16) := by
    have h := round64_eq ((625 / 8 : ℚ) * (3602879701896397 / 36028797018963968)) (2)
        (8796093022208000)
      (by rw [abs_of_nonneg (by norm_num)]; norm_num)
      (by rw [abs_of_nonneg (by norm_num)]; norm_num)
      (by norm_num)
      (by rw [abs_lt]; constructor <;> norm_num)
      (by rw [abs_of_nonneg (by norm_num)]; norm_num)
    rw [h]; norm_num
  have a2 : rnd ((625 / 8 : ℚ) * (3602879701896397 / 36028797018963968)) = (125 / 16) :=
      (round64_eq_fin _ _ a2r).1.symm
  have a3r : round64 ((125 / 8 : ℚ) - (125 / 16)) = fin (125 / 16) := by
    have h := round64_eq ((125 / 8 : ℚ) - (125 / 16)) (2) (8796093022208000)
      (by rw [abs_of_nonneg (by norm_num)]; norm_num)
      (by rw [abs_of_nonneg (by norm_num)]; norm_num)
      (by norm_num)
      (by rw [abs_lt]; constructor <;> norm_num)
      (by rw [abs_of_nonneg (by norm_num)]; norm_num)
    rw [h]; norm_num
  have a3 : rnd ((125 / 8 : ℚ) - (125 / 16)) = (125 / 16) := (round64_eq_fin _ _ a3r).1.symm
  refine ⟨a1, a2, ?_⟩
  unfold decay
  rw [a1, a2, a3]

theorem halving_decay_6 :
    rnd ((125 / 16 : ℚ) * 5) = (625 / 16) ∧ rnd ((625 / 16 : ℚ) * tenth) = (125 / 32) ∧
    decay 5 tenth (125 / 16) = (125 / 32) := by
  unfold tenth
  have a1r : round64 ((125 / 16 : ℚ) * 5) = fin (625 / 16) := by
    have h := round64_eq ((125 / 16 : ℚ) * 5) (5) (5497558138880000)
      (by rw [abs_of_nonneg (by norm_num)]; norm_num)
      (by rw [abs_of_nonneg (by norm_num)]; norm_num)
      (by norm_num)
      (by rw [abs_lt]; constructor <;> norm_num)
      (by rw [abs_of_nonneg (by norm_num)]; norm_num)
    rw [h]; norm_num
  have a1 : rnd ((125 / 16 : ℚ) * 5) = (625 / 16) := (round64_eq_fin _ _ a1r).1.symm
  have a2r : round64 ((625 / 16 : ℚ) * (3602879701896397 / 36028797018963968)) = fin (125 / 32) :=
      by
    have h := round64_eq ((625 / 16 : ℚ) * (3602879701896397 / 36028797018963968)) (1)
        (8796093022208000)
      (by rw [abs_of_nonneg (by norm_num)]; norm_num)
      (by rw [abs_of_nonneg (by norm_num)]; norm_num)
      (by norm_num)
      (by rw [abs_lt]; constructor <;> norm_num)
      (by rw [abs_of_nonneg (by norm_num)]; norm_num)
    rw [h]; norm_num
  have a2 : rnd ((625 / 16 : ℚ) * (3602879701896397 / 36028797018963968)) = (125 / 32) :=
      (round64_eq_fin _ _ a2r).1.symm
  have a3r : round64 ((125 / 16 : ℚ) - (125 / 32)) = fin (125 / 32) := by
    have h := round64_eq ((125 / 16 : ℚ) - (125 / 32)) (1) (8796093022208000)
      (by rw [abs_of_nonneg (by norm_num)]; norm_num)
      (by rw [abs_of_nonneg (by norm_num)]; norm_num)
      (by norm_num)
      (by rw [abs_lt]; constructor <;> norm_num)
      (by rw [abs_of_nonneg (by norm_num)]; norm_num)
    rw [h]; norm_num
  have a3 : rnd ((125 / 16 : ℚ) - (125 / 32)) = (125 / 32) := (round64_eq_fin _ _ a3r).1.symm
  refine ⟨a1, a2, ?_⟩
  unfold decay
  rw [a1, a2, a3]

theorem halving_decay_7 :
    rnd ((125 / 32 : ℚ) * 5) = (625 / 32) ∧ rnd ((625 / 32 : ℚ) * tenth) = (125 / 64) ∧
    decay 5 tenth (125 / 32) = (125 / 64) := by
  unfold tenth
  have a1r : round64 ((125 / 32 : ℚ) * 5) = fin (625 / 32) := by
    have h := round64_eq ((125 / 32 : ℚ) * 5) (4) (5497558138880000)
      (by rw [abs_of_nonneg (by norm_num)]; norm_num)
      (by rw [abs_of_nonneg (by norm_num)]; norm_num)
      (by norm_num)
      (by rw [abs_lt]; constructor <;> norm_num)
      (by rw [abs_of_nonneg (by norm_num)]; norm_num)
    rw [h]; norm_num
  have a1 : rnd ((125 / 32 : ℚ) * 5) = (625 / 32) := (round64_eq_fin _ _ a1r).1.symm
  have a2r : round64 ((625 / 32 : ℚ) * (3602879701896397 / 36028797018963968)) = fin (125 / 64) :=
      by
    have h := round64_eq ((625 / 32 : ℚ) * (3602879701896397 / 36028797018963968)) (0)
        (8796093022208000)
      (by rw [abs_of_nonneg (by norm_num)]; norm_num)
      (by rw [abs_of_nonneg (by norm_num)]; norm_num)
      (by norm_num)
      (by rw [abs_lt]; constructor <;> norm_num)
      (by rw [abs_of_nonneg (by norm_num)]; norm_num)
    rw [h]; norm_num
  have a2 : rnd ((625 / 32 : ℚ) * (3602879701896397 / 36028797018963968)) = (125 / 64) :=
      (round64_eq_fin _ _ a2r).1.symm
  have a3r : round64 ((125 / 32 : ℚ) - (125 / 64)) = fin (125 / 64) := by
    have h := round64_eq ((125 / 32 : ℚ) - (125 / 64)) (0) (8796093022208000)
      (by rw [abs_of_nonneg (by norm_num)]; norm_num)
      (by rw [abs_of_nonneg (by norm_num)]; norm_num)
      (by norm_num)
      (by rw [abs_lt]; constructor <;> norm_num)
      (by rw [abs_of_nonneg (by norm_num)]; norm_num)
    rw [h]; norm_num
  have a3 : rnd ((125 / 32 : ℚ) - (125 / 64)) = (125 / 64) := (round64_eq_fin _ _ a3r).1.symm
  refine ⟨a1, a2, ?_⟩
  unfold decay
  rw [a1, a2, a3]

theorem halving_decay_8 :
    rnd ((125 / 64 : ℚ) * 5) = (625 / 64) ∧ rnd ((625 / 64 : ℚ) * tenth) = (125 / 128) ∧
    decay 5 tenth (125 / 64) = (125 / 128) := by
  unfold tenth
  have a1r : round64 ((125 / 64 : ℚ) * 5) = fin (625 / 64) := by
    have h := round64_eq ((125 / 64 : ℚ) * 5) (3) (5497558138880000)
      (by rw [abs_of_nonneg (by norm_num)]; norm_num)
      (by rw [abs_of_nonneg (by norm_num)]; norm_num)
      (by norm_num)
      (by rw [abs_lt]; constructor <;> norm_num)
      (by rw [abs_of_nonneg (by norm_num)]; norm_num)
    rw [h]; norm_num
  have a1 : rnd ((125 / 64 : ℚ) * 5) = (625 / 64) := (round64_eq_fin _ _ a1r).1.symm
  have a2r : round64 ((625 / 64 : ℚ) * (3602879701896397 / 36028797018963968)) = fin (125 / 128) :=
      by
    have h := round64_eq ((625 / 64 : ℚ) * (3602879701896397 / 36028797018963968)) (-1)
        (8796093022208000)
      (by rw [abs_of_nonneg (by norm_num)]; norm_num)
      (by rw [abs_of_nonneg (by norm_num)]; norm_num)
      (by norm_num)
      (by rw [abs_lt]; constructor <;> norm_num)
      (by rw [abs_of_nonneg (by norm_num)]; norm_num)
    rw [h]; norm_num
  have a2 : rnd ((625 / 64 : ℚ) * (3602879701896397 / 36028797018963968)) = (125 / 128) :=
      (round64_eq_fin _ _ a2r).1.symm
  have a3r : round64 ((125 / 64 : ℚ) - (125 / 128)) = fin (125 / 128) := by
    have h := round64_eq ((125 / 64 : ℚ) - (125 / 128)) (-1) (8796093022208000)
      (by rw [abs_of_nonneg (by norm_num)]; norm_num)
      (by rw [abs_of_nonneg (by norm_num)]; norm_num)
      (by norm_num)
      (by rw [abs_lt]; constructor <;> norm_num)
      (by rw [abs_of_nonneg (by norm_num)]; norm_num)
    rw [h]; norm_num
  have a3 : rnd ((125 / 64 : ℚ) - (125 / 128)) = (125 / 128) := (round64_eq_fin _ _ a3r).1.symm
  refine ⟨a1, a2, ?_⟩
  unfold decay
  rw [a1, a2, a3]

theorem halving_decay_9 :
    rnd ((125 / 128 : ℚ) * 5) = (625 / 128) ∧ rnd ((625 / 128 : ℚ) * tenth) = (125 / 256) ∧
    decay 5 tenth (125 / 128) = (125 / 256) := by
  unfold tenth
  have a1r : round64 ((125 / 128 : ℚ) * 5) = fin (625 / 128) := by
    have h := round64_eq ((125 / 128 : ℚ) * 5) (2) (5497558138880000)
      (by rw [abs_of_nonneg (by norm_num)]; norm_num)
      (by rw [abs_of_nonneg (by norm_num)]; norm_num)
      (by norm_num)
      (by rw [abs_lt]; constructor <;> norm_num)
      (by rw [abs_of_nonneg (by norm_num)]; norm_num)
    rw [h]; norm_num
  have a1 : rnd ((125 / 128 : ℚ) * 5) = (625 / 128) := (round64_eq_fin _ _ a1r).1.symm
  have a2r : round64 ((625 / 128 : ℚ) * (3602879701896397 / 36028797018963968)) = fin (125 / 256) :=
      by
    have h := round64_eq ((625 / 128 : ℚ) * (3602879701896397 / 36028797018963968)) (-2)
        (8796093022208000)
      (by rw [abs_of_nonneg (by norm_num)]; norm_num)
      (by rw [abs_of_nonneg (by norm_num)]; norm_num)
      (by norm_num)
      (by rw [abs_lt]; constructor <;> norm_num)
      (by rw [abs_of_nonneg (by norm_num)]; norm_num)
    rw [h]; norm_num
  have a2 : rnd ((625 / 128 : ℚ) * (3602879701896397 / 36028797018963968)) = (125 / 256) :=
      (round64_eq_fin _ _ a2r).1.symm
  have a3r : round64 ((125 / 128 : ℚ) - (125 / 256)) = fin (125 / 256) := by
    have h := round64_eq ((125 / 128 : ℚ) - (125 / 256)) (-2) (8796093022208000)
      (by rw [abs_of_nonneg (by norm_num)]; norm_num)
      (by rw [abs_of_nonneg (by norm_num)]; norm_num)
      (by norm_num)
      (by rw [abs_lt]; constructor <;> norm_num)
      (by rw [abs_of_nonneg (by norm_num)]; norm_num)
    rw [h]; norm_num
  have a3 : rnd ((125 / 128 : ℚ) - (125 / 256)) = (125 / 256) := (round64_eq_fin _ _ a3r).1.symm
  refine ⟨a1, a2, ?_⟩
  unfold decay
  rw [a1, a2, a3]

/-! ## Zero-input steps outside the regime of convergence, evaluated -/

theorem grow_decay :
    rnd ((500 : ℚ) * 5) = 2500 ∧ rnd ((2500 : ℚ) * 1) = 2500 ∧
    decay 5 1 500 = (-2000) := by
  have a1r : round64 ((500 : ℚ) * 5) = fin 2500 := by
    have h := round64_eq ((500 : ℚ) * 5) (11) (5497558138880000)
      (by rw [abs_of_nonneg (by norm_num)]; norm_num)
      (by rw [abs_of_nonneg (by norm_num)]; norm_num)
      (by norm_num)
      (by rw [abs_lt]; constructor <;> norm_num)
      (by rw [abs_of_nonneg (by norm_num)]; norm_num)
    rw [h]; norm_num
  have a1 : rnd ((500 : ℚ) * 5) = 2500 := (round64_eq_fin _ _ a1r).1.symm
  have a2r : round64 ((2500 : ℚ) * 1) = fin 2500 := by
    have h := round64_eq ((2500 : ℚ) * 1) (11) (5497558138880000)
      (by rw [abs_of_nonneg (by norm_num)]; norm_num)
      (by rw [abs_of_nonneg (by norm_num)]; norm_num)
      (by norm_num)
      (by rw [abs_lt]; constructor <;> norm_num)
      (by rw [abs_of_nonneg (by norm_num)]; norm_num)
    rw [h]; norm_num
  have a2 : rnd ((2500 : ℚ) * 1) = 2500 := (round64_eq_fin _ _ a2r).1.symm
  have a3r : round64 ((500 : ℚ) - 2500) = fin (-2000) := by
    have h := round64_eq ((500 : ℚ) - 2500) (10) (-8796093022208000)
      (by rw [abs_of_nonpos (by norm_num)]; norm_num)
      (by rw [abs_of_nonpos (by norm_num)]; norm_num)
      (by norm_num)
      (by rw [abs_lt]; constructor <;> norm_num)
      (by rw [abs_of_nonpos (by norm_num)]; norm_num)
    rw [h]; norm_num
  have a3 : rnd ((500 : ℚ) - 2500) = (-2000) := (round64_eq_fin _ _ a3r).1.symm
  refine ⟨a1, a2, ?_⟩
  unfold decay
  rw [a1, a2, a3]

theorem stuck_decay :
    rnd ((500 : ℚ) * 5) = 2500 ∧ rnd ((2500 : ℚ) * (1 / 2 ^ 60)) = (625 / 2 ^ 58) ∧
    decay 5 (1 / 2 ^ 60) 500 = 500 := by
  have a1r : round64 ((500 : ℚ) * 5) = fin 2500 := by
    have h := round64_eq ((500 : ℚ) * 5) (11) (5497558138880000)
      (by rw [abs_of_nonneg (by norm_num)]; norm_num)
      (by rw [abs_of_nonneg (by norm_num)]; norm_num)
      (by norm_num)
      (by rw [abs_lt]; constructor <;> norm_num)
      (by rw [abs_of_nonneg (by norm_num)]; norm_num)
    rw [h]; norm_num
  have a1 : rnd ((500 : ℚ) * 5) = 2500 := (round64_eq_fin _ _ a1r).1.symm
  have a2r : round64 ((2500 : ℚ) * (1 / 2 ^ 60)) = fin (625 / 2 ^ 58) := by
    have h := round64_eq ((2500 : ℚ) * (1 / 2 ^ 60)) (-49) (5497558138880000)
      (by rw [abs_of_nonneg (by norm_num)]; norm_num)
      (by rw [abs_of_nonneg (by norm_num)]; norm_num)
      (by norm_num)
      (by rw [abs_lt]; constructor <;> norm_num)
      (by rw [abs_of_nonneg (by norm_num)]; norm_num)
    rw [h]; norm_num
  have a2 : rnd ((2500 : ℚ) * (1 / 2 ^ 60)) = (625 / 2 ^ 58) := (round64_eq_fin _ _ a2r).1.symm
  have a3r : round64 ((500 : ℚ) - (625 / 2 ^ 58)) = fin 500 := by
    have h := round64_eq ((500 : ℚ) - (625 / 2 ^ 58)) (8) (8796093022208000)
      (by rw [abs_of_nonneg (by norm_num)]; norm_num)
      (by rw [abs_of_nonneg (by norm_num)]; norm_num)
      (by norm_num)
      (by rw [abs_lt]; constructor <;> norm_num)
      (by rw [abs_of_nonneg (by norm_num)]; norm_num)
    rw [h]; norm_num
  have a3 : rnd ((500 : ℚ) - (625 / 2 ^ 58)) = 500 := (round64_eq_fin _ _ a3r).1.symm
  refine ⟨a1, a2, ?_⟩
  unfold decay
  rw [a1, a2, a3]

theorem subnormal_decay_x :
    rnd ((1 / 2 ^ 1074 : ℚ) * (9 / 16)) = (1 / 2 ^ 1074) ∧ rnd ((1 / 2 ^ 1074 : ℚ) * (21 / 8)) = (3
        / 2 ^ 1074) ∧
    decay (9 / 16) (21 / 8) (1 / 2 ^ 1074) = (-1 / 2 ^ 1073) := by
  have a1r : round64 ((1 / 2 ^ 1074 : ℚ) * (9 / 16)) = fin (1 / 2 ^ 1074) := by
    have h := round64_eq_subnormal ((1 / 2 ^ 1074 : ℚ) * (9 / 16)) (1)
      (by norm_num)
      (by rw [abs_of_nonneg (by norm_num)]; norm_num)
      (by rw [abs_lt]; constructor <;> norm_num)
      (by rw [abs_of_nonneg (by norm_num)]; norm_num)
    rw [h]; norm_num
  have a1 : rnd ((1 / 2 ^ 1074 : ℚ) * (9 / 16)) = (1 / 2 ^ 1074) := (round64_eq_fin _ _ a1r).1.symm
  have a2r : round64 ((1 / 2 ^ 1074 : ℚ) * (21 / 8)) = fin (3 / 2 ^ 1074) := by
    have h := round64_eq_subnormal ((1 / 2 ^ 1074 : ℚ) * (21 / 8)) (3)
      (by norm_num)
      (by rw [abs_of_nonneg (by norm_num)]; norm_num)
      (by rw [abs_lt]; constructor <;> norm_num)
      (by rw [abs_of_nonneg (by norm_num)]; norm_num)
    rw [h]; norm_num
  have a2 : rnd ((1 / 2 ^ 1074 : ℚ) * (21 / 8)) = (3 / 2 ^ 1074) := (round64_eq_fin _ _ a2r).1.symm
  have a3r : round64 ((1 / 2 ^ 1074 : ℚ) - (3 / 2 ^ 1074)) = fin (-1 / 2 ^ 1073) := by
    have h := round64_eq_subnormal ((1 / 2 ^ 1074 : ℚ) - (3 / 2 ^ 1074)) (-2)
      (by norm_num)
      (by rw [abs_of_nonpos (by norm_num)]; norm_num)
      (by rw [abs_lt]; constructor <;> norm_num)
      (by rw [abs_of_nonpos (by norm_num)]; norm_num)
    rw [h]; norm_num
  have a3 : rnd ((1 / 2 ^ 1074 : ℚ) - (3 / 2 ^ 1074)) = (-1 / 2 ^ 1073) := (round64_eq_fin _ _
      a3r).1.symm
  refine ⟨a1, a2, ?_⟩
  unfold decay
  rw [a1, a2, a3]

theorem subnormal_decay_y :
    rnd ((500 : ℚ) * (9 / 16)) = (1125 / 4) ∧ rnd ((1125 / 4 : ℚ) * (21 / 8)) = (23625 / 32) ∧
    decay (9 / 16) (21 / 8) 500 = (-7625 / 32) := by
  have a1r : round64 ((500 : ℚ) * (9 / 16)) = fin (1125 / 4) := by
    have h := round64_eq ((500 : ℚ) * (9 / 16)) (8) (4947802324992000)
      (by rw [abs_of_nonneg (by norm_num)]; norm_num)
      (by rw [abs_of_nonneg (by norm_num)]; norm_num)
      (by norm_num)
      (by rw [abs_lt]; constructor <;> norm_num)
      (by rw [abs_of_nonneg (by norm_num)]; norm_num)
    rw [h]; norm_num
  have a1 : rnd ((500 : ℚ) * (9 / 16)) = (1125 / 4) := (round64_eq_fin _ _ a1r).1.symm
  have a2r : round64 ((1125 / 4 : ℚ) * (21 / 8)) = fin (23625 / 32) := by
    have h := round64_eq ((1125 / 4 : ℚ) * (21 / 8)) (9) (6493990551552000)
      (by rw [abs_of_nonneg (by norm_num)]; norm_num)
      (by rw [abs_of_nonneg (by norm_num)]; norm_num)
      (by norm_num)
      (by rw [abs_lt]; constructor <;> norm_num)
      (by rw [abs_of_nonneg (by norm_num)]; norm_num)
    rw [h]; norm_num
  have a2 : rnd ((1125 / 4 : ℚ) * (21 / 8)) = (23625 / 32) := (round64_eq_fin _ _ a2r).1.symm
  have a3r : round64 ((500 : ℚ) - (23625 / 32)) = fin (-7625 / 32) := by
    have h := round64_eq ((500 : ℚ) - (23625 / 32)) (7) (-8383776161792000)
      (by rw [abs_of_nonpos (by norm_num)]; norm_num)
      (by rw [abs_of_nonpos (by norm_num)]; norm_num)
      (by norm_num)
      (by rw [abs_lt]; constructor <;> norm_num)
      (by rw [abs_of_nonpos (by norm_num)]; norm_num)
    rw [h]; norm_num
  have a3 : rnd ((500 : ℚ) - (23625 / 32)) = (-7625 / 32) := (round64_eq_fin _ _ a3r).1.symm
  refine ⟨a1, a2, ?_⟩
  unfold decay
  rw [a1, a2, a3]

theorem tiny_decay :
    rnd ((1 / 2 ^ 1074 : ℚ) * (1 / 2)) = 0 ∧ rnd ((0 : ℚ) * 1) = 0 ∧
    decay (1 / 2) 1 (1 / 2 ^ 1074) = (1 / 2 ^ 1074) := by
  have a1r : round64 ((1 / 2 ^ 1074 : ℚ) * (1 / 2)) = fin 0 := by
    have h := round64_eq_subnormal_tie ((1 / 2 ^ 1074 : ℚ) * (1 / 2)) (0)
      (by norm_num)
      (by rw [abs_of_nonneg (by norm_num)]; norm_num)
      (by rw [abs_of_nonneg (by norm_num)]; norm_num)
      (by norm_num)
      (by rw [abs_of_nonneg (by norm_num)]; norm_num)
    rw [h]; norm_num
  have a1 : rnd ((1 / 2 ^ 1074 : ℚ) * (1 / 2)) = 0 := (round64_eq_fin _ _ a1r).1.symm
  have a2r : round64 ((0 : ℚ) * 1) = fin 0 := by
    rw [show ((0 : ℚ) * 1 : ℚ) = 0 from by norm_num]; exact round64_zero
  have a2 : rnd ((0 : ℚ) * 1) = 0 := (round64_eq_fin _ _ a2r).1.symm
  have a3r : round64 ((1 / 2 ^ 1074 : ℚ) - 0) = fin (1 / 2 ^ 1074) := by
    have h := round64_eq_subnormal ((1 / 2 ^ 1074 : ℚ) - 0) (1)
      (by norm_num)
      (by rw [abs_of_nonneg (by norm_num)]; norm_num)
      (by rw [abs_lt]; constructor <;> norm_num)
      (by rw [abs_of_nonneg (by norm_num)]; norm_num)
    rw [h]; norm_num
  have a3 : rnd ((1 / 2 ^ 1074 : ℚ) - 0) = (1 / 2 ^ 1074) := (round64_eq_fin _ _ a3r).1.symm
  refine ⟨a1, a2, ?_⟩
  unfold decay
  rw [a1, a2, a3]

/-! ## Zero input converges to rest (C7) -/

/-- C7 (amended): in binary64, for every `damper > 0` and fixed `dt > 0` with
`2 ^ (-51) ≤ damper * dt ≤ 1`, every `vel_threshold ≥ 2 ^ (-1022)` with
`vel_threshold * damper ≥ 2 ^ (-1022)`, a finite accelerator, and every starting engine state
whose velocity components are doubles `v` with `|v| < 2 ^ 1023` and
`|v| * damper < 2 ^ 1023` (the residual is arbitrary): repeatedly applying the tick with
accumulated input `(0, 0)` keeps the velocity finite, makes the magnitude of each velocity
component non-increasing from tick to tick, and there is a tick count `N` from which on every
tick reports settled. -/
theorem zero_input_converges (d a t h vx vy : ℚ) (rx ry : Dbl)
    (hd : 0 < d) (hh : 0 < h)
    (hl : (2 : ℚ) ^ (-51 : ℤ) ≤ d * h) (hdh : d * h ≤ 1)
    (ht : (2 : ℚ) ^ (-1022 : ℤ) ≤ t) (htd : (2 : ℚ) ^ (-1022 : ℤ) ≤ t * d)
    (gx : Grid vx) (gy : Grid vy)
    (bx : |vx| < (2 : ℚ) ^ (1023 : ℕ)) (bxd : |vx| * d < (2 : ℚ) ^ (1023 : ℕ))
    (by1 : |vy| < (2 : ℚ) ^ (1023 : ℕ)) (byd : |vy| * d < (2 : ℚ) ^ (1023 : ℕ)) :
    (∀ n : Nat, ∃ ux uy wx wy : ℚ,
      (zeroTicks ⟨fin d, fin a, fin t⟩ (fin h) ⟨fin vx, fin vy, rx, ry⟩ n).vx = fin ux ∧
      (zeroTicks ⟨fin d, fin a, fin t⟩ (fin h) ⟨fin vx, fin vy, rx, ry⟩ n).vy = fin uy ∧
      (zeroTicks ⟨fin d, fin a, fin t⟩ (fin h) ⟨fin vx, fin vy, rx, ry⟩ (n + 1)).vx = fin wx ∧
      (zeroTicks ⟨fin d, fin a, fin t⟩ (fin h) ⟨fin vx, fin vy, rx, ry⟩ (n + 1)).vy = fin wy ∧
      |wx| ≤ |ux| ∧ |wy| ≤ |uy|) ∧
    (∃ N : Nat, ∀ n : Nat, N ≤ n →
      (CalcMouseTrace ⟨fin d, fin a, fin t⟩
        (zeroTicks ⟨fin d, fin a, fin t⟩ (fin h) ⟨fin vx, fin vy, rx, ry⟩ n)
        ⟨0, 0⟩ (fin h)).2.2 = true) := by
  have ht0 : 0 < t := lt_of_lt_of_le (by positivity) ht
  constructor
  · intro n
    obtain ⟨ux, uy, e1, e2, g1, g2, l1, l2⟩ :=
      zeroTicks_invariant d a t h vx vy rx ry hd hh hdh gx gy n bx bxd by1 byd
    rcases hS : zeroTicks ⟨fin d, fin a, fin t⟩ (fin h) ⟨fin vx, fin vy, rx, ry⟩ n with
      ⟨s1, s2, s3, s4⟩
    rw [hS] at e1 e2
    simp only at e1 e2
    subst e1 e2
    have c1 : |ux| * d ≤ |vx| * d := mul_le_mul_of_nonneg_right l1 hd.le
    have c2 : |uy| * d ≤ |vy| * d := mul_le_mul_of_nonneg_right l2 hd.le
    obtain ⟨-, k1, k2⟩ := zero_tick d a t h ux uy s3 s4 hd hh hdh g1 g2
      (lt_of_le_of_lt l1 bx) (lt_of_le_of_lt c1 bxd) (lt_of_le_of_lt l2 by1)
      (lt_of_le_of_lt c2 byd)
    have a1 := abs_decay_le d h ux hd hh hdh g1
    have a2 := abs_decay_le d h uy hd hh hdh g2
    refine ⟨ux, uy,
      if |decay d h ux| < t ∧ |decay d h uy| < t then 0 else decay d h ux,
      if |decay d h ux| < t ∧ |decay d h uy| < t then 0 else decay d h uy,
      rfl, rfl, ?_, ?_, ?_, ?_⟩
    · show (CalcMouseTrace _ (zeroTicks _ _ _ n) ⟨0, 0⟩ (fin h)).1.vx = _
      rw [hS]; exact k1
    · show (CalcMouseTrace _ (zeroTicks _ _ _ n) ⟨0, 0⟩ (fin h)).1.vy = _
      rw [hS]; exact k2
    · split
      · rw [abs_zero]; exact abs_nonneg _
      · exact a1
    · split
      · rw [abs_zero]; exact abs_nonneg _
      · exact a2
  · obtain ⟨nx, ex⟩ := grid_natAbs vx gx
    obtain ⟨ny, ey⟩ := grid_natAbs vy gy
    obtain ⟨N, hN⟩ := zero_input_settles d a t h hd hh hl hdh ht htd (nx + ny) vx vy rx ry
      gx gy bx bxd by1 byd (by rw [ex, ey]; push_cast; linarith)
    exact ⟨N, settled_forever d a t h ht0 _ N hN⟩

/-- The scenario of the specification: with `damper = 5` and `dt` the double nearest `0.1`
the zero-input step halves the velocities `500 / 2 ^ n`, `n ≤ 9`, exactly. -/
theorem halving_decay (n : Nat) (hn : n ≤ 9) :
    decay 5 tenth (500 * (1 / 2) ^ n) = 500 * (1 / 2) ^ (n + 1) := by
  interval_cases n
  · have := halving_decay_0.2.2; norm_num at this ⊢; exact this
  · have := halving_decay_1.2.2; norm_num at this ⊢; exact this
  · have := halving_decay_2.2.2; norm_num at this ⊢; exact this
  · have := halving_decay_3.2.2; norm_num at this ⊢; exact this
  · have := halving_decay_4.2.2; norm_num at this ⊢; exact this
  · have := halving_decay_5.2.2; norm_num at this ⊢; exact this
  · have := halving_decay_6.2.2; norm_num at this ⊢; exact this
  · have := halving_decay_7.2.2; norm_num at this ⊢; exact this
  · have := halving_decay_8.2.2; norm_num at this ⊢; exact this
  · have := halving_decay_9.2.2; norm_num at this ⊢; exact this

theorem grid_halving (n : Nat) (hn : n ≤ 10) : Grid (500 * (1 / 2 : ℚ) ^ n) := by
  have h := grid_dyadic 500 n (by norm_num) (by omega)
  have e : ((500 : ℤ) : ℚ) / (2 : ℚ) ^ n = 500 * (1 / 2 : ℚ) ^ n := by
    rw [one_div, inv_pow]; push_cast; ring
  rw [e] at h
  exact h

/-- One tick of the scenario of the specification, from the velocity `500 / 2 ^ n`. -/
theorem halving_tick (n : Nat) (hn : n ≤ 9) (s3 s4 : Dbl) :
    (CalcMouseTrace config ⟨fin (500 * (1 / 2) ^ n), fin 0, s3, s4⟩ ⟨0, 0⟩ (fin tenth)).2.2 =
      decide (n = 9) ∧
    (CalcMouseTrace config ⟨fin (500 * (1 / 2) ^ n), fin 0, s3, s4⟩ ⟨0, 0⟩ (fin tenth)).1.vx =
      fin (if n = 9 then 0 else 500 * (1 / 2) ^ (n + 1)) ∧
    (CalcMouseTrace config ⟨fin (500 * (1 / 2) ^ n), fin 0, s3, s4⟩ ⟨0, 0⟩ (fin tenth)).1.vy =
      fin 0 := by
  have hp : (0 : ℚ) < (1 / 2) ^ n := by positivity
  have hp1 : ((1 : ℚ) / 2) ^ n ≤ 1 := pow_le_one₀ (by norm_num) (by norm_num)
  have hb : |500 * (1 / 2 : ℚ) ^ n| ≤ 500 := by
    rw [abs_of_nonneg (by positivity)]; linarith
  obtain ⟨k0, k1, k2⟩ := zero_tick 5 5 (1 / 2) tenth (500 * (1 / 2) ^ n) 0 s3 s4
    (by norm_num) (by norm_num [tenth]) (by norm_num [tenth]) (grid_halving n (by omega))
    grid_zero (lt_of_le_of_lt hb (by norm_num))
    (lt_of_le_of_lt (mul_le_mul_of_nonneg_right hb (by norm_num)) (by norm_num))
    (by norm_num) (by norm_num)
  rw [halving_decay n hn, decay_zero] at k0 k1 k2
  have hc : (|500 * (1 / 2 : ℚ) ^ (n + 1)| < 1 / 2 ∧ |(0 : ℚ)| < 1 / 2) ↔ n = 9 := by
    rw [abs_of_nonneg (by positivity)]
    constructor
    · intro h
      by_contra h9
      have h8 : n + 1 ≤ 9 := by omega
      have : ((1 : ℚ) / 2) ^ 9 ≤ (1 / 2) ^ (n + 1) :=
        pow_le_pow_of_le_one (by norm_num) (by norm_num) h8
      norm_num at this
      have h1 := h.1
      linarith
    · intro h
      subst h
      norm_num
  refine ⟨?_, ?_, ?_⟩
  · show (CalcMouseTrace ⟨fin 5, fin 5, fin (1 / 2)⟩ _ _ _).2.2 = _
    rw [k0]
    exact decide_eq_decide.mpr hc
  · show (CalcMouseTrace ⟨fin 5, fin 5, fin (1 / 2)⟩ _ _ _).1.vx = _
    rw [k1]
    by_cases h9 : n = 9
    · rw [if_pos (hc.mpr h9), if_pos h9]
    · rw [if_neg (fun h => h9 (hc.mp h)), if_neg h9]
  · show (CalcMouseTrace ⟨fin 5, fin 5, fin (1 / 2)⟩ _ _ _).1.vy = _
    rw [k2]
    split <;> rfl

/-- In the scenario of the specification the velocity after `n ≤ 9` zero-input ticks is
`500 / 2 ^ n`. -/
theorem halving_velocity (n : Nat) (hn : n ≤ 9) :
    (zeroTicks config (fin tenth) ⟨fin 500, fin 0, fin 0, fin 0⟩ n).vx =
      fin (500 * (1 / 2) ^ n) ∧
    (zeroTicks config (fin tenth) ⟨fin 500, fin 0, fin 0, fin 0⟩ n).vy = fin 0 := by
  induction n with
  | zero => exact ⟨by simp [zeroTicks], rfl⟩
  | succ n ih =>
    obtain ⟨e1, e2⟩ := ih (by omega)
    rcases hS : zeroTicks config (fin tenth) ⟨fin 500, fin 0, fin 0, fin 0⟩ n with
      ⟨s1, s2, s3, s4⟩
    rw [hS] at e1 e2
    simp only at e1 e2
    subst e1 e2
    obtain ⟨-, k1, k2⟩ := halving_tick n (by omega) s3 s4
    rw [if_neg (by omega)] at k1
    constructor
    · show (CalcMouseTrace config (zeroTicks _ _ _ n) ⟨0, 0⟩ (fin tenth)).1.vx = _
      rw [hS]; exact k1
    · show (CalcMouseTrace config (zeroTicks _ _ _ n) ⟨0, 0⟩ (fin tenth)).1.vy = _
      rw [hS]; exact k2

/-- In that scenario the tenth zero-input tick is the first to report settled. -/
theorem tenth_tick_settles (n : Nat) (hn : n ≤ 9) :
    (CalcMouseTrace config (zeroTicks config (fin tenth) ⟨fin 500, fin 0, fin 0, fin 0⟩ n)
      ⟨0, 0⟩ (fin tenth)).2.2 = decide (n = 9) := by
  obtain ⟨e1, e2⟩ := halving_velocity n hn
  rcases hS : zeroTicks config (fin tenth) ⟨fin 500, fin 0, fin 0, fin 0⟩ n with
    ⟨s1, s2, s3, s4⟩
  rw [hS] at e1 e2
  simp only at e1 e2
  subst e1 e2
  exact (halving_tick n hn s3 s4).1

/-- Witness of C7 (amended), the scenario of the specification: `damper = 5`,
`vel_threshold = 0.5`, `dt` the double nearest `0.1`, starting velocity `(500, 0)`; there the
velocity halves with each of the first nine ticks, the first nine ticks are not settled and
the tenth is. -/
theorem zero_input_converges_witness :
    ((0 : ℚ) < 5 ∧ 0 < tenth ∧ (2 : ℚ) ^ (-51 : ℤ) ≤ 5 * tenth ∧ 5 * tenth ≤ 1 ∧
      (2 : ℚ) ^ (-1022 : ℤ) ≤ 1 / 2 ∧ (2 : ℚ) ^ (-1022 : ℤ) ≤ 1 / 2 * 5 ∧
      Grid 500 ∧ Grid 0 ∧
      |(500 : ℚ)| < (2 : ℚ) ^ (1023 : ℕ) ∧ |(500 : ℚ)| * 5 < (2 : ℚ) ^ (1023 : ℕ) ∧
      |(0 : ℚ)| < (2 : ℚ) ^ (1023 : ℕ) ∧ |(0 : ℚ)| * 5 < (2 : ℚ) ^ (1023 : ℕ)) ∧
    (∀ n : Nat, ∃ ux uy wx wy : ℚ,
      (zeroTicks config (fin tenth) ⟨fin 500, fin 0, fin 0, fin 0⟩ n).vx = fin ux ∧
      (zeroTicks config (fin tenth) ⟨fin 500, fin 0, fin 0, fin 0⟩ n).vy = fin uy ∧
      (zeroTicks config (fin tenth) ⟨fin 500, fin 0, fin 0, fin 0⟩ (n + 1)).vx = fin wx ∧
      (zeroTicks config (fin tenth) ⟨fin 500, fin 0, fin 0, fin 0⟩ (n + 1)).vy = fin wy ∧
      |wx| ≤ |ux| ∧ |wy| ≤ |uy|) ∧
    (∃ N : Nat, ∀ n : Nat, N ≤ n →
      (CalcMouseTrace config
        (zeroTicks config (fin tenth) ⟨fin 500, fin 0, fin 0, fin 0⟩ n)
        ⟨0, 0⟩ (fin tenth)).2.2 = true) ∧
    (∀ n : Nat, n ≤ 9 →
      (zeroTicks config (fin tenth) ⟨fin 500, fin 0, fin 0, fin 0⟩ n).vx =
        fin (500 * (1 / 2) ^ n)) ∧
    (∀ n : Nat, n ≤ 9 →
      (CalcMouseTrace config (zeroTicks config (fin tenth) ⟨fin 500, fin 0, fin 0, fin 0⟩ n)
        ⟨0, 0⟩ (fin tenth)).2.2 = decide (n = 9)) := by
  have h1 : (0 : ℚ) < 5 := by norm_num
  have h2 : 0 < tenth := by norm_num [tenth]
  have h3 : (2 : ℚ) ^ (-51 : ℤ) ≤ 5 * tenth := by norm_num [tenth]
  have h4 : 5 * tenth ≤ 1 := by norm_num [tenth]
  have h5 : (2 : ℚ) ^ (-1022 : ℤ) ≤ 1 / 2 := by norm_num
  have h6 : (2 : ℚ) ^ (-1022 : ℤ) ≤ 1 / 2 * 5 := by norm_num
  have h7 : Grid 500 := by simpa using grid_intCast 500 (by norm_num)
  have h8 : |(500 : ℚ)| < (2 : ℚ) ^ (1023 : ℕ) := by norm_num
  have h9 : |(500 : ℚ)| * 5 < (2 : ℚ) ^ (1023 : ℕ) := by norm_num
  have h10 : |(0 : ℚ)| < (2 : ℚ) ^ (1023 : ℕ) := by norm_num
  have h11 : |(0 : ℚ)| * 5 < (2 : ℚ) ^ (1023 : ℕ) := by norm_num
  exact ⟨⟨h1, h2, h3, h4, h5, h6, h7, grid_zero, h8, h9, h10, h11⟩,
    (zero_input_converges 5 5 (1 / 2) tenth 500 0 (fin 0) (fin 0) h1 h2 h3 h4 h5 h6 h7
      grid_zero h8 h9 h10 h11).1,
    (zero_input_converges 5 5 (1 / 2) tenth 500 0 (fin 0) (fin 0) h1 h2 h3 h4 h5 h6 h7
      grid_zero h8 h9 h10 h11).2,
    fun n hn => (halving_velocity n hn).1, tenth_tick_settles⟩

/-! ## Zero input: where the velocity does not decay (C7) -/

/-- The flag and the stored velocity of a zero-input tick whose three operations per axis have
known finite results. -/
theorem zero_tick_of_decay (d a t h ux uy : ℚ) (rx ry : Dbl) (y1 x1 w1 y2 x2 w2 : ℚ)
    (e1 : rnd (ux * d) = y1 ∧ rnd (y1 * h) = x1 ∧ decay d h ux = w1)
    (e2 : rnd (uy * d) = y2 ∧ rnd (y2 * h) = x2 ∧ decay d h uy = w2)
    (b1 : |y1| < (2 : ℚ) ^ (1024 : ℕ) ∧ |x1| < (2 : ℚ) ^ (1024 : ℕ) ∧
      |w1| < (2 : ℚ) ^ (1024 : ℕ))
    (b2 : |y2| < (2 : ℚ) ^ (1024 : ℕ) ∧ |x2| < (2 : ℚ) ^ (1024 : ℕ) ∧
      |w2| < (2 : ℚ) ^ (1024 : ℕ)) :
    (CalcMouseTrace ⟨fin d, fin a, fin t⟩ ⟨fin ux, fin uy, rx, ry⟩ ⟨0, 0⟩ (fin h)).2.2 =
      decide (|w1| < t ∧ |w2| < t) ∧
    (CalcMouseTrace ⟨fin d, fin a, fin t⟩ ⟨fin ux, fin uy, rx, ry⟩ ⟨0, 0⟩ (fin h)).1.vx =
      fin (if |w1| < t ∧ |w2| < t then 0 else w1) ∧
    (CalcMouseTrace ⟨fin d, fin a, fin t⟩ ⟨fin ux, fin uy, rx, ry⟩ ⟨0, 0⟩ (fin h)).1.vy =
      fin (if |w1| < t ∧ |w2| < t then 0 else w2) := by
  apply tick_velocity _ _ _ _ t _ _ rfl
  · rw [integrate_vx, ← e1.2.2]
    apply axis_zero_of_bounds
    · rw [e1.1]; exact b1.1
    · rw [e1.1, e1.2.1]; exact b1.2.1
    · rw [e1.2.2]; exact b1.2.2
  · rw [integrate_vy, ← e2.2.2]
    apply axis_zero_of_bounds
    · rw [e2.1]; exact b2.1
    · rw [e2.1, e2.2.1]; exact b2.2.1
    · rw [e2.2.2]; exact b2.2.2

theorem zero_decay_steps (d h : ℚ) :
    rnd (0 * d) = 0 ∧ rnd (0 * h) = 0 ∧ decay d h 0 = 0 :=
  ⟨by rw [zero_mul, rnd_zero], by rw [zero_mul, rnd_zero], decay_zero d h⟩

/-- A velocity `(v, 0)` that the zero-input step leaves unchanged and that is not below the
threshold stays forever, and no tick settles. -/
theorem stuck_forever (d a t h v : ℚ) (rx ry : Dbl) (hd : 0 < d) (hh : 0 < h)
    (hdh : d * h ≤ 1) (g : Grid v) (bv : |v| < (2 : ℚ) ^ (1023 : ℕ))
    (bvd : |v| * d < (2 : ℚ) ^ (1023 : ℕ)) (hdec : decay d h v = v) (hv : t ≤ |v|) (n : Nat) :
    (zeroTicks ⟨fin d, fin a, fin t⟩ (fin h) ⟨fin v, fin 0, rx, ry⟩ n).vx = fin v ∧
    (zeroTicks ⟨fin d, fin a, fin t⟩ (fin h) ⟨fin v, fin 0, rx, ry⟩ n).vy = fin 0 ∧
    (CalcMouseTrace ⟨fin d, fin a, fin t⟩
      (zeroTicks ⟨fin d, fin a, fin t⟩ (fin h) ⟨fin v, fin 0, rx, ry⟩ n)
      ⟨0, 0⟩ (fin h)).2.2 = false := by
  have hc : ¬ (|decay d h v| < t ∧ |decay d h 0| < t) := by
    rw [hdec]; intro h1; exact absurd h1.1 (not_lt.mpr hv)
  have step : ∀ s3 s4 : Dbl,
      (CalcMouseTrace ⟨fin d, fin a, fin t⟩ ⟨fin v, fin 0, s3, s4⟩ ⟨0, 0⟩ (fin h)).2.2 =
        false ∧
      (CalcMouseTrace ⟨fin d, fin a, fin t⟩ ⟨fin v, fin 0, s3, s4⟩ ⟨0, 0⟩ (fin h)).1.vx =
        fin v ∧
      (CalcMouseTrace ⟨fin d, fin a, fin t⟩ ⟨fin v, fin 0, s3, s4⟩ ⟨0, 0⟩ (fin h)).1.vy =
        fin 0 := by
    intro s3 s4
    obtain ⟨k0, k1, k2⟩ := zero_tick d a t h v 0 s3 s4 hd hh hdh g grid_zero bv bvd
      (by rw [abs_zero]; positivity) (by rw [abs_zero, zero_mul]; positivity)
    rw [if_neg hc] at k1 k2
    rw [hdec] at k1
    rw [decay_zero] at k2
    exact ⟨by rw [k0]; exact decide_eq_false hc, k1, k2⟩
  induction n with
  | zero => exact ⟨rfl, rfl, (step rx ry).1⟩
  | succ n ih =>
    obtain ⟨e1, e2, -⟩ := ih
    rcases hS : zeroTicks ⟨fin d, fin a, fin t⟩ (fin h) ⟨fin v, fin 0, rx, ry⟩ n with
      ⟨s1, s2, s3, s4⟩
    rw [hS] at e1 e2
    simp only at e1 e2
    subst e1 e2
    obtain ⟨-, k1, k2⟩ := step s3 s4
    have hS2 : zeroTicks ⟨fin d, fin a, fin t⟩ (fin h) ⟨fin v, fin 0, rx, ry⟩ (n + 1) =
        (CalcMouseTrace ⟨fin d, fin a, fin t⟩ ⟨fin v, fin 0, s3, s4⟩ ⟨0, 0⟩ (fin h)).1 := by
      show (CalcMouseTrace _ (zeroTicks _ _ _ n) ⟨0, 0⟩ (fin h)).1 = _
      rw [hS]
    rcases hT : (CalcMouseTrace ⟨fin d, fin a, fin t⟩ ⟨fin v, fin 0, s3, s4⟩ ⟨0, 0⟩
      (fin h)).1 with ⟨t1, t2, t3, t4⟩
    rw [hT] at k1 k2 hS2
    simp only at k1 k2
    subst k1 k2
    rw [hS2]
    exact ⟨rfl, rfl, (step t3 t4).1⟩

theorem round64_pinf (q : ℚ) (g : Grid q) (h : (2 : ℚ) ^ (1024 : ℕ) ≤ q) : round64 q = pinf := by
  unfold round64
  rw [rnd_of_grid q g, if_pos h]

/-- C7, as stated, fails, in five ways (default configuration unless said otherwise, zero
input throughout). With `dt = 1`, so that `damper * dt = 5`, the velocity `(500, 0)` becomes
`(-2000, 0)`, of larger magnitude. With `dt = 2 ^ (-60)` the decrement of the velocity
`(500, 0)` is lost in the rounding of the subtraction: the velocity stays `(500, 0)` for ever
and no tick settles. With `damper * dt` between 1 and 2 (`damper = 9/16`, `dt = 21/8`) the
component `2 ^ (-1074)` of the velocity `(2 ^ (-1074), 500)` becomes `-2 ^ (-1073)`, of larger
magnitude, in a tick that is not settled. With the velocity `(2 ^ 1023, 0)` and `dt = 1/8`
the product `vx * damper` overflows and the velocity becomes `-inf`. With `damper = 1/2`,
`dt = 1` and `vel_threshold = 2 ^ (-1074)` the velocity `(2 ^ (-1074), 0)` stays for ever
(`v * damper` rounds to `0`) and no tick settles. -/
theorem zero_input_velocity_grows :
    ((CalcMouseTrace config ⟨fin 500, fin 0, fin 0, fin 0⟩ ⟨0, 0⟩ (fin 1)).1.vx =
        fin (-2000) ∧
      (CalcMouseTrace config ⟨fin 500, fin 0, fin 0, fin 0⟩ ⟨0, 0⟩ (fin 1)).2.2 = false ∧
      ¬ (|(-2000 : ℚ)| ≤ |(500 : ℚ)|)) ∧
    (∀ n : Nat,
      (zeroTicks config (fin (1 / 2 ^ 60)) ⟨fin 500, fin 0, fin 0, fin 0⟩ n).vx = fin 500 ∧
      (zeroTicks config (fin (1 / 2 ^ 60)) ⟨fin 500, fin 0, fin 0, fin 0⟩ n).vy = fin 0 ∧
      (CalcMouseTrace config
        (zeroTicks config (fin (1 / 2 ^ 60)) ⟨fin 500, fin 0, fin 0, fin 0⟩ n)
        ⟨0, 0⟩ (fin (1 / 2 ^ 60))).2.2 = false) ∧
    ((CalcMouseTrace ⟨fin (9 / 16), fin 5, fin (1 / 2)⟩
          ⟨fin (1 / 2 ^ 1074), fin 500, fin 0, fin 0⟩ ⟨0, 0⟩ (fin (21 / 8))).1.vx =
        fin (-1 / 2 ^ 1073) ∧
      (CalcMouseTrace ⟨fin (9 / 16), fin 5, fin (1 / 2)⟩
          ⟨fin (1 / 2 ^ 1074), fin 500, fin 0, fin 0⟩ ⟨0, 0⟩ (fin (21 / 8))).2.2 = false ∧
      ¬ (|(-1 / 2 ^ 1073 : ℚ)| ≤ |(1 / 2 ^ 1074 : ℚ)|)) ∧
    ((CalcMouseTrace config ⟨fin (2 ^ 1023), fin 0, fin 0, fin 0⟩ ⟨0, 0⟩ (fin (1 / 8))).1.vx =
        ninf ∧
      (CalcMouseTrace config ⟨fin (2 ^ 1023), fin 0, fin 0, fin 0⟩ ⟨0, 0⟩ (fin (1 / 8))).2.2 =
        false) ∧
    (∀ n : Nat,
      (zeroTicks ⟨fin (1 / 2), fin 5, fin (1 / 2 ^ 1074)⟩ (fin 1)
        ⟨fin (1 / 2 ^ 1074), fin 0, fin 0, fin 0⟩ n).vx = fin (1 / 2 ^ 1074) ∧
      (zeroTicks ⟨fin (1 / 2), fin 5, fin (1 / 2 ^ 1074)⟩ (fin 1)
        ⟨fin (1 / 2 ^ 1074), fin 0, fin 0, fin 0⟩ n).vy = fin 0 ∧
      (CalcMouseTrace ⟨fin (1 / 2), fin 5, fin (1 / 2 ^ 1074)⟩
        (zeroTicks ⟨fin (1 / 2), fin 5, fin (1 / 2 ^ 1074)⟩ (fin 1)
          ⟨fin (1 / 2 ^ 1074), fin 0, fin 0, fin 0⟩ n)
        ⟨0, 0⟩ (fin 1)).2.2 = false) := by
  refine ⟨?_, ?_, ?_, ?_, ?_⟩
  · obtain ⟨k0, k1, -⟩ := zero_tick_of_decay 5 5 (1 / 2) 1 500 0 (fin 0) (fin 0)
      2500 2500 (-2000) 0 0 0 grow_decay (zero_decay_steps 5 1)
      ⟨by norm_num, by norm_num, by norm_num⟩ ⟨by norm_num, by norm_num, by norm_num⟩
    have hc : ¬ (|(-2000 : ℚ)| < 1 / 2 ∧ |(0 : ℚ)| < 1 / 2) := by
      rw [abs_of_nonpos (by norm_num)]; norm_num
    rw [if_neg hc] at k1
    refine ⟨k1, k0.trans (decide_eq_false hc), ?_⟩
    rw [abs_of_nonpos (by norm_num), abs_of_nonneg (by norm_num)]
    norm_num
  · intro n
    exact stuck_forever 5 5 (1 / 2) (1 / 2 ^ 60) 500 (fin 0) (fin 0) (by norm_num)
      (by norm_num) (by norm_num) (by simpa using grid_intCast 500 (by norm_num))
      (by norm_num) (by norm_num) stuck_decay.2.2
      (by rw [abs_of_nonneg (by norm_num)]; norm_num) n
  · obtain ⟨k0, k1, -⟩ := zero_tick_of_decay (9 / 16) 5 (1 / 2) (21 / 8) (1 / 2 ^ 1074) 500
      (fin 0) (fin 0) (1 / 2 ^ 1074) (3 / 2 ^ 1074) (-1 / 2 ^ 1073) (1125 / 4) (23625 / 32)
      (-7625 / 32) subnormal_decay_x subnormal_decay_y
      ⟨by rw [abs_of_nonneg (by norm_num)]; norm_num,
        by rw [abs_of_nonneg (by norm_num)]; norm_num,
        by rw [abs_of_nonpos (by norm_num)]; norm_num⟩
      ⟨by rw [abs_of_nonneg (by norm_num)]; norm_num,
        by rw [abs_of_nonneg (by norm_num)]; norm_num,
        by rw [abs_of_nonpos (by norm_num)]; norm_num⟩
    have hc : ¬ (|(-1 / 2 ^ 1073 : ℚ)| < 1 / 2 ∧ |(-7625 / 32 : ℚ)| < 1 / 2) := by
      intro h
      have h2 := h.2
      rw [abs_of_nonpos (by norm_num)] at h2
      norm_num at h2
    rw [if_neg hc] at k1
    refine ⟨k1, k0.trans (decide_eq_false hc), ?_⟩
    rw [abs_of_nonpos (by norm_num), abs_of_nonneg (by norm_num)]
    norm_num
  · have g : Grid ((2 : ℚ) ^ 1023 * 5) := ⟨5, 1023, by norm_num, by norm_num, by
      rw [show ((1023 : ℤ)) = ((1023 : ℕ) : ℤ) from rfl, zpow_natCast]; push_cast; ring⟩
    have e1 : fin ((2 : ℚ) ^ 1023) * fin 5 = pinf := by
      rw [fin_mul_fin]
      exact round64_pinf _ g (by norm_num)
    have hi : (integrate config ⟨fin (2 ^ 1023), fin 0, fin 0, fin 0⟩ ⟨0, 0⟩ (fin (1 / 8))).vx =
        ninf := by
      rw [integrate_vx]
      show fin (2 ^ 1023) + (instVelocity 0 (fin (1 / 8)) * fin 5 - fin (2 ^ 1023) * fin 5) *
        fin (1 / 8) = ninf
      rw [instVelocity_zero, e1, fin_mul_fin, zero_mul, round64_zero]
      show fin (2 ^ 1023) + (ninf * fin (1 / 8)) = ninf
      rw [ninf_mul_fin]
      have : infTimes false (1 / 8) = ninf := by
        unfold infTimes
        norm_num
      rw [this]
      rfl
    have hf : (CalcMouseTrace config ⟨fin (2 ^ 1023), fin 0, fin 0, fin 0⟩ ⟨0, 0⟩
        (fin (1 / 8))).2.2 = false := by
      rw [CalcMouseTrace_flag, hi, fabs_ninf, lt_pinf_left]
      rfl
    refine ⟨?_, hf⟩
    rw [CalcMouseTrace_state, hf, if_neg (by simp)]
    exact hi
  · intro n
    exact stuck_forever (1 / 2) 5 (1 / 2 ^ 1074) 1 (1 / 2 ^ 1074) (fin 0) (fin 0)
      (by norm_num) (by norm_num) (by norm_num)
      ⟨1, -1074, by norm_num, by norm_num, by norm_num⟩
      (by rw [abs_of_nonneg (by norm_num)]; norm_num)
      (by rw [abs_of_nonneg (by norm_num)]; norm_num) tiny_decay.2.2
      (by rw [abs_of_nonneg (by norm_num)]) n

end SSMM
